import Mathlib

/-!
# Beaver-Run physics engine: a shallow embedding

The C sources (`vector.c`, `polygon.c`, `body.c`, `collision.c`, `forces.c`,
`scene.c`, `list.c`) are embedded as Lean functions.

* A C `double` is a value of `Dbl K`: either a finite number of an ordered field
  `K` (arithmetic on finite values is exact, no rounding), or one of the IEEE
  special values `+inf`, `-inf`, `NaN`.  The special values follow the IEEE rules
  (`1/inf = 0`, `0*inf = NaN`, comparisons with `NaN` are false ...).  Signed
  zeros are not distinguished.
* `sqrt` of libm is a parameter (`Libm.sqrt`), so the definitions run on `ℚ`
  and the theorems also hold for the real numbers; `sin` and `cos` are the
  parameter `Trig`.
* Bodies live in a memory indexed by their address; lists of `body_t *` are
  lists of addresses.
* `size_t` counters are natural numbers reduced modulo `2^64`.
-/

set_option linter.unusedSectionVars false
set_option linter.unusedVariables false

namespace BeaverRun

/-! ## Doubles -/

/-- A C double: a finite number, or an IEEE special value. -/
inductive Dbl (K : Type) where
  | fin (q : K)
  | pinf
  | ninf
  | nan
  deriving DecidableEq, Repr

/-- The functions of libm the engine calls on finite arguments. -/
structure Libm (K : Type) where
  sqrt : K → K

namespace Dbl

variable {K : Type} [LinearOrderedField K]

/-- The macro INFINITY of math.h. -/
def INFINITY : Dbl K := pinf

/-- Sign-directed infinity: the result of a non-zero finite value times `+inf`. -/
def signedInf (a : K) : Dbl K := if a = 0 then nan else if 0 < a then pinf else ninf

/-- C `a + b`. -/
def add : Dbl K → Dbl K → Dbl K
  | fin a, fin b => fin (a + b)
  | fin _, pinf => pinf
  | fin _, ninf => ninf
  | pinf, fin _ => pinf
  | ninf, fin _ => ninf
  | pinf, pinf => pinf
  | ninf, ninf => ninf
  | _, _ => nan

/-- C unary minus. -/
def neg : Dbl K → Dbl K
  | fin a => fin (-a)
  | pinf => ninf
  | ninf => pinf
  | nan => nan

/-- C `a * b`. -/
def mul : Dbl K → Dbl K → Dbl K
  | fin a, fin b => fin (a * b)
  | fin a, pinf => signedInf a
  | fin a, ninf => signedInf (-a)
  | pinf, fin b => signedInf b
  | ninf, fin b => signedInf (-b)
  | pinf, pinf => pinf
  | ninf, ninf => pinf
  | pinf, ninf => ninf
  | ninf, pinf => ninf
  | _, _ => nan

/-- C `a / b` (a zero divisor counts as `+0`). -/
def div : Dbl K → Dbl K → Dbl K
  | fin a, fin b => if b = 0 then signedInf a else fin (a / b)
  | fin _, pinf => fin 0
  | fin _, ninf => fin 0
  | pinf, fin b => if 0 ≤ b then pinf else ninf
  | ninf, fin b => if 0 ≤ b then ninf else pinf
  | _, _ => nan

/-- C `a < b`. -/
def lt : Dbl K → Dbl K → Bool
  | fin a, fin b => decide (a < b)
  | fin _, pinf => true
  | ninf, fin _ => true
  | ninf, pinf => true
  | _, _ => false

/-- C `a == b`: false as soon as one side is NaN. -/
def feq : Dbl K → Dbl K → Bool
  | fin a, fin b => decide (a = b)
  | pinf, pinf => true
  | ninf, ninf => true
  | _, _ => false

/-- C `a != b`. -/
def fne (a b : Dbl K) : Bool := !(feq a b)

/-- C `sqrt(a)`. -/
def sqrt (M : Libm K) : Dbl K → Dbl K
  | fin a => if a < 0 then nan else fin (M.sqrt a)
  | pinf => pinf
  | _ => nan

/-- C `fabs(a)`. -/
def fabs : Dbl K → Dbl K
  | fin a => fin |a|
  | pinf => pinf
  | ninf => pinf
  | nan => nan

instance : Add (Dbl K) := ⟨add⟩
instance : Neg (Dbl K) := ⟨neg⟩
instance : Sub (Dbl K) := ⟨fun a b => add a (neg b)⟩
instance : Mul (Dbl K) := ⟨mul⟩
instance : Div (Dbl K) := ⟨div⟩
instance : LT (Dbl K) := ⟨fun a b => lt a b = true⟩
instance (a b : Dbl K) : Decidable (a < b) := inferInstanceAs (Decidable (lt a b = true))

/-- C `pow(a, 2)`. -/
def sq (a : Dbl K) : Dbl K := a * a

end Dbl

/-! ## vector.c -/

/-- The struct vector_t. -/
structure Vec (K : Type) where
  x : Dbl K
  y : Dbl K
  deriving DecidableEq, Repr

section Vector

variable {K : Type} [LinearOrderedField K]

/-- A vector with finite coordinates. -/
def Vec.fin (x y : K) : Vec K := ⟨Dbl.fin x, Dbl.fin y⟩

def VEC_ZERO : Vec K := ⟨Dbl.fin 0, Dbl.fin 0⟩

def vec_add (v1 v2 : Vec K) : Vec K :=
  let x_add := v1.x + v2.x
  let y_add := v1.y + v2.y
  ⟨x_add, y_add⟩

def vec_multiply (scalar : Dbl K) (v : Vec K) : Vec K :=
  ⟨v.x * scalar, v.y * scalar⟩

def vec_negate (v : Vec K) : Vec K := vec_multiply (Dbl.fin (-1)) v

def vec_subtract (v1 v2 : Vec K) : Vec K :=
  let neg_v2 := vec_negate v2
  vec_add v1 neg_v2

def vec_dot (v1 v2 : Vec K) : Dbl K :=
  let x_add := v1.x * v2.x
  let y_add := v1.y * v2.y
  x_add + y_add

def vec_cross (v1 v2 : Vec K) : Dbl K := v1.x * v2.y - v1.y * v2.x

def normalize (M : Libm K) (vec : Vec K) : Vec K :=
  let norm := Dbl.sqrt M (vec_dot vec vec)
  if Dbl.fne norm (Dbl.fin 0) then vec_multiply (Dbl.fin 1 / norm) vec else vec

def distance (M : Libm K) (v1 v2 : Vec K) : Dbl K :=
  Dbl.sqrt M (Dbl.sq (v1.x - v2.x) + Dbl.sq (v1.y - v2.y))

def vec_project (line1 line2 : Vec K) : Vec K :=
  vec_multiply (vec_dot line1 line2 / vec_dot line2 line2) line2

def vec_opposite (M : Libm K) (v1 v2 : Vec K) : Bool :=
  let v1 := normalize M v1
  let v2 := vec_negate (normalize M v2)
  Dbl.lt (distance M v1 v2) (Dbl.fin (1 / 1000))

end Vector

/-! ## list.c -/

/-- The size of a `size_t`. -/
def SIZE_MOD : Nat := 2 ^ 64

/-- The function list_get: it asserts that the index is in range. -/
def list_get {α : Type} (list : List α) (index : Nat) : Option α := list[index]?

/-- The function list_remove at an index in range: the later elements shift down by one. -/
def list_remove {α : Type} (list : List α) (index : Nat) : List α := list.eraseIdx index

/-! ## polygon.c -/

section Polygon

variable {K : Type} [LinearOrderedField K]

/-- The pairs `list_get(polygon, i)`, `list_get(polygon, (i + 1) % num)` for `i` from `0`
to `num - 1`, which the loops over the edges of a polygon visit in this order. -/
def edges (polygon : List (Vec K)) : List (Vec K × Vec K) :=
  (List.range polygon.length).map fun i =>
    (polygon.getD i VEC_ZERO, polygon.getD ((i + 1) % polygon.length) VEC_ZERO)

def polygon_area (polygon : List (Vec K)) : Dbl K :=
  let area := (edges polygon).foldl
    (fun area e => area + (Dbl.fin 1 / Dbl.fin 2) * vec_cross e.1 e.2) (Dbl.fin 0)
  Dbl.fabs area

def polygon_centroid (polygon : List (Vec K)) : Vec K :=
  let A := polygon_area polygon
  let toreturn := (edges polygon).foldl
    (fun (t : Vec K) e =>
      ⟨t.x + (e.1.x + e.2.x) * vec_cross e.1 e.2, t.y + (e.1.y + e.2.y) * vec_cross e.1 e.2⟩)
    (⟨Dbl.fin 0, Dbl.fin 0⟩ : Vec K)
  vec_multiply (Dbl.fin 1 / (Dbl.fin 6 * A)) toreturn

def polygon_translate (polygon : List (Vec K)) (translation : Vec K) : List (Vec K) :=
  polygon.map fun p => vec_add p translation

end Polygon

/-! ## body.c -/

/-- The struct body_t.  The colour, the picture and the destructor of the info are left
out; `info` is the `type` field of the `info_t` the body points to, if any. -/
structure Body (K : Type) where
  shape : List (Vec K)
  forces : Vec K
  impulses : Vec K
  mass : Dbl K
  friction_coeff : Dbl K
  velocity : Vec K
  center : Vec K
  info : Option Nat
  remove : Bool
  score : Dbl K
  remaining_lives : Nat
  slow : Bool
  double_points : Bool
  magnet : Bool
  deriving DecidableEq, Repr

section BodyOps

variable {K : Type} [LinearOrderedField K]

/-- The constructor body_init_with_info.  The field `double_points` is not assigned by
the constructor: `garbage` is what the fresh allocation holds there. -/
def body_init_with_info (shape : List (Vec K)) (mass : Dbl K) (info : Option Nat)
    (garbage : Bool) : Body K :=
  { shape := shape
    mass := mass
    velocity := VEC_ZERO
    forces := VEC_ZERO
    impulses := VEC_ZERO
    center := polygon_centroid shape
    info := info
    remove := false
    score := Dbl.fin 0
    remaining_lives := 0
    friction_coeff := Dbl.fin 0
    slow := false
    double_points := garbage
    magnet := false }

def body_init (shape : List (Vec K)) (mass : Dbl K) (garbage : Bool) : Body K :=
  body_init_with_info shape mass none garbage

def body_get_shape (body : Body K) : List (Vec K) :=
  body.shape.map fun v => ⟨v.x, v.y⟩

def body_get_centroid (body : Body K) : Vec K := body.center

def body_get_velocity (body : Body K) : Vec K := body.velocity

def body_get_mass (body : Body K) : Dbl K := body.mass

def body_set_centroid (body : Body K) (vec : Vec K) : Body K :=
  let translate := vec_subtract vec body.center
  { body with shape := polygon_translate body.shape translate, center := ⟨vec.x, vec.y⟩ }

def body_set_velocity (body : Body K) (v : Vec K) : Body K := { body with velocity := v }

def body_get_score (body : Body K) : Dbl K := body.score

def body_add_score (body : Body K) (score : Dbl K) : Body K :=
  let new_score := body_get_score body + score
  { body with score := new_score }

def body_get_lives (body : Body K) : Nat := body.remaining_lives

def body_add_lives (body : Body K) (added_lives : Nat) : Body K :=
  { body with remaining_lives := (body_get_lives body + added_lives) % SIZE_MOD }

def body_reduce_live (body : Body K) : Body K :=
  { body with remaining_lives := (body.remaining_lives + SIZE_MOD - 1) % SIZE_MOD }

def body_negate_score (body : Body K) : Body K := { body with score := -body.score }

def body_add_force (body : Body K) (force : Vec K) : Body K :=
  { body with forces := vec_add body.forces force }

def body_add_impulse (body : Body K) (impulse : Vec K) : Body K :=
  { body with impulses := vec_add body.impulses impulse }

def body_remove (body : Body K) : Body K := { body with remove := true }

def body_is_removed (body : Body K) : Bool := body.remove

def body_set_slow (body : Body K) (b : Bool) : Body K := { body with slow := b }

def body_get_slow (body : Body K) : Bool := body.slow

def body_set_double_points (body : Body K) (b : Bool) : Body K :=
  { body with double_points := b }

def body_set_magnet (body : Body K) (b : Bool) : Body K := { body with magnet := b }

def body_tick (body : Body K) (dt : Dbl K) : Body K :=
  if !body_is_removed body then
    -- F = ma
    let a := vec_multiply (Dbl.fin 1 / body_get_mass body) body.forces
    -- J (impulse) = delta_v * m
    let delta_v := vec_multiply (Dbl.fin 1 / body_get_mass body) body.impulses
    let old_v := body.velocity
    let body := { body with velocity := vec_add delta_v (vec_add old_v (vec_multiply dt a)) }
    let distance := vec_multiply (dt / Dbl.fin 2) (vec_add old_v body.velocity)
    let old_center := body_get_centroid body
    let new_center := vec_add old_center distance
    let body := body_set_centroid body new_center
    let body := { body with forces := VEC_ZERO }
    { body with impulses := VEC_ZERO }
  else body

end BodyOps

/-! ## collision.c -/

/-- The struct projected_line_t. -/
structure ProjectedLine (K : Type) where
  max : Vec K
  min : Vec K
  deriving DecidableEq, Repr

/-- The struct collision_info_t. -/
structure CollisionInfo (K : Type) where
  collided : Bool
  axis : Vec K
  deriving DecidableEq, Repr

/-- The local variables of find_collision that its two loops update. -/
structure SatState (K : Type) where
  min_overlap_len : Dbl K
  min_overlap_axis : Vec K
  overlap : Bool
  deriving DecidableEq, Repr

section Collision

variable {K : Type} [LinearOrderedField K]

def find_min (a b : Dbl K) : Dbl K := if b < a then b else a

def find_perpline (p1 p2 : Vec K) : Vec K :=
  let line := vec_subtract p1 p2
  ⟨line.y, -line.x⟩

def point_project_to_line (p line : Vec K) : Vec K :=
  vec_multiply (vec_dot p line / vec_dot line line) line

/-- One iteration of the loop of shape_project_to_line, at index `i` on vertex `point`. -/
def project_step (line : Vec K) (acc : ProjectedLine K) (ip : Nat × Vec K) : ProjectedLine K :=
  let after_projected := point_project_to_line ip.2 line
  let acc : ProjectedLine K := if ip.1 = 0 then ⟨after_projected, after_projected⟩ else acc
  if Dbl.feq line.x (Dbl.fin 0) then
    let acc := if acc.max.y < after_projected.y then { acc with max := after_projected } else acc
    if after_projected.y < acc.min.y then { acc with min := after_projected } else acc
  else
    let acc := if acc.max.x < after_projected.x then { acc with max := after_projected } else acc
    if after_projected.x < acc.min.x then { acc with min := after_projected } else acc

/-- The function shape_project_to_line.  On an empty shape the C code returns
uninitialised memory; the embedding returns zero vectors there. -/
def shape_project_to_line (shape : List (Vec K)) (line : Vec K) : ProjectedLine K :=
  shape.enum.foldl (project_step line) ⟨VEC_ZERO, VEC_ZERO⟩

def two_segments_not_overlap (projline1 projline2 : ProjectedLine K) : Bool :=
  if Dbl.feq projline1.max.x (Dbl.fin 0) then
    Dbl.lt projline1.max.y projline2.min.y || Dbl.lt projline2.max.y projline1.min.y
  else
    Dbl.lt projline1.max.x projline2.min.x || Dbl.lt projline2.max.x projline1.min.x

/-- One of the two loops of find_collision, over the edges `(p1, p2)` of one shape.
It stops (`break`) at the first axis on which the projections are reported apart. -/
def sat_loop (M : Libm K) (shape1 shape2 : List (Vec K)) :
    List (Vec K × Vec K) → SatState K → SatState K
  | [], st => st
  | e :: rest, st =>
    let perp := find_perpline e.1 e.2
    let projline1 := shape_project_to_line shape1 perp
    let projline2 := shape_project_to_line shape2 perp
    if two_segments_not_overlap projline1 projline2 then
      { st with overlap := false }
    else
      let overlap_len := find_min (distance M projline1.max projline2.min)
        (distance M projline2.max projline1.min)
      let st := if Dbl.lt overlap_len st.min_overlap_len && Dbl.fne overlap_len (Dbl.fin 0) then
        { st with min_overlap_len := overlap_len, min_overlap_axis := perp } else st
      sat_loop M shape1 shape2 rest st

def find_collision (M : Libm K) (shape1 shape2 : List (Vec K)) : CollisionInfo K :=
  let st : SatState K := ⟨Dbl.INFINITY, VEC_ZERO, true⟩
  let st := sat_loop M shape1 shape2 (edges shape1) st
  let st := sat_loop M shape1 shape2 (edges shape2) st
  -- unit overlap_axis
  let min_overlap_axis := normalize M st.min_overlap_axis
  ⟨st.overlap, min_overlap_axis⟩

end Collision

/-! ## forces.c -/

/-- The memory holding the bodies: the body stored at each address. -/
abbrev Heap (K : Type) := Nat → Body K

/-- The collision handlers of forces.c, as the function pointer stored in an aux_t. -/
inductive Handler where
  | destroy_handler
  | physics_handler
  | half_collision_handler
  | remove_collision_handler
  | slow_collision_handler
  | double_point_collision_handler
  | magnet_collision_handler
  deriving DecidableEq, Repr

/-- The force creators of forces.c, as the function pointer stored in the scene. -/
inductive Forcer where
  | gravity_creator
  | earth_gravity_creator
  | spring_creator
  | drag_creator
  | collision_creator
  | normal_force_creator
  | buoyancy_creator
  deriving DecidableEq, Repr

/-- The struct aux_t.  `other_aux` is the `constant` field of the aux_t that the
pointer `other_aux` refers to, or `none` for a null pointer; `handler` is `none` for a
null function pointer. -/
structure Aux (K : Type) where
  bodies : List Nat
  constant : Dbl K
  other_aux : Option (Dbl K)
  handler : Option Handler
  collided_or_not : Bool
  deriving DecidableEq, Repr

def BLOCK_INFO : Nat := 7

section Forces

variable {K : Type} [LinearOrderedField K]

/-- Apply an update to the body stored at an address. -/
def Heap.modify (h : Heap K) (body : Nat) (f : Body K → Body K) : Heap K :=
  Function.update h body (f (h body))

def MIN_DISTANCE : Dbl K := Dbl.fin 10

def NON_CONSTANT : Dbl K := Dbl.fin (-1)

def aux_init (bodies : List Nat) (constant : Dbl K) : Aux K :=
  { bodies := bodies, constant := constant, other_aux := none, handler := none,
    collided_or_not := false }

/-- The function aux_get_body: list_get asserts that the index is in range. -/
def aux_get_body (aux : Aux K) (index : Nat) : Option Nat := list_get aux.bodies index

def aux_get_constant (aux : Aux K) : Dbl K := aux.constant

def gravity_creator (M : Libm K) (aux : Aux K) (h : Heap K) : Option (Heap K) := do
  let body1 ← aux_get_body aux 0
  let body2 ← aux_get_body aux 1
  let G := aux_get_constant aux
  let m1 := body_get_mass (h body1)
  let m2 := body_get_mass (h body2)
  let pos1 := body_get_centroid (h body1)
  let pos2 := body_get_centroid (h body2)
  let displacement := vec_subtract pos1 pos2
  let distance_squared := vec_dot displacement displacement
  let distance_squared :=
    if distance_squared < MIN_DISTANCE * MIN_DISTANCE then MIN_DISTANCE * MIN_DISTANCE
    else distance_squared
  let force_magnitude := G * m1 * m2 / distance_squared
  let force1 := vec_multiply force_magnitude (normalize M displacement)
  let h := h.modify body1 fun b => body_add_force b (vec_negate force1)
  some (h.modify body2 fun b => body_add_force b force1)

def earth_gravity_creator (aux : Aux K) (h : Heap K) : Option (Heap K) := do
  let body ← aux_get_body aux 0
  let g := aux_get_constant aux
  let m := body_get_mass (h body)
  let gravity : Vec K := ⟨Dbl.fin 0, -m * g⟩
  some (h.modify body fun b => body_add_force b gravity)

def spring_creator (aux : Aux K) (h : Heap K) : Option (Heap K) := do
  let body1 ← aux_get_body aux 0
  let body2 ← aux_get_body aux 1
  let k := aux_get_constant aux
  let displacement := vec_subtract (body_get_centroid (h body1)) (body_get_centroid (h body2))
  let force := vec_multiply (-k) displacement
  let h := h.modify body1 fun b => body_add_force b force
  some (h.modify body2 fun b => body_add_force b (vec_negate force))

def drag_creator (aux : Aux K) (h : Heap K) : Option (Heap K) := do
  let gamma := aux_get_constant aux
  let body ← aux_get_body aux 0
  let force := vec_multiply (-gamma) (body_get_velocity (h body))
  some (h.modify body fun b => body_add_force b force)

def buoyancy_creator (aux : Aux K) (h : Heap K) : Option (Heap K) := do
  let body ← aux_get_body aux 0
  let m := body_get_mass (h body)
  let a := aux_get_constant aux
  let buoyancy : Vec K := ⟨Dbl.fin 0, m * a⟩
  some (h.modify body fun b => body_add_force b buoyancy)

/-- The reduced mass computed by physics_handler and half_collision_handler. -/
def reduced_mass (m1 m2 : Dbl K) : Dbl K :=
  if Dbl.fne m1 Dbl.INFINITY && Dbl.fne m2 Dbl.INFINITY then (m1 * m2) / (m1 + m2)
  else if Dbl.feq m1 Dbl.INFINITY then m2
  else if Dbl.feq m2 Dbl.INFINITY then m1
  else Dbl.fin 0

def destroy_handler (body1 body2 : Nat) (h : Heap K) : Option (Heap K) :=
  let h := h.modify body1 body_remove
  some (h.modify body2 body_remove)

/-- The handler physics_handler; `aux` is the aux_t it is passed, and the info of a
body is dereferenced by info_type. -/
def physics_handler (body1 body2 : Nat) (axis : Vec K) (aux : Option (Dbl K)) (h : Heap K) :
    Option (Heap K) := do
  let elastity_constant ← aux
  let m1 := body_get_mass (h body1)
  let m2 := body_get_mass (h body2)
  let v1 := body_get_velocity (h body1)
  let v2 := body_get_velocity (h body2)
  let u1 := vec_dot v1 axis
  let u2 := vec_dot v2 axis
  let reduced_mass := reduced_mass m1 m2
  let impulse := vec_multiply (reduced_mass * (Dbl.fin 1 + elastity_constant) * (u2 - u1)) axis
  let impulse : Vec K := ⟨Dbl.fin 0, impulse.y⟩
  let type1 ← (h body1).info
  if type1 ≠ BLOCK_INFO then
    let type2 ← (h body2).info
    if type2 ≠ BLOCK_INFO then
      let h := h.modify body1 fun b => body_add_impulse b impulse
      some (h.modify body2 fun b => body_add_impulse b (vec_negate impulse))
    else
      let h := h.modify body1 fun b => body_add_impulse b impulse
      some (h.modify body2 body_remove)
  else
    let h := h.modify body2 fun b => body_add_impulse b (vec_negate impulse)
    some (h.modify body1 body_remove)

def half_collision_handler (body1 body2 : Nat) (axis : Vec K) (aux : Option (Dbl K))
    (h : Heap K) : Option (Heap K) := do
  let elastity_constant ← aux
  let m1 := body_get_mass (h body1)
  let m2 := body_get_mass (h body2)
  let v1 := body_get_velocity (h body1)
  let v2 := body_get_velocity (h body2)
  let u1 := vec_dot v1 axis
  let u2 := vec_dot v2 axis
  let reduced_mass := reduced_mass m1 m2
  let impulse := vec_multiply (reduced_mass * (Dbl.fin 1 + elastity_constant) * (u2 - u1)) axis
  let h := h.modify body1 fun b => body_add_impulse b impulse
  let h := h.modify body1 fun b => body_add_score b (body_get_score (h body2))
  let h := if body_get_score (h body2) < Dbl.fin 0 then h.modify body1 body_reduce_live else h
  some (h.modify body2 body_remove)

def remove_collision_handler (body1 body2 : Nat) (h : Heap K) : Option (Heap K) :=
  let h := h.modify body1 fun b => body_add_score b (body_get_score (h body2))
  let h := h.modify body1 fun b => body_add_lives b (body_get_lives (h body2))
  let h := if body_get_score (h body2) < Dbl.fin 0 then h.modify body1 body_reduce_live else h
  some (h.modify body2 body_remove)

def slow_collision_handler (M : Libm K) (body1 body2 : Nat) (h : Heap K) : Option (Heap K) :=
  let shape1 := body_get_shape (h body1)
  let shape2 := body_get_shape (h body2)
  let collision_info := find_collision M shape1 shape2
  let h := h.modify body2 body_remove
  if collision_info.collided then some (h.modify body1 fun b => body_set_slow b true)
  else some (h.modify body1 fun b => body_set_slow b false)

def double_point_collision_handler (M : Libm K) (body1 body2 : Nat) (h : Heap K) :
    Option (Heap K) :=
  let shape1 := body_get_shape (h body1)
  let shape2 := body_get_shape (h body2)
  let collision_info := find_collision M shape1 shape2
  let h := h.modify body2 body_remove
  if collision_info.collided then some (h.modify body1 fun b => body_set_double_points b true)
  else some (h.modify body1 fun b => body_set_double_points b false)

def magnet_collision_handler (M : Libm K) (body1 body2 : Nat) (h : Heap K) : Option (Heap K) :=
  let shape1 := body_get_shape (h body1)
  let shape2 := body_get_shape (h body2)
  let collision_info := find_collision M shape1 shape2
  let h := h.modify body2 body_remove
  if collision_info.collided then some (h.modify body1 fun b => body_set_magnet b true)
  else some (h.modify body1 fun b => body_set_magnet b false)

/-- The call `collision_handler(body1, body2, axis, aux)` through the function pointer. -/
def call_handler (M : Libm K) (handler : Handler) (body1 body2 : Nat) (axis : Vec K)
    (aux : Option (Dbl K)) (h : Heap K) : Option (Heap K) :=
  match handler with
  | .destroy_handler => destroy_handler body1 body2 h
  | .physics_handler => physics_handler body1 body2 axis aux h
  | .half_collision_handler => half_collision_handler body1 body2 axis aux h
  | .remove_collision_handler => remove_collision_handler body1 body2 h
  | .slow_collision_handler => slow_collision_handler M body1 body2 h
  | .double_point_collision_handler => double_point_collision_handler M body1 body2 h
  | .magnet_collision_handler => magnet_collision_handler M body1 body2 h

/-- The force creator collision_creator.  The third component of the result tells
whether this invocation called the handler. -/
def collision_creator (M : Libm K) (aux_var : Aux K) (h : Heap K) :
    Option (Aux K × Heap K × Bool) := do
  let body1 ← aux_get_body aux_var 0
  let body2 ← aux_get_body aux_var 1
  let shape1 := body_get_shape (h body1)
  let shape2 := body_get_shape (h body2)
  let collision_info := find_collision M shape1 shape2
  let axis := collision_info.axis
  if collision_info.collided then
    if aux_var.collided_or_not = false then
      let aux_var := { aux_var with collided_or_not := true }
      let collision_handler ← aux_var.handler
      let h ← call_handler M collision_handler body1 body2 axis aux_var.other_aux h
      if vec_opposite M (body_get_velocity (h body1)) (body_get_velocity (h body2)) then
        -- because the beaver's score is 0, we can negate it anyway
        let h := h.modify body1 body_negate_score
        some (aux_var, h.modify body2 body_negate_score, true)
      else some (aux_var, h, true)
    else some (aux_var, h, false)
  else some ({ aux_var with collided_or_not := false }, h, false)

def normal_force_creator (M : Libm K) (aux_var : Aux K) (h : Heap K) :
    Option (Aux K × Heap K) := do
  let body1 ← aux_get_body aux_var 0
  let body2 ← aux_get_body aux_var 1
  let G := aux_get_constant aux_var
  let m := body_get_mass (h body1)
  let shape1 := body_get_shape (h body1)
  let shape2 := body_get_shape (h body2)
  let collision_info := find_collision M shape1 shape2
  if collision_info.collided then
    let normal_force : Vec K := ⟨Dbl.fin 0, m * G⟩
    let h := h.modify body1 fun b => body_add_force b (vec_multiply (Dbl.fin 1) normal_force)
    if aux_var.collided_or_not = false then
      some ({ aux_var with collided_or_not := true },
        h.modify body1 fun b => body_set_velocity b ⟨Dbl.fin 0, Dbl.fin 0⟩)
    else some (aux_var, h)
  else some ({ aux_var with collided_or_not := false }, h)

end Forces

/-! ## scene.c -/

/-- The struct store_force_creator_t: the force creator, its aux_t and the list of the
bodies it depends on (a non-null list, as scene_add_bodies_force_creator receives from
every constructor of forces.c).  The destructor of the aux is left out. -/
structure ForceCreator (K : Type) where
  forcer : Forcer
  aux : Aux K
  bodies : List Nat
  deriving DecidableEq, Repr

/-- The struct scene_t, with the memory of the bodies its pointers refer to.  The
surfaces and fonts are left out. -/
structure Scene (K : Type) where
  mem : Heap K
  bodies : List Nat
  force_creators : List (ForceCreator K)
  score : Dbl K
  slow_speed : Bool
  have_double_points : Bool
  total_points : Dbl K

section SceneOps

variable {K : Type} [LinearOrderedField K]

def scene_add_body (scene : Scene K) (body : Nat) : Scene K :=
  { scene with bodies := scene.bodies ++ [body] }

def scene_change_score (scene : Scene K) (score : Dbl K) : Scene K :=
  { scene with score := scene.score + score }

def scene_add_bodies_force_creator (scene : Scene K) (forcer : Forcer) (aux : Aux K)
    (bodies : List Nat) : Scene K :=
  { scene with force_creators := scene.force_creators ++ [⟨forcer, aux, bodies⟩] }

/-- The function force_to_removed: does the dependency list hold this body pointer. -/
def force_to_removed (fc : ForceCreator K) (body_removed : Nat) : Bool :=
  fc.bodies.any fun bodyf => decide (bodyf = body_removed)

/-- The call `forcer(fc->aux)` through the function pointer of a stored force creator.
It returns the creator with its updated aux and the updated memory, or `none` when an
assertion fails or a null pointer is used. -/
def call_forcer (M : Libm K) (fc : ForceCreator K) (h : Heap K) :
    Option (ForceCreator K × Heap K) :=
  match fc.forcer with
  | .gravity_creator => (gravity_creator M fc.aux h).map fun h => (fc, h)
  | .earth_gravity_creator => (earth_gravity_creator fc.aux h).map fun h => (fc, h)
  | .spring_creator => (spring_creator fc.aux h).map fun h => (fc, h)
  | .drag_creator => (drag_creator fc.aux h).map fun h => (fc, h)
  | .buoyancy_creator => (buoyancy_creator fc.aux h).map fun h => (fc, h)
  | .collision_creator =>
    (collision_creator M fc.aux h).map fun r => ({ fc with aux := r.1 }, r.2.1)
  | .normal_force_creator =>
    (normal_force_creator M fc.aux h).map fun r => ({ fc with aux := r.1 }, r.2)

/-- The first loop of scene_tick: every force creator is called, in list order. -/
def apply_forces (M : Libm K) :
    List (ForceCreator K) → Heap K → Option (List (ForceCreator K) × Heap K)
  | [], h => some ([], h)
  | fc :: rest, h => do
    let r ← call_forcer M fc h
    let rs ← apply_forces M rest r.2
    some (r.1 :: rs.1, rs.2)

/-- The calls that the first loop of scene_tick makes: each force creator called, with
the memory it is called on. -/
def invocations (M : Libm K) : List (ForceCreator K) → Heap K → List (ForceCreator K × Heap K)
  | [], _ => []
  | fc :: rest, h =>
    (fc, h) :: match call_forcer M fc h with
      | some r => invocations M rest r.2
      | none => []

/-- The third loop of scene_tick: body_tick on every body of the scene. -/
def tick_bodies (bodies : List Nat) (dt : Dbl K) (h : Heap K) : Heap K :=
  bodies.foldl (fun h body => h.modify body fun b => body_tick b dt) h

/-- The inner loop of the sweep of scene_tick, from index `j`: the force creators that
depend on `body` are removed.  `fuel` bounds the number of iterations; `none` means that
it ran out. -/
def purge_loop (body : Nat) :
    Nat → Nat → List (ForceCreator K) → Option (List (ForceCreator K))
  | 0, _, _ => none
  | fuel + 1, j, fcs =>
    if j < fcs.length then
      match list_get fcs j with
      | none => none
      | some fc =>
        if force_to_removed fc body then
          let fcs := list_remove fcs j
          let j := (j + SIZE_MOD - 1) % SIZE_MOD
          purge_loop body fuel ((j + 1) % SIZE_MOD) fcs
        else purge_loop body fuel ((j + 1) % SIZE_MOD) fcs
    else some fcs

/-- The outer loop of the sweep of scene_tick, from index `i`: every body flagged as
removed is taken out of the scene with the force creators that depend on it, and its
score is added to that of the scene. -/
def sweep_loop : Nat → Nat → Scene K → Option (Scene K)
  | 0, _, _ => none
  | fuel + 1, i, scene =>
    if i < scene.bodies.length then
      match list_get scene.bodies i with
      | none => none
      | some body =>
        if body_is_removed (scene.mem body) then do
          let fcs ← purge_loop body (scene.force_creators.length + 1) 0 scene.force_creators
          let scene := { scene with force_creators := fcs }
          let scene := { scene with bodies := list_remove scene.bodies i }
          let score := body_get_score (scene.mem body)
          let scene := scene_change_score scene score
          let i := (i + SIZE_MOD - 1) % SIZE_MOD
          sweep_loop fuel ((i + 1) % SIZE_MOD) scene
        else sweep_loop fuel ((i + 1) % SIZE_MOD) scene
    else some scene

def scene_tick (M : Libm K) (scene : Scene K) (dt : Dbl K) : Option (Scene K) := do
  -- apply all forces
  let r ← apply_forces M scene.force_creators scene.mem
  let scene := { scene with force_creators := r.1, mem := r.2 }
  let scene :=
    if scene.bodies.any (fun body => body_get_slow (scene.mem body)) then
      { scene with slow_speed := true }
    else scene
  -- body tick for the rest of bodies
  let scene := { scene with mem := tick_bodies scene.bodies dt scene.mem }
  -- remove force creators if associated bodies are removed
  sweep_loop (scene.bodies.length + 1) 0 scene

/-- The scene after `n` consecutive calls of scene_tick with the same `dt`. -/
def scene_ticks (M : Libm K) (dt : Dbl K) : Nat → Scene K → Option (Scene K)
  | 0, scene => some scene
  | n + 1, scene => (scene_tick M scene dt).bind (scene_ticks M dt n)

end SceneOps

/-- An integer square root by search, exact on perfect squares. -/
def natSqrt (n : Nat) : Nat :=
  ((List.range (n + 1)).find? (fun k => decide (n < (k + 1) * (k + 1)))).getD 0

/-- A square root on the rationals that is exact on squares of rationals. -/
def libmQ : Libm ℚ := ⟨fun q => (natSqrt q.num.toNat : ℚ) / (natSqrt q.den : ℚ)⟩


/-! ## Drivers -/

section Drivers

variable {K : Type} [LinearOrderedField K]

/-- One simulation step seen from a single body: the finite force `(s.1.1, s.1.2)` and the
finite impulse `(s.2.1.1, s.2.1.2)` are accumulated on it with body_add_force and
body_add_impulse, then body_tick runs with the finite time step `s.2.2`. -/
def accumulate_and_tick (b : Body K) (s : (K × K) × (K × K) × K) : Body K :=
  body_tick (body_add_impulse (body_add_force b (Vec.fin s.1.1 s.1.2))
    (Vec.fin s.2.1.1 s.2.1.2)) (Dbl.fin s.2.2)

end Drivers

/-! ## forces.c: the constructors of force creators -/

section Constructors

variable {K : Type} [LinearOrderedField K]

def create_newtonian_gravity (scene : Scene K) (G : Dbl K) (body1 body2 : Nat) : Scene K :=
  let bodies := [body1, body2]
  scene_add_bodies_force_creator scene .gravity_creator (aux_init bodies G) bodies

def create_earth_gravity (scene : Scene K) (g : Dbl K) (body : Nat) : Scene K :=
  let bodies := [body]
  scene_add_bodies_force_creator scene .earth_gravity_creator (aux_init bodies g) bodies

def create_spring (scene : Scene K) (k : Dbl K) (body1 body2 : Nat) : Scene K :=
  let bodies := [body1, body2]
  scene_add_bodies_force_creator scene .spring_creator (aux_init bodies k) bodies

def create_drag (scene : Scene K) (gamma : Dbl K) (body : Nat) : Scene K :=
  let bodies := [body]
  scene_add_bodies_force_creator scene .drag_creator (aux_init bodies gamma) bodies

/-- The constructor create_collision; `aux` is the constant of the aux_t handed to the
handler, or `none` for a null pointer. -/
def create_collision (scene : Scene K) (body1 body2 : Nat) (handler : Handler)
    (aux : Option (Dbl K)) : Scene K :=
  let bodies := [body1, body2]
  let aux_new : Aux K := aux_init bodies NON_CONSTANT
  let aux_new := { aux_new with other_aux := aux }
  let aux_new := { aux_new with handler := some handler }
  scene_add_bodies_force_creator scene .collision_creator aux_new bodies

def create_destructive_collision (scene : Scene K) (body1 body2 : Nat) : Scene K :=
  create_collision scene body1 body2 .destroy_handler (some NON_CONSTANT)

def create_physics_collision (scene : Scene K) (elasticity : Dbl K) (body1 body2 : Nat) :
    Scene K :=
  create_collision scene body1 body2 .physics_handler (some elasticity)

def create_half_collision (scene : Scene K) (elasticity : Dbl K) (body1 body2 : Nat) :
    Scene K :=
  create_collision scene body1 body2 .half_collision_handler (some elasticity)

def create_remove_collision (scene : Scene K) (body1 body2 : Nat) : Scene K :=
  create_collision scene body1 body2 .remove_collision_handler (some NON_CONSTANT)

def create_slow_collision (scene : Scene K) (body1 body2 : Nat) : Scene K :=
  create_collision scene body1 body2 .slow_collision_handler (some NON_CONSTANT)

def create_double_points_collision (scene : Scene K) (body1 body2 : Nat) : Scene K :=
  create_collision scene body1 body2 .double_point_collision_handler (some NON_CONSTANT)

def create_magnet_collision (scene : Scene K) (body1 body2 : Nat) : Scene K :=
  create_collision scene body1 body2 .magnet_collision_handler (some NON_CONSTANT)

def create_normal_force (scene : Scene K) (g : Dbl K) (body1 body2 : Nat) : Scene K :=
  let bodies := [body1, body2]
  scene_add_bodies_force_creator scene .normal_force_creator (aux_init bodies g) bodies

def create_buoyancy (scene : Scene K) (constant : Dbl K) (body : Nat) : Scene K :=
  let bodies := [body]
  scene_add_bodies_force_creator scene .buoyancy_creator (aux_init bodies constant) bodies

/-- The scene of scene_init, on a memory of bodies.  The fields `slow_speed`,
`have_double_points` and `total_points`, which scene_init does not assign, hold what the
fresh allocation holds there. -/
def scene_init (mem : Heap K) (slow_speed have_double_points : Bool) (total_points : Dbl K) :
    Scene K :=
  { mem := mem, bodies := [], force_creators := [], score := Dbl.fin 0,
    slow_speed := slow_speed, have_double_points := have_double_points,
    total_points := total_points }

end Constructors

/-! ## The sweep of scene_tick, as a filter -/

section SweepSpec

variable {K : Type} [LinearOrderedField K]

/-- A force creator survives the sweep of the bodies `swept` when its dependency list
holds none of those that are flagged as removed in the memory `mem`. -/
def survives (mem : Heap K) (swept : List Nat) (fc : ForceCreator K) : Bool :=
  !(swept.any fun body => body_is_removed (mem body) && force_to_removed fc body)

/-- The score of the scene after the bodies of `swept` that are flagged as removed have
added theirs, in list order. -/
def swept_score (mem : Heap K) (swept : List Nat) (score : Dbl K) : Dbl K :=
  (swept.filter fun body => body_is_removed (mem body)).foldl
    (fun sc body => sc + body_get_score (mem body)) score

/-- Every body flagged as removed in the memory `h` is still flagged in `h2`. -/
def FlagMono (h h2 : Heap K) : Prop := ∀ x, (h x).remove = true → (h2 x).remove = true

end SweepSpec

/-! ## The calls of force creators over several ticks -/

section Runs

variable {K : Type} [LinearOrderedField K]

/-- The calls of force creators made by consecutive calls of scene_tick, one for each
time step of the list, started on `scene`: the calls of the first tick, then those of
the following ticks (none once a tick aborts). -/
def run_invocations (M : Libm K) :
    List (Dbl K) → Scene K → List (ForceCreator K × Heap K)
  | [], _ => []
  | dt :: dts, scene =>
    invocations M scene.force_creators scene.mem ++
      match scene_tick M scene dt with
      | some scene2 => run_invocations M dts scene2
      | none => []

end Runs

/-! ## A collision creator over consecutive ticks -/

section Debounce

variable {K : Type} [LinearOrderedField K]

/-- The calls of one collision creator on consecutive ticks: the call of tick `i` sees
the memory `hs[i]` (whatever the rest of the engine made of it) and the aux_t left by the
call before.  The result tells, for each tick, whether the handler was called; `none`
means that a call aborted. -/
def collision_run (M : Libm K) : Aux K → List (Heap K) → Option (List Bool)
  | _, [] => some []
  | aux, h :: hs => do
    let r ← collision_creator M aux h
    let rest ← collision_run M r.1 hs
    some (r.2.2 :: rest)

/-- The end of collision_creator, after the handler has returned the memory `h`: the
scores of both bodies are negated when vec_opposite holds of their velocities. -/
def scores_after_handler (M : Libm K) (body1 body2 : Nat) (h : Heap K) : Heap K :=
  if vec_opposite M (body_get_velocity (h body1)) (body_get_velocity (h body2)) then
    (h.modify body1 body_negate_score).modify body2 body_negate_score
  else h

/-- The calls of one collision creator on consecutive ticks, as collision_run, with the
memory that each call leaves: the call of tick `i` sees the memory `hs[i]` and the aux_t
left by the call before, and the result holds, for each tick, whether the handler was
called and the memory after the call. -/
def collision_trace (M : Libm K) : Aux K → List (Heap K) → Option (List (Bool × Heap K))
  | _, [] => some []
  | aux, h :: hs => do
    let r ← collision_creator M aux h
    let rest ← collision_trace M r.1 hs
    some ((r.2.2, r.2.1) :: rest)

/-- The overlap test of the bodies `body1` and `body2` on a memory: the flag returned by
find_collision on their shapes. -/
def overlap_test (M : Libm K) (body1 body2 : Nat) (h : Heap K) : Bool :=
  (find_collision M (body_get_shape (h body1)) (body_get_shape (h body2))).collided

/-- The overlap test at tick `i` (counted from 0) of a list of memories. -/
def overlap_at (M : Libm K) (body1 body2 : Nat) (hs : List (Heap K)) (i : Nat) : Bool :=
  match hs[i]? with
  | some h => overlap_test M body1 body2 h
  | none => false

end Debounce

/-! ## Axis-aligned rectangles -/

section Rectangles

variable {K : Type} [LinearOrderedField K]

/-- The axis-aligned rectangle with the opposite corners `(x0, y0)` and `(x1, y1)`, its
vertices listed from `(x0, y0)`, along the horizontal edge first (as make_shape_1 of the
collision test lists the square with the corners `(-1, -1)` and `(1, 1)`) or along the
vertical edge first.  The signs of `x1 - x0` and `y1 - y0` and the flag give the eight
ways of listing the vertices of a rectangle in cyclic order. -/
def rectangle (vertical_first : Bool) (x0 x1 y0 y1 : K) : List (Vec K) :=
  if vertical_first then [Vec.fin x0 y0, Vec.fin x0 y1, Vec.fin x1 y1, Vec.fin x1 y0]
  else [Vec.fin x0 y0, Vec.fin x1 y0, Vec.fin x1 y1, Vec.fin x0 y1]

end Rectangles

/-! ## Points inside a polygon -/

section Inside

variable {K : Type} [LinearOrderedField K]

/-- The point `q` lies strictly inside the convex polygon with counter-clockwise
vertices `polygon`: it is strictly to the left of every edge. -/
def strictly_inside (polygon : List (Vec K)) (q : Vec K) : Bool :=
  (edges polygon).all fun e =>
    Dbl.lt (Dbl.fin 0) (vec_cross (vec_subtract e.2 e.1) (vec_subtract q e.1))

end Inside

/-! ## Concrete inputs -/

/-- The square of make_shape_1 in the collision test: `[-1,1] x [-1,1]`. -/
def shape_1 : List (Vec ℚ) := [Vec.fin (-1) (-1), Vec.fin 1 (-1), Vec.fin 1 1, Vec.fin (-1) 1]

/-- The square of make_shape_3 in the collision test: `[1,3] x [-1,1]`. -/
def shape_3 : List (Vec ℚ) := [Vec.fin 1 (-1), Vec.fin 3 (-1), Vec.fin 3 1, Vec.fin 1 1]

/-- A body of mass 2 on the square shape_1, with force, impulse and velocity set. -/
def body_a : Body ℚ :=
  { shape := shape_1, forces := Vec.fin 2 4, impulses := Vec.fin 1 0, mass := Dbl.fin 2,
    friction_coeff := Dbl.fin 0, velocity := Vec.fin 3 (-1), center := Vec.fin 0 0,
    info := none, remove := false, score := Dbl.fin 0, remaining_lives := 0, slow := false,
    double_points := false, magnet := false }

/-- A wall: a body of mass INFINITY on the square shape_1, at rest. -/
def body_wall : Body ℚ :=
  { shape := shape_1, forces := Vec.fin 0 0, impulses := Vec.fin 0 0, mass := Dbl.INFINITY,
    friction_coeff := Dbl.fin 0, velocity := Vec.fin 0 0, center := Vec.fin 0 0,
    info := none, remove := false, score := Dbl.fin 0, remaining_lives := 0, slow := false,
    double_points := false, magnet := false }

/-- A scene holding the wall at address 0 and an earth-gravity creator (g = 10) on it, as
built by scene_add_body and create_earth_gravity. -/
def scene_wall : Scene ℚ :=
  { mem := fun _ => body_wall, bodies := [0],
    force_creators := [⟨.earth_gravity_creator, aux_init [0] (Dbl.fin 10), [0]⟩],
    score := Dbl.fin 0, slow_speed := false, have_double_points := false,
    total_points := Dbl.fin 0 }

/-- The body body_a after body_remove. -/
def body_gone : Body ℚ := body_remove body_a

/-- A drag creator on one body, as create_drag registers it. -/
def drag_on (gamma : ℚ) (body : Nat) : ForceCreator ℚ :=
  ⟨.drag_creator, aux_init [body] (Dbl.fin gamma), [body]⟩

/-- A scene of four bodies at the addresses 0 to 3, of which 1 and 2 are flagged as
removed, with one drag creator on each body, in the order of the bodies. -/
def scene_w : Scene ℚ :=
  { mem := fun p => if p = 1 ∨ p = 2 then body_gone else body_a, bodies := [0, 1, 2, 3],
    force_creators := [drag_on 1 0, drag_on 1 1, drag_on 1 2, drag_on 1 3],
    score := Dbl.fin 0, slow_speed := false, have_double_points := false,
    total_points := Dbl.fin 0 }

/-- The force creators and the memory that the first loop of scene_tick leaves on scene_w. -/
def forces_w : List (ForceCreator ℚ) × Heap ℚ :=
  (apply_forces libmQ scene_w.force_creators scene_w.mem).getD ([], scene_w.mem)

/-- A body at rest of mass 1 on a given shape with a given cached centroid. -/
def body_on (shape : List (Vec ℚ)) (cx cy : ℚ) : Body ℚ :=
  { shape := shape, forces := Vec.fin 0 0, impulses := Vec.fin 0 0, mass := Dbl.fin 1,
    friction_coeff := Dbl.fin 0, velocity := Vec.fin 0 0, center := Vec.fin cx cy,
    info := none, remove := false, score := Dbl.fin 0, remaining_lives := 0, slow := false,
    double_points := false, magnet := false }

/-- A scene of three bodies: the touching squares shape_1 (address 0) and shape_3
(address 1) of the collision test, and body_a (address 2); its force creators are, in
this order, a destructive collision between 0 and 1, a drag on 1 and a drag on 2. -/
def scene_c : Scene ℚ :=
  let mem : Heap ℚ := fun p =>
    if p = 0 then body_on shape_1 0 0 else if p = 1 then body_on shape_3 2 0 else body_a
  let scene := scene_init mem false false (Dbl.fin 0)
  let scene := scene_add_body (scene_add_body (scene_add_body scene 0) 1) 2
  let scene := create_destructive_collision scene 0 1
  let scene := create_drag scene (Dbl.fin 1) 1
  create_drag scene (Dbl.fin 1) 2

/-- The scene that scene_tick with `dt = 1` leaves of scene_c. -/
def scene_c2 : Scene ℚ := (scene_tick libmQ scene_c (Dbl.fin 1)).getD scene_c

/-- The first call of a force creator in scene_tick on scene_c: the collision creator. -/
def first_call_c : ForceCreator ℚ × Heap ℚ :=
  (⟨.collision_creator,
    { bodies := [0, 1], constant := NON_CONSTANT, other_aux := some NON_CONSTANT,
      handler := some .destroy_handler, collided_or_not := false }, [0, 1]⟩, scene_c.mem)

/-- A square far from shape_1: `[4,6] x [-1,1]`. -/
def shape_far : List (Vec ℚ) := [Vec.fin 4 (-1), Vec.fin 6 (-1), Vec.fin 6 1, Vec.fin 4 1]

/-- A memory in which the bodies 0 and 1 are the touching squares shape_1 and shape_3. -/
def mem_touch : Heap ℚ := fun p => if p = 0 then body_on shape_1 0 0 else body_on shape_3 2 0

/-- A memory in which the bodies 0 and 1 are the squares shape_1 and shape_far. -/
def mem_apart : Heap ℚ := fun p => if p = 0 then body_on shape_1 0 0 else body_on shape_far 5 0

/-- The collision creator that create_destructive_collision registers for the bodies 0
and 1. -/
def destructive_01 : ForceCreator ℚ :=
  ⟨.collision_creator,
    { bodies := [0, 1], constant := NON_CONSTANT, other_aux := some NON_CONSTANT,
      handler := some .destroy_handler, collided_or_not := false }, [0, 1]⟩

/-- The rectangle `[-2,0] x [-1,1]`, to the left of shape_3 and apart from it. -/
def shape_left : List (Vec ℚ) := [Vec.fin (-2) (-1), Vec.fin 0 (-1), Vec.fin 0 1, Vec.fin (-2) 1]

/-- The rectangle `[1/2,5/2] x [-1,1]`, which overlaps shape_1 on `[1/2,1] x [-1,1]`. -/
def shape_shifted : List (Vec ℚ) :=
  [Vec.fin (1 / 2) (-1), Vec.fin (5 / 2) (-1), Vec.fin (5 / 2) 1, Vec.fin (1 / 2) 1]

/-- The square `[1,3] x [1,3]`, which touches shape_1 at the corner `(1,1)` only. -/
def shape_corner : List (Vec ℚ) := [Vec.fin 1 1, Vec.fin 3 1, Vec.fin 3 3, Vec.fin 1 3]

/-- A triangle with counter-clockwise vertices and area 1. -/
def triangle : List (Vec ℚ) := [Vec.fin 0 0, Vec.fin 1 1, Vec.fin 0 2]

/-- The triangle moved up by 1. -/
def triangle_up : List (Vec ℚ) := [Vec.fin 0 1, Vec.fin 1 2, Vec.fin 0 3]

/-- Two bodies of mass 1 tagged as balls (BALL_INFO is 6) that move toward each other
along the `x` axis: body 0 with velocity `(1, 0)`, body 1 with velocity `(-1, 0)`. -/
def mem_balls : Heap ℚ := fun p =>
  { shape := shape_1, forces := Vec.fin 0 0, impulses := Vec.fin 0 0, mass := Dbl.fin 1,
    friction_coeff := Dbl.fin 0, velocity := if p = 0 then Vec.fin 1 0 else Vec.fin (-1) 0,
    center := Vec.fin 0 0, info := some 6, remove := false, score := Dbl.fin 0,
    remaining_lives := 0, slow := false, double_points := false, magnet := false }

/-- Body 0 has score 5 and 3 lives; every other body has score -2 and 1 life. -/
def mem_scores : Heap ℚ := fun p =>
  { shape := shape_1, forces := Vec.fin 0 0, impulses := Vec.fin 0 0, mass := Dbl.fin 1,
    friction_coeff := Dbl.fin 0, velocity := Vec.fin 0 0, center := Vec.fin 0 0,
    info := some 6, remove := false, score := if p = 0 then Dbl.fin 5 else Dbl.fin (-2),
    remaining_lives := if p = 0 then 3 else 1, slow := false, double_points := false,
    magnet := false }

/-- A scene of four bodies at the addresses 0 to 3 with the scores 7, 4, -1 and 7, of
which 1 and 2 are flagged as removed; the scene score is 10 and there is a drag creator
on body 0. -/
def scene_s : Scene ℚ :=
  { mem := fun p =>
      { body_a with
        remove := decide (p = 1 ∨ p = 2),
        score := if p = 1 then Dbl.fin 4 else if p = 2 then Dbl.fin (-1) else Dbl.fin 7 },
    bodies := [0, 1, 2, 3], force_creators := [drag_on 1 0], score := Dbl.fin 10,
    slow_speed := false, have_double_points := false, total_points := Dbl.fin 0 }

/-- The force creators and the memory that the first loop of scene_tick leaves on scene_s. -/
def forces_s : List (ForceCreator ℚ) × Heap ℚ :=
  (apply_forces libmQ scene_s.force_creators scene_s.mem).getD ([], scene_s.mem)

/-- A memory in which every body is body_a: mass 2, velocity `(3, -1)`, centroid `(0, 0)`;
here with no accumulated force or impulse. -/
def mem_rest : Heap ℚ := fun _ => { body_a with forces := VEC_ZERO, impulses := VEC_ZERO }

/-- A memory for the spring test: body 0 has mass 2, velocity `(3, -1)` and centroid
`(4, 6)`; every other body is an anchor of mass INFINITY at rest at `(1, 2)`. -/
def mem_spring : Heap ℚ := fun p =>
  if p = 0 then
    { body_a with forces := VEC_ZERO, impulses := VEC_ZERO, center := Vec.fin 4 6 }
  else { body_wall with center := Vec.fin 1 2 }

/-- Two bodies at rest with no accumulated force: body 0 of mass 2 at `(0, 0)`, and every
other body of mass 3 at the given position. -/
def mem_gravity (x y : ℚ) : Heap ℚ := fun p =>
  if p = 0 then { body_on shape_1 0 0 with mass := Dbl.fin 2 }
  else { body_on shape_1 x y with mass := Dbl.fin 3 }

/-! ## Polygons with finite vertices -/

section FinitePolygons

variable {K : Type} [LinearOrderedField K]

/-- The vector with the finite coordinates of a pair. -/
def vertex (p : K × K) : Vec K := Vec.fin p.1 p.2

/-- The value of vec_cross on two finite vectors. -/
def cross2 (p q : K × K) : K := p.1 * q.2 - p.2 * q.1

/-- The sum of the cross products over the edges of a polygon: twice its signed area,
positive when the vertices are in counter-clockwise order. -/
def shoelace (P : List (K × K)) : K :=
  ((List.range P.length).map fun i =>
    cross2 (P.getD i (0, 0)) (P.getD ((i + 1) % P.length) (0, 0))).sum

/-- The sum that polygon_centroid accumulates in `toreturn.x`. -/
def moment_x (P : List (K × K)) : K :=
  ((List.range P.length).map fun i =>
    ((P.getD i (0, 0)).1 + (P.getD ((i + 1) % P.length) (0, 0)).1)
      * cross2 (P.getD i (0, 0)) (P.getD ((i + 1) % P.length) (0, 0))).sum

/-- The sum that polygon_centroid accumulates in `toreturn.y`. -/
def moment_y (P : List (K × K)) : K :=
  ((List.range P.length).map fun i =>
    ((P.getD i (0, 0)).2 + (P.getD ((i + 1) % P.length) (0, 0)).2)
      * cross2 (P.getD i (0, 0)) (P.getD ((i + 1) % P.length) (0, 0))).sum

/-- The polygon moved by `(tx, ty)`. -/
def shift (tx ty : K) (P : List (K × K)) : List (K × K) := P.map fun p => (p.1 + tx, p.2 + ty)

end FinitePolygons

/-! ## Sequences of calls on a body -/

section Calls

variable {K : Type} [LinearOrderedField K]

/-- A call of one of the functions of body.c that move a body or set what moves it, with
finite arguments. -/
inductive BodyCall (K : Type) where
  | set_centroid (x y : K)
  | tick (dt : K)
  | set_velocity (x y : K)
  | add_force (x y : K)
  | add_impulse (x y : K)

/-- The body after a call. -/
def BodyCall.run : BodyCall K → Body K → Body K
  | .set_centroid x y, b => body_set_centroid b (Vec.fin x y)
  | .tick dt, b => body_tick b (Dbl.fin dt)
  | .set_velocity x y, b => body_set_velocity b (Vec.fin x y)
  | .add_force x y, b => body_add_force b (Vec.fin x y)
  | .add_impulse x y, b => body_add_impulse b (Vec.fin x y)

/-- The body after a sequence of calls, made in list order. -/
def run_calls (calls : List (BodyCall K)) (b : Body K) : Body K :=
  calls.foldl (fun b c => c.run b) b

/-- The cached centroid of a body is in sync with its shape: the shape has finite
vertices in counter-clockwise order, polygon_centroid of the shape is the finite cached
centroid, the velocity, force and impulse are finite, and the mass is finite and non-zero
or INFINITY. -/
def InSync (b : Body K) : Prop :=
  ∃ (P : List (K × K)) (cx cy vx vy fx fy jx jy : K),
    b.shape = P.map vertex ∧ 0 < shoelace P ∧ b.center = Vec.fin cx cy ∧
    polygon_centroid b.shape = Vec.fin cx cy ∧ b.velocity = Vec.fin vx vy ∧
    b.forces = Vec.fin fx fy ∧ b.impulses = Vec.fin jx jy ∧
    ((∃ m : K, m ≠ 0 ∧ b.mass = Dbl.fin m) ∨ b.mass = Dbl.INFINITY)

end Calls

/-- The square `[1,3] x [-1,1]` of shape_3, with its vertices in counter-clockwise order. -/
def square_ccw : List (ℚ × ℚ) := [(1, -1), (3, -1), (3, 1), (1, 1)]

/-- The square `[1,3] x [-1,1]` of shape_3, with its vertices in clockwise order. -/
def square_cw : List (ℚ × ℚ) := [(1, -1), (1, 1), (3, 1), (3, -1)]

/-- A sequence of calls that moves a body and integrates a force. -/
def calls_a : List (BodyCall ℚ) :=
  [.set_centroid 0 0, .add_force 2 4, .set_velocity 1 0, .tick 1, .set_centroid 5 5, .tick 1]

/-- A memory in which body 0 has score 5 and no lives, and every other body has score -2
and no lives. -/
def mem_no_lives : Heap ℚ := fun p =>
  { body_a with score := if p = 0 then Dbl.fin 5 else Dbl.fin (-2), remaining_lives := 0 }

/-- The collision creator that create_collision registers for the bodies 0 and 1 with a
handler that takes no auxiliary constant. -/
def creator_01 (handler : Handler) : ForceCreator ℚ :=
  ⟨.collision_creator,
    { bodies := [0, 1], constant := NON_CONSTANT, other_aux := some NON_CONSTANT,
      handler := some handler, collided_or_not := false }, [0, 1]⟩

/-- The touching squares shape_1 (address 0, score 5) and shape_3 (every other address,
score 3), moving toward each other with the velocities `(1, 0)` and `(-1, 0)`. -/
def mem_head_on : Heap ℚ := fun p =>
  if p = 0 then { body_on shape_1 0 0 with velocity := Vec.fin 1 0, score := Dbl.fin 5 }
  else { body_on shape_3 2 0 with velocity := Vec.fin (-1) 0, score := Dbl.fin 3 }

/-- The memory that remove_collision_handler leaves of mem_head_on. -/
def mem_head_on_handled : Heap ℚ := (remove_collision_handler 0 1 mem_head_on).getD mem_head_on

/-! ## Rotation (vector.c, polygon.c, body.c) -/

/-- The functions `sin` and `cos` of libm on finite arguments. -/
structure Trig (K : Type) where
  sin : K → K
  cos : K → K

section Rotation

variable {K : Type} [LinearOrderedField K]

/-- C `sin(a)`. -/
def Dbl.sin (T : Trig K) : Dbl K → Dbl K
  | .fin a => .fin (T.sin a)
  | _ => .nan

/-- C `cos(a)`. -/
def Dbl.cos (T : Trig K) : Dbl K → Dbl K
  | .fin a => .fin (T.cos a)
  | _ => .nan

def vec_rotate (T : Trig K) (v : Vec K) (angle : Dbl K) : Vec K :=
  let sintheta := Dbl.sin T angle
  let costheta := Dbl.cos T angle
  ⟨v.x * costheta - v.y * sintheta, v.x * sintheta + v.y * costheta⟩

def polygon_rotate (T : Trig K) (polygon : List (Vec K)) (angle : Dbl K) (point : Vec K) :
    List (Vec K) :=
  -- translate the polygon so that it rotates around the origin
  let neg_point := vec_multiply (Dbl.fin (-1)) point
  let polygon := polygon_translate polygon neg_point
  -- then rotate every vector
  let polygon := polygon.map fun p => vec_rotate T p angle
  -- then translate the polygon back so that it rotates around the given point
  polygon_translate polygon point

def body_set_rotation (T : Trig K) (body : Body K) (angle : Dbl K) : Body K :=
  { body with shape := polygon_rotate T body.shape angle (body_get_centroid body) }

end Rotation

/-! ## Pairwise forces between two bodies -/

section PairForces

variable {K : Type} [LinearOrderedField K]

/-- A gravity or a spring between two bodies, with its constant; `swapped` tells that the
constructor receives the two bodies in the other order. -/
inductive PairForce (K : Type) where
  | gravity (G : K) (swapped : Bool)
  | spring (k : K) (swapped : Bool)

/-- The call of create_newtonian_gravity or create_spring for a pairwise force. -/
def PairForce.register (scene : Scene K) (body1 body2 : Nat) : PairForce K → Scene K
  | .gravity G false => create_newtonian_gravity scene (Dbl.fin G) body1 body2
  | .gravity G true => create_newtonian_gravity scene (Dbl.fin G) body2 body1
  | .spring k false => create_spring scene (Dbl.fin k) body1 body2
  | .spring k true => create_spring scene (Dbl.fin k) body2 body1

/-- The stored force creator that the constructor registers for a pairwise force. -/
def PairForce.creator (body1 body2 : Nat) : PairForce K → ForceCreator K
  | .gravity G false =>
    ⟨.gravity_creator, aux_init [body1, body2] (Dbl.fin G), [body1, body2]⟩
  | .gravity G true =>
    ⟨.gravity_creator, aux_init [body2, body1] (Dbl.fin G), [body2, body1]⟩
  | .spring k false => ⟨.spring_creator, aux_init [body1, body2] (Dbl.fin k), [body1, body2]⟩
  | .spring k true => ⟨.spring_creator, aux_init [body2, body1] (Dbl.fin k), [body2, body1]⟩

/-- The scene that scene_init, scene_add_body on two bodies and the constructors of a
list of pairwise forces between them build. -/
def pair_scene (mem : Heap K) (slow_speed have_double_points : Bool) (total_points : Dbl K)
    (body1 body2 : Nat) (forces : List (PairForce K)) : Scene K :=
  forces.foldl (fun scene f => f.register scene body1 body2)
    (scene_add_body
      (scene_add_body (scene_init mem slow_speed have_double_points total_points) body1) body2)

end PairForces

/-- Two bodies with no accumulated force or impulse: body 0 of mass 2 at `(0, 0)` with
velocity `(3, -1)`, and every other body of mass 3 at `(9, 12)` with velocity `(0, 1)`. -/
def mem_pair : Heap ℚ := fun p =>
  if p = 0 then { body_on shape_1 0 0 with mass := Dbl.fin 2, velocity := Vec.fin 3 (-1) }
  else { body_on shape_1 9 12 with mass := Dbl.fin 3, velocity := Vec.fin 0 1 }

/-- Two bodies at rest whose shapes overlap: the triangle `(0,0), (1,1), (0,2)` at
address 0 and the same triangle moved up by 1 at every other address. -/
def mem_triangles : Heap ℚ := fun p =>
  if p = 0 then body_on triangle (1 / 3) 1 else body_on triangle_up (1 / 3) 2

/-! # Theorems -/

/-! ## Arithmetic of finite doubles -/

section DblLemmas

variable {K : Type} [LinearOrderedField K]

@[simp] theorem Dbl.fin_add_fin (a b : K) : Dbl.fin a + Dbl.fin b = Dbl.fin (a + b) := rfl

@[simp] theorem Dbl.fin_mul_fin (a b : K) : Dbl.fin a * Dbl.fin b = Dbl.fin (a * b) := rfl

@[simp] theorem Dbl.neg_fin (a : K) : -Dbl.fin a = Dbl.fin (-a) := rfl

@[simp] theorem Dbl.fin_sub_fin (a b : K) : Dbl.fin a - Dbl.fin b = Dbl.fin (a - b) := by
  show Dbl.add (Dbl.fin a) (Dbl.neg (Dbl.fin b)) = _
  simp [Dbl.add, Dbl.neg, sub_eq_add_neg]

theorem Dbl.fin_div_fin (a : K) {b : K} (hb : b ≠ 0) :
    Dbl.fin a / Dbl.fin b = Dbl.fin (a / b) := by
  show Dbl.div (Dbl.fin a) (Dbl.fin b) = _
  simp [Dbl.div, hb]

@[simp] theorem Dbl.fin_div_pinf (a : K) : Dbl.fin a / (Dbl.pinf : Dbl K) = Dbl.fin 0 := rfl

@[simp] theorem Dbl.lt_fin_fin (a b : K) : Dbl.lt (Dbl.fin a) (Dbl.fin b) = decide (a < b) := rfl

@[simp] theorem Dbl.fin_lt_fin (a b : K) : Dbl.fin a < Dbl.fin b ↔ a < b := by
  show Dbl.lt (Dbl.fin a) (Dbl.fin b) = true ↔ _
  simp

@[simp] theorem Dbl.feq_fin_fin (a b : K) :
    Dbl.feq (Dbl.fin a) (Dbl.fin b) = decide (a = b) := rfl

@[simp] theorem Dbl.fne_fin_fin (a b : K) :
    Dbl.fne (Dbl.fin a) (Dbl.fin b) = !decide (a = b) := rfl

@[simp] theorem Dbl.sq_fin (a : K) : Dbl.sq (Dbl.fin a) = Dbl.fin (a * a) := rfl

end DblLemmas

/-! ## Identities of double arithmetic that hold for the special values too -/

section DblIdentities

variable {K : Type} [LinearOrderedField K]

theorem Dbl.mul_one_div_eq (a m : Dbl K) : a * (Dbl.fin 1 / m) = a / m := by
  show Dbl.mul a (Dbl.div (Dbl.fin 1) m) = Dbl.div a m
  rcases a with a | _ | _ | _ <;> rcases m with b | _ | _ | _ <;>
    simp only [Dbl.div, Dbl.mul, Dbl.signedInf]
  · by_cases hb : b = 0
    · simp [hb, Dbl.mul, Dbl.signedInf]
    · simp [hb, Dbl.mul, div_eq_mul_inv]
  · simp
  · simp
  · by_cases hb : b = 0
    · simp [hb, Dbl.mul]
    · rcases lt_or_gt_of_ne hb with h | h
      · simp [hb, Dbl.mul, Dbl.signedInf, h, not_lt.mpr h.le, not_le.mpr h]
      · simp [hb, Dbl.mul, Dbl.signedInf, h, h.le]
  · simp [Dbl.mul, Dbl.signedInf]
  · simp [Dbl.mul, Dbl.signedInf]
  · by_cases hb : b = 0
    · simp [hb, Dbl.mul]
    · rcases lt_or_gt_of_ne hb with h | h
      · simp [hb, Dbl.mul, Dbl.signedInf, h, not_lt.mpr h.le, not_le.mpr h]
      · simp [hb, Dbl.mul, Dbl.signedInf, h, h.le]
  · simp [Dbl.mul, Dbl.signedInf]
  · simp [Dbl.mul, Dbl.signedInf]

theorem Dbl.mul_swap (a b : Dbl K) : a * b = b * a := by
  show Dbl.mul a b = Dbl.mul b a
  cases a <;> cases b <;> simp [Dbl.mul, mul_comm]

theorem Dbl.add_rotate (a b c : Dbl K) : a + (b + c) = b + a + c := by
  show Dbl.add a (Dbl.add b c) = Dbl.add (Dbl.add b a) c
  cases a <;> cases b <;> cases c <;> simp [Dbl.add, add_left_comm, add_assoc]

end DblIdentities

/-! ## body_tick -/

section BodyTick

variable {K : Type} [LinearOrderedField K]

/-- C1: body_tick on a body that is not flagged removed, with finite force `F`, impulse
`J`, mass `m` (non-zero), velocity `v0`, centroid `c` and time step `dt`, leaves velocity
`v1 = v0 + J/m + (F/m)*dt`, centroid `c + (dt/2)*(v0 + v1)`, and zero accumulated force
and impulse; on a body flagged removed it returns the body unchanged.  The same formulas
hold in the arithmetic of doubles for all values, the special values included. -/
theorem body_tick_spec (b : Body K) (Fx Fy Jx Jy m v0x v0y cx cy dt : K) (hm : m ≠ 0)
    (hF : b.forces = Vec.fin Fx Fy) (hJ : b.impulses = Vec.fin Jx Jy)
    (hmass : b.mass = Dbl.fin m) (hv : b.velocity = Vec.fin v0x v0y)
    (hc : b.center = Vec.fin cx cy) :
    (b.remove = false →
      (body_tick b (Dbl.fin dt)).velocity
          = Vec.fin (v0x + Jx / m + Fx / m * dt) (v0y + Jy / m + Fy / m * dt) ∧
      (body_tick b (Dbl.fin dt)).center
          = Vec.fin (cx + dt / 2 * (v0x + (v0x + Jx / m + Fx / m * dt)))
              (cy + dt / 2 * (v0y + (v0y + Jy / m + Fy / m * dt))) ∧
      (body_tick b (Dbl.fin dt)).forces = VEC_ZERO ∧
      (body_tick b (Dbl.fin dt)).impulses = VEC_ZERO) ∧
    (∀ (r : Body K) (t : Dbl K), r.remove = true → body_tick r t = r) ∧
    (∀ (r : Body K) (t : Dbl K), r.remove = false →
      (body_tick r t).velocity
          = ⟨r.velocity.x + r.impulses.x / r.mass + r.forces.x / r.mass * t,
              r.velocity.y + r.impulses.y / r.mass + r.forces.y / r.mass * t⟩ ∧
      (body_tick r t).center
          = ⟨r.center.x + t / Dbl.fin 2 * (r.velocity.x + (body_tick r t).velocity.x),
              r.center.y + t / Dbl.fin 2 * (r.velocity.y + (body_tick r t).velocity.y)⟩ ∧
      (body_tick r t).forces = VEC_ZERO ∧ (body_tick r t).impulses = VEC_ZERO) := by
  have h2 : (2 : K) ≠ 0 := two_ne_zero
  refine ⟨fun hrem => ?_, fun r t hr => ?_, fun r t hr => ?_⟩
  · simp only [body_tick, body_is_removed, hrem, body_get_mass, hmass, hF, hJ, hv, hc,
      body_set_centroid, body_get_centroid, vec_multiply, vec_add, Vec.fin,
      Dbl.fin_div_fin _ hm, Dbl.fin_div_fin _ h2, Dbl.fin_mul_fin, Dbl.fin_add_fin]
    simp only [Bool.not_false, if_true, Vec.mk.injEq, Dbl.fin.injEq, and_true]
    refine ⟨⟨?_, ?_⟩, ⟨?_, ?_⟩⟩ <;> field_simp <;> ring
  · simp [body_tick, body_is_removed, hr]
  · simp only [body_tick, body_is_removed, hr, body_get_mass, body_set_centroid,
      body_get_centroid, vec_multiply, vec_add, Bool.not_false, if_true,
      Dbl.mul_one_div_eq, Dbl.add_rotate (r.impulses.x / r.mass),
      Dbl.add_rotate (r.impulses.y / r.mass), Dbl.mul_swap _ (t / Dbl.fin 2), and_self]

/-- Witness of C1 on a body of mass 2 with force (2,4), impulse (1,0), velocity (3,-1),
centroid (0,0) and `dt = 1`. -/
theorem body_tick_spec_witness :
    (2 : ℚ) ≠ 0 ∧ body_a.forces = Vec.fin 2 4 ∧ body_a.impulses = Vec.fin 1 0 ∧
    body_a.mass = Dbl.fin 2 ∧ body_a.velocity = Vec.fin 3 (-1) ∧
    body_a.center = Vec.fin 0 0 ∧ body_a.remove = false ∧
    (body_tick body_a (Dbl.fin 1)).velocity
      = Vec.fin (3 + 1 / 2 + 2 / 2 * 1) (-1 + 0 / 2 + 4 / 2 * 1) ∧
    (body_tick body_a (Dbl.fin 1)).center
      = Vec.fin (0 + 1 / 2 * (3 + (3 + 1 / 2 + 2 / 2 * 1)))
          (0 + 1 / 2 * (-1 + (-1 + 0 / 2 + 4 / 2 * 1))) ∧
    (body_tick body_a (Dbl.fin 1)).forces = VEC_ZERO ∧
    (body_tick body_a (Dbl.fin 1)).impulses = VEC_ZERO :=
  ⟨by norm_num, rfl, rfl, rfl, rfl, rfl, rfl,
    (body_tick_spec body_a 2 4 1 0 2 3 (-1) 0 0 1 (by norm_num) rfl rfl rfl rfl rfl).1 rfl⟩

end BodyTick

/-! ## Bodies of infinite mass -/

section InfiniteMass

variable {K : Type} [LinearOrderedField K]

theorem Dbl.fin_zero_add (a : Dbl K) : Dbl.fin 0 + a = a := by
  show Dbl.add (Dbl.fin 0) a = a
  cases a <;> simp [Dbl.add]

theorem Dbl.add_fin_zero (a : Dbl K) : a + Dbl.fin 0 = a := by
  show Dbl.add a (Dbl.fin 0) = a
  cases a <;> simp [Dbl.add]

/-- For a body of mass INFINITY with finite force and impulse, body_tick with a finite
time step keeps the velocity and the mass, and leaves a finite force and impulse. -/
theorem body_tick_infinite_mass (b : Body K) (fx fy jx jy dt : K)
    (hm : b.mass = Dbl.INFINITY) (hF : b.forces = Vec.fin fx fy)
    (hJ : b.impulses = Vec.fin jx jy) :
    (body_tick b (Dbl.fin dt)).velocity = b.velocity ∧
    (body_tick b (Dbl.fin dt)).mass = Dbl.INFINITY ∧
    (∃ gx gy, (body_tick b (Dbl.fin dt)).forces = Vec.fin gx gy) ∧
    (∃ ix iy, (body_tick b (Dbl.fin dt)).impulses = Vec.fin ix iy) := by
  cases hrem : b.remove
  · simp only [body_tick, body_is_removed, hrem, body_get_mass, hm, hF, hJ, Dbl.INFINITY,
      body_set_centroid, body_get_centroid, vec_multiply, vec_add, Vec.fin,
      Dbl.fin_div_pinf, Dbl.fin_mul_fin, mul_zero, zero_mul, Dbl.fin_zero_add,
      Dbl.add_fin_zero, Bool.not_false, if_true, VEC_ZERO]
    exact ⟨trivial, trivial, ⟨0, 0, rfl⟩, ⟨0, 0, rfl⟩⟩
  · simp only [body_tick, body_is_removed, hrem, Bool.not_true]
    exact ⟨rfl, hm, ⟨fx, fy, hF⟩, ⟨jx, jy, hJ⟩⟩

/-- A body of mass INFINITY whose accumulated force and impulse are finite has the same
velocity after any number of steps, each of which accumulates an arbitrary finite force
and impulse and then runs body_tick with a finite time step. -/
theorem infinite_mass_velocity_invariant (steps : List ((K × K) × (K × K) × K))
    (b : Body K) (fx fy jx jy : K) (hm : b.mass = Dbl.INFINITY)
    (hF : b.forces = Vec.fin fx fy) (hJ : b.impulses = Vec.fin jx jy) :
    (steps.foldl accumulate_and_tick b).velocity = b.velocity := by
  induction steps generalizing b fx fy jx jy with
  | nil => rfl
  | cons s rest ih =>
    have hF1 : (body_add_impulse (body_add_force b (Vec.fin s.1.1 s.1.2))
        (Vec.fin s.2.1.1 s.2.1.2)).forces = Vec.fin (fx + s.1.1) (fy + s.1.2) := by
      simp [body_add_impulse, body_add_force, hF, vec_add, Vec.fin]
    have hJ1 : (body_add_impulse (body_add_force b (Vec.fin s.1.1 s.1.2))
        (Vec.fin s.2.1.1 s.2.1.2)).impulses = Vec.fin (jx + s.2.1.1) (jy + s.2.1.2) := by
      simp [body_add_impulse, body_add_force, hJ, vec_add, Vec.fin]
    have hm1 : (body_add_impulse (body_add_force b (Vec.fin s.1.1 s.1.2))
        (Vec.fin s.2.1.1 s.2.1.2)).mass = Dbl.INFINITY := hm
    obtain ⟨hv, hm2, ⟨gx, gy, hg⟩, ⟨ix, iy, hi⟩⟩ :=
      body_tick_infinite_mass (body_add_impulse (body_add_force b (Vec.fin s.1.1 s.1.2))
        (Vec.fin s.2.1.1 s.2.1.2)) _ _ _ _ s.2.2 hm1 hF1 hJ1
    rw [List.foldl_cons, ih (accumulate_and_tick b s) gx gy ix iy hm2 hg hi]
    exact hv

/-- The wall of mass INFINITY keeps its velocity through two steps with finite forces. -/
theorem infinite_mass_velocity_invariant_witness :
    body_wall.mass = Dbl.INFINITY ∧ body_wall.forces = Vec.fin 0 0 ∧
    body_wall.impulses = Vec.fin 0 0 ∧
    ([((5, -3), (2, 1), 1), ((0, 7), (-4, 0), 1 / 2)].foldl accumulate_and_tick body_wall).velocity
      = body_wall.velocity :=
  ⟨rfl, rfl, rfl, infinite_mass_velocity_invariant _ body_wall 0 0 0 0 rfl rfl rfl⟩

/-- C10 (failing input): the wall of mass INFINITY, at rest in a scene whose only force
creator is an earth-gravity creator on it, does not keep its velocity through scene_tick:
the creator accumulates the force `(0, -inf)`, and body_tick, which has no special case
for the mass INFINITY, turns it into the velocity `(0, NaN)`. -/
theorem infinite_mass_velocity_changes :
    ((scene_tick libmQ scene_wall (Dbl.fin 1)).map fun s => (s.mem 0).velocity)
      = some ⟨Dbl.fin 0, Dbl.nan⟩ ∧
    (scene_wall.mem 0).velocity = ⟨Dbl.fin 0, Dbl.fin 0⟩ ∧
    (scene_wall.mem 0).mass = Dbl.INFINITY := by
  decide!

end InfiniteMass

/-! ## The sweep of scene_tick -/

section Sweep

variable {K : Type} [LinearOrderedField K]

theorem size_dec_inc (j : Nat) (hj : j < SIZE_MOD) :
    ((j + SIZE_MOD - 1) % SIZE_MOD + 1) % SIZE_MOD = j := by
  unfold SIZE_MOD at *
  omega

theorem size_inc (j : Nat) (hj : j + 1 < SIZE_MOD) : (j + 1) % SIZE_MOD = j + 1 :=
  Nat.mod_eq_of_lt hj

/-- The inner loop of the sweep, started at the end of `pre`, keeps `pre` and removes
from `suf` exactly the force creators that depend on `body`. -/
theorem purge_loop_spec (body : Nat) (suf pre : List (ForceCreator K)) (fuel : Nat)
    (hlen : (pre ++ suf).length < SIZE_MOD) (hfuel : suf.length < fuel) :
    purge_loop body fuel pre.length (pre ++ suf)
      = some (pre ++ suf.filter fun fc => !force_to_removed fc body) := by
  induction suf generalizing pre fuel with
  | nil =>
    cases fuel with
    | zero => simp at hfuel
    | succ fuel => simp [purge_loop]
  | cons fc rest ih =>
    cases fuel with
    | zero => simp at hfuel
    | succ fuel =>
      have hlt : pre.length < (pre ++ fc :: rest).length := by simp
      have hget : list_get (pre ++ fc :: rest) pre.length = some fc := by
        rw [list_get, List.getElem?_append_right (le_refl _)]
        simp
      have hfuel2 : rest.length < fuel := by simpa using hfuel
      have hpre : pre.length < SIZE_MOD := lt_trans hlt hlen
      rw [purge_loop, if_pos hlt, hget]
      simp only
      by_cases hdep : force_to_removed fc body = true
      · have hrm : list_remove (pre ++ fc :: rest) pre.length = pre ++ rest := by
          simp [list_remove, List.eraseIdx_append_of_length_le]
        have hlen2 : (pre ++ rest).length < SIZE_MOD := by
          simp only [List.length_append, List.length_cons] at hlen ⊢
          omega
        rw [if_pos hdep, hrm, size_dec_inc _ hpre, ih pre fuel hlen2 hfuel2]
        simp [hdep]
      · have hlen2 : (pre ++ [fc] ++ rest).length < SIZE_MOD := by simpa using hlen
        have hinc : (pre.length + 1) % SIZE_MOD = (pre ++ [fc]).length := by
          rw [size_inc]
          · simp
          · simp only [List.length_append, List.length_cons] at hlen
            omega
        have hcat : pre ++ fc :: rest = pre ++ [fc] ++ rest := by simp
        rw [if_neg hdep, hinc, hcat, ih (pre ++ [fc]) fuel hlen2 hfuel2]
        simp [hdep]

theorem survives_cons (mem : Heap K) (body : Nat) (rest : List Nat) (fc : ForceCreator K) :
    survives mem (body :: rest) fc
      = (!(body_is_removed (mem body) && force_to_removed fc body) && survives mem rest fc) := by
  simp [survives, Bool.not_or]

/-- The outer loop of the sweep, started at the end of `pre`, keeps `pre`, removes from
`suf` exactly the bodies flagged as removed, removes exactly the force creators that
depend on one of them, and adds their scores to the score of the scene. -/
theorem sweep_loop_spec (suf pre : List Nat) (fuel : Nat) (scene : Scene K)
    (hb : scene.bodies = pre ++ suf) (hlen : (pre ++ suf).length < SIZE_MOD)
    (hfuel : suf.length < fuel) (hfc : scene.force_creators.length < SIZE_MOD) :
    sweep_loop fuel pre.length scene
      = some { scene with
          bodies := pre ++ suf.filter fun body => !body_is_removed (scene.mem body)
          force_creators := scene.force_creators.filter (survives scene.mem suf)
          score := swept_score scene.mem suf scene.score } := by
  induction suf generalizing pre fuel scene with
  | nil =>
    cases fuel with
    | zero => simp at hfuel
    | succ fuel =>
      have hb2 : scene.bodies = pre := by simpa using hb
      have hfil : List.filter (survives scene.mem []) scene.force_creators
          = scene.force_creators := by
        simp [survives]
      cases scene
      simp only at hb2
      subst hb2
      simp [sweep_loop, swept_score, hfil]
  | cons body rest ih =>
    cases fuel with
    | zero => simp at hfuel
    | succ fuel =>
      have hlt : pre.length < scene.bodies.length := by simp [hb]
      have hget : list_get scene.bodies pre.length = some body := by
        rw [hb, list_get, List.getElem?_append_right (le_refl _)]
        simp
      have hfuel2 : rest.length < fuel := by simpa using hfuel
      have hpre : pre.length < SIZE_MOD := by
        simp only [List.length_append, List.length_cons] at hlen
        omega
      rw [sweep_loop, if_pos hlt, hget]
      simp only
      by_cases hrem : body_is_removed (scene.mem body) = true
      · have hpurge := purge_loop_spec body scene.force_creators []
          (scene.force_creators.length + 1) (by simpa using hfc) (Nat.lt_succ_self _)
        simp only [List.length_nil, List.nil_append] at hpurge
        have hrm : list_remove scene.bodies pre.length = pre ++ rest := by
          simp [hb, list_remove, List.eraseIdx_append_of_length_le]
        have hlen2 : (pre ++ rest).length < SIZE_MOD := by
          simp only [List.length_append, List.length_cons] at hlen ⊢
          omega
        have hfc2 : (List.filter (fun fc => !force_to_removed fc body)
            scene.force_creators).length < SIZE_MOD :=
          lt_of_le_of_lt (List.length_filter_le _ _) hfc
        rw [if_pos hrem, hpurge]
        simp only [Option.bind_eq_bind, Option.some_bind, scene_change_score, hrm,
          size_dec_inc _ hpre]
        rw [ih pre fuel _ rfl hlen2 hfuel2 hfc2]
        simp only [List.filter_filter, swept_score, hrem, List.filter_cons, List.foldl_cons,
          Bool.not_true, if_true]
        congr 2
        apply List.filter_congr
        intro fc _
        simp [survives_cons, hrem, Bool.and_comm]
      · have hinc : (pre.length + 1) % SIZE_MOD = (pre ++ [body]).length := by
          rw [size_inc]
          · simp
          · simp only [List.length_append, List.length_cons] at hlen
            omega
        have hb2 : scene.bodies = pre ++ [body] ++ rest := by simp [hb]
        have hlen2 : (pre ++ [body] ++ rest).length < SIZE_MOD := by simpa using hlen
        rw [if_neg hrem, hinc, ih (pre ++ [body]) fuel scene hb2 hlen2 hfuel2 hfc]
        have hfil : List.filter (survives scene.mem (body :: rest)) scene.force_creators
            = List.filter (survives scene.mem rest) scene.force_creators := by
          apply List.filter_congr
          intro fc _
          simp [survives_cons, hrem]
        simp [swept_score, hrem, hfil]

/-- A call of a force creator changes neither its function nor its dependency list. -/
theorem call_forcer_same (M : Libm K) (fc fc2 : ForceCreator K) (h h2 : Heap K)
    (hcall : call_forcer M fc h = some (fc2, h2)) :
    fc2.forcer = fc.forcer ∧ fc2.bodies = fc.bodies := by
  unfold call_forcer at hcall
  cases hf : fc.forcer <;> simp only [hf, Option.map_eq_some', Prod.mk.injEq] at hcall <;>
    obtain ⟨r, _, hr, _⟩ := hcall <;> subst hr <;> simp [hf]

/-- The first loop of scene_tick keeps the functions and the dependency lists of the
force creators, in the same order. -/
theorem apply_forces_same (M : Libm K) (fcs fcs2 : List (ForceCreator K)) (h h2 : Heap K)
    (hrun : apply_forces M fcs h = some (fcs2, h2)) :
    fcs2.map (fun fc => fc.forcer) = fcs.map (fun fc => fc.forcer) ∧
    fcs2.map (fun fc => fc.bodies) = fcs.map (fun fc => fc.bodies) := by
  induction fcs generalizing fcs2 h h2 with
  | nil =>
    simp only [apply_forces, Option.some.injEq, Prod.mk.injEq] at hrun
    obtain ⟨rfl, _⟩ := hrun
    simp
  | cons fc rest ih =>
    simp only [apply_forces, Option.bind_eq_bind, Option.bind_eq_some, Option.some.injEq,
      Prod.mk.injEq] at hrun
    obtain ⟨r, hr, rs, hrs, rfl, _⟩ := hrun
    obtain ⟨hf, hbd⟩ := call_forcer_same M fc r.1 h r.2 hr
    obtain ⟨ih1, ih2⟩ := ih rs.1 r.2 rs.2 hrs
    simp [hf, hbd, ih1, ih2]

/-- When the first loop of scene_tick returns, scene_tick returns the scene in which the
sweep has filtered the bodies and the force creators and added the scores. -/
theorem scene_tick_eq (M : Libm K) (scene : Scene K) (dt : Dbl K)
    (fcs : List (ForceCreator K)) (mem1 : Heap K)
    (hrun : apply_forces M scene.force_creators scene.mem = some (fcs, mem1))
    (hnb : scene.bodies.length < SIZE_MOD) (hnf : scene.force_creators.length < SIZE_MOD) :
    ∃ scene2, scene_tick M scene dt = some scene2 ∧
      scene2.mem = tick_bodies scene.bodies dt mem1 ∧
      scene2.bodies = scene.bodies.filter (fun body => !body_is_removed (scene2.mem body)) ∧
      scene2.force_creators = fcs.filter (survives scene2.mem scene.bodies) ∧
      scene2.score = swept_score scene2.mem scene.bodies scene.score := by
  have hlenf : fcs.length = scene.force_creators.length := by
    have := congrArg List.length (apply_forces_same M _ _ _ _ hrun).1
    simpa using this
  simp only [scene_tick, hrun, Option.bind_eq_bind, Option.some_bind]
  split_ifs with hslow
  all_goals
    refine ⟨_, sweep_loop_spec scene.bodies [] _ _ rfl (by simpa using hnb)
      (Nat.lt_succ_self _) (by simpa [hlenf] using hnf), rfl, by simp, rfl, rfl⟩

/-- C2: when the force creators of a scene_tick run to their end, scene_tick returns a
scene whose body list is the previous one with exactly the bodies flagged removed (in the
memory left by the force creators and the integration) filtered out, and whose force
creator list is the previous one (same functions and dependency lists, in the same
order) with exactly the creators filtered out whose dependency list holds a removed body
of the scene.  The lists are filters of the previous lists, so the order of the survivors
is kept and none is skipped, also after consecutive removals. -/
theorem scene_tick_sweep (M : Libm K) (scene : Scene K) (dt : Dbl K)
    (fcs : List (ForceCreator K)) (mem1 : Heap K)
    (hrun : apply_forces M scene.force_creators scene.mem = some (fcs, mem1))
    (hnb : scene.bodies.length < SIZE_MOD) (hnf : scene.force_creators.length < SIZE_MOD) :
    ∃ scene2, scene_tick M scene dt = some scene2 ∧
      scene2.mem = tick_bodies scene.bodies dt mem1 ∧
      scene2.bodies = scene.bodies.filter (fun body => !body_is_removed (scene2.mem body)) ∧
      scene2.force_creators = fcs.filter (survives scene2.mem scene.bodies) ∧
      fcs.map (fun fc => fc.forcer) = scene.force_creators.map (fun fc => fc.forcer) ∧
      fcs.map (fun fc => fc.bodies) = scene.force_creators.map (fun fc => fc.bodies) := by
  obtain ⟨hsame1, hsame2⟩ := apply_forces_same M _ _ _ _ hrun
  obtain ⟨scene2, htick, hmem, hb, hf, _⟩ := scene_tick_eq M scene dt fcs mem1 hrun hnb hnf
  exact ⟨scene2, htick, hmem, hb, hf, hsame1, hsame2⟩

/-- Witness of C2 on scene_w: the two consecutive removed bodies 1 and 2 are dropped with
their two consecutive force creators, and the bodies 0 and 3 stay with theirs. -/
theorem scene_tick_sweep_witness :
    apply_forces libmQ scene_w.force_creators scene_w.mem = some (forces_w.1, forces_w.2) ∧
    scene_w.bodies.length < SIZE_MOD ∧ scene_w.force_creators.length < SIZE_MOD ∧
    (∃ scene2, scene_tick libmQ scene_w (Dbl.fin 1) = some scene2 ∧
      scene2.mem = tick_bodies scene_w.bodies (Dbl.fin 1) forces_w.2 ∧
      scene2.bodies = scene_w.bodies.filter (fun body => !body_is_removed (scene2.mem body)) ∧
      scene2.force_creators = forces_w.1.filter (survives scene2.mem scene_w.bodies) ∧
      forces_w.1.map (fun fc => fc.forcer) = scene_w.force_creators.map (fun fc => fc.forcer) ∧
      forces_w.1.map (fun fc => fc.bodies) = scene_w.force_creators.map (fun fc => fc.bodies)) ∧
    (scene_tick libmQ scene_w (Dbl.fin 1)).map
        (fun s => (s.bodies, s.force_creators.map fun fc => fc.bodies))
      = some ([0, 3], [[0], [3]]) :=
  ⟨rfl, by decide!, by decide!,
    scene_tick_sweep libmQ scene_w (Dbl.fin 1) forces_w.1 forces_w.2 rfl (by decide!)
      (by decide!),
    by decide!⟩

end Sweep

/-! ## The removal flag is never cleared -/

section Flags

variable {K : Type} [LinearOrderedField K]

theorem FlagMono.refl (h : Heap K) : FlagMono h h := fun _ hx => hx

theorem FlagMono.trans {h1 h2 h3 : Heap K} (a : FlagMono h1 h2) (b : FlagMono h2 h3) :
    FlagMono h1 h3 := fun x hx => b x (a x hx)

theorem FlagMono.modify (h : Heap K) (body : Nat) (f : Body K → Body K)
    (hf : ∀ y : Body K, y.remove = true → (f y).remove = true) :
    FlagMono h (h.modify body f) := by
  intro x hx
  unfold Heap.modify
  by_cases hxb : x = body
  · subst hxb
    simpa using hf _ hx
  · simpa [Function.update_noteq hxb] using hx

theorem FlagMono.modify_trans {h1 h2 : Heap K} (a : FlagMono h1 h2) (body : Nat)
    (f : Body K → Body K) (hf : ∀ y : Body K, y.remove = true → (f y).remove = true) :
    FlagMono h1 (h2.modify body f) := a.trans (FlagMono.modify h2 body f hf)

theorem keep_add_force (v : Vec K) (y : Body K) (hy : y.remove = true) :
    (body_add_force y v).remove = true := hy

theorem keep_add_impulse (v : Vec K) (y : Body K) (hy : y.remove = true) :
    (body_add_impulse y v).remove = true := hy

theorem keep_remove (y : Body K) (hy : y.remove = true) : (body_remove y).remove = true := rfl

theorem keep_add_score (v : Dbl K) (y : Body K) (hy : y.remove = true) :
    (body_add_score y v).remove = true := hy

theorem keep_add_lives (n : Nat) (y : Body K) (hy : y.remove = true) :
    (body_add_lives y n).remove = true := hy

theorem keep_reduce_live (y : Body K) (hy : y.remove = true) :
    (body_reduce_live y).remove = true := by
  simp [body_reduce_live, hy]

theorem keep_negate_score (y : Body K) (hy : y.remove = true) :
    (body_negate_score y).remove = true := hy

theorem keep_set_velocity (v : Vec K) (y : Body K) (hy : y.remove = true) :
    (body_set_velocity y v).remove = true := hy

theorem keep_set_slow (v : Bool) (y : Body K) (hy : y.remove = true) :
    (body_set_slow y v).remove = true := hy

theorem keep_set_double_points (v : Bool) (y : Body K) (hy : y.remove = true) :
    (body_set_double_points y v).remove = true := hy

theorem keep_set_magnet (v : Bool) (y : Body K) (hy : y.remove = true) :
    (body_set_magnet y v).remove = true := hy

theorem body_tick_remove (y : Body K) (dt : Dbl K) : (body_tick y dt).remove = y.remove := by
  unfold body_tick
  split_ifs <;> rfl

theorem gravity_creator_mono (M : Libm K) (aux : Aux K) (h h2 : Heap K)
    (hc : gravity_creator M aux h = some h2) : FlagMono h h2 := by
  simp only [gravity_creator, Option.bind_eq_bind, Option.bind_eq_some, Option.some.injEq] at hc
  obtain ⟨b1, _, b2, _, rfl⟩ := hc
  exact (FlagMono.modify _ _ _ (keep_add_force _)).modify_trans _ _ (keep_add_force _)

theorem earth_gravity_creator_mono (aux : Aux K) (h h2 : Heap K)
    (hc : earth_gravity_creator aux h = some h2) : FlagMono h h2 := by
  simp only [earth_gravity_creator, Option.bind_eq_bind, Option.bind_eq_some,
    Option.some.injEq] at hc
  obtain ⟨b1, _, rfl⟩ := hc
  exact FlagMono.modify _ _ _ (keep_add_force _)

theorem spring_creator_mono (aux : Aux K) (h h2 : Heap K)
    (hc : spring_creator aux h = some h2) : FlagMono h h2 := by
  simp only [spring_creator, Option.bind_eq_bind, Option.bind_eq_some, Option.some.injEq] at hc
  obtain ⟨b1, _, b2, _, rfl⟩ := hc
  exact (FlagMono.modify _ _ _ (keep_add_force _)).modify_trans _ _ (keep_add_force _)

theorem drag_creator_mono (aux : Aux K) (h h2 : Heap K)
    (hc : drag_creator aux h = some h2) : FlagMono h h2 := by
  simp only [drag_creator, Option.bind_eq_bind, Option.bind_eq_some, Option.some.injEq] at hc
  obtain ⟨b1, _, rfl⟩ := hc
  exact FlagMono.modify _ _ _ (keep_add_force _)

theorem buoyancy_creator_mono (aux : Aux K) (h h2 : Heap K)
    (hc : buoyancy_creator aux h = some h2) : FlagMono h h2 := by
  simp only [buoyancy_creator, Option.bind_eq_bind, Option.bind_eq_some, Option.some.injEq] at hc
  obtain ⟨b1, _, rfl⟩ := hc
  exact FlagMono.modify _ _ _ (keep_add_force _)

theorem destroy_handler_mono (body1 body2 : Nat) (h h2 : Heap K)
    (hc : destroy_handler body1 body2 h = some h2) : FlagMono h h2 := by
  simp only [destroy_handler, Option.some.injEq] at hc
  subst hc
  exact (FlagMono.modify _ _ _ keep_remove).modify_trans _ _ keep_remove

theorem physics_handler_mono (body1 body2 : Nat) (axis : Vec K) (aux : Option (Dbl K))
    (h h2 : Heap K) (hc : physics_handler body1 body2 axis aux h = some h2) : FlagMono h h2 := by
  simp only [physics_handler, Option.bind_eq_bind, Option.bind_eq_some] at hc
  obtain ⟨e, _, t1, _, hc⟩ := hc
  split_ifs at hc with ht1
  · simp only [Option.bind_eq_some] at hc
    obtain ⟨t2, _, hc⟩ := hc
    split_ifs at hc with ht2
    · simp only [Option.some.injEq] at hc
      subst hc
      exact (FlagMono.modify _ _ _ (keep_add_impulse _)).modify_trans _ _ (keep_add_impulse _)
    · simp only [Option.some.injEq] at hc
      subst hc
      exact (FlagMono.modify _ _ _ (keep_add_impulse _)).modify_trans _ _ keep_remove
  · simp only [Option.some.injEq] at hc
    subst hc
    exact (FlagMono.modify _ _ _ (keep_add_impulse _)).modify_trans _ _ keep_remove

theorem half_collision_handler_mono (body1 body2 : Nat) (axis : Vec K) (aux : Option (Dbl K))
    (h h2 : Heap K) (hc : half_collision_handler body1 body2 axis aux h = some h2) :
    FlagMono h h2 := by
  simp only [half_collision_handler, Option.bind_eq_bind, Option.bind_eq_some,
    Option.some.injEq] at hc
  obtain ⟨e, _, rfl⟩ := hc
  refine FlagMono.modify_trans ?_ _ _ keep_remove
  split_ifs
  · refine FlagMono.modify_trans ?_ _ _ keep_reduce_live
    refine FlagMono.modify_trans ?_ _ _ (keep_add_score _)
    exact FlagMono.modify _ _ _ (keep_add_impulse _)
  · refine FlagMono.modify_trans ?_ _ _ (keep_add_score _)
    exact FlagMono.modify _ _ _ (keep_add_impulse _)

theorem remove_collision_handler_mono (body1 body2 : Nat) (h h2 : Heap K)
    (hc : remove_collision_handler body1 body2 h = some h2) : FlagMono h h2 := by
  simp only [remove_collision_handler, Option.some.injEq] at hc
  subst hc
  refine FlagMono.modify_trans ?_ _ _ keep_remove
  split_ifs
  · refine FlagMono.modify_trans ?_ _ _ keep_reduce_live
    refine FlagMono.modify_trans ?_ _ _ (keep_add_lives _)
    exact FlagMono.modify _ _ _ (keep_add_score _)
  · refine FlagMono.modify_trans ?_ _ _ (keep_add_lives _)
    exact FlagMono.modify _ _ _ (keep_add_score _)

theorem slow_collision_handler_mono (M : Libm K) (body1 body2 : Nat) (h h2 : Heap K)
    (hc : slow_collision_handler M body1 body2 h = some h2) : FlagMono h h2 := by
  simp only [slow_collision_handler] at hc
  split_ifs at hc <;> simp only [Option.some.injEq] at hc <;> subst hc <;>
    exact (FlagMono.modify _ _ _ keep_remove).modify_trans _ _ (keep_set_slow _)

theorem double_point_collision_handler_mono (M : Libm K) (body1 body2 : Nat) (h h2 : Heap K)
    (hc : double_point_collision_handler M body1 body2 h = some h2) : FlagMono h h2 := by
  simp only [double_point_collision_handler] at hc
  split_ifs at hc <;> simp only [Option.some.injEq] at hc <;> subst hc <;>
    exact (FlagMono.modify _ _ _ keep_remove).modify_trans _ _ (keep_set_double_points _)

theorem magnet_collision_handler_mono (M : Libm K) (body1 body2 : Nat) (h h2 : Heap K)
    (hc : magnet_collision_handler M body1 body2 h = some h2) : FlagMono h h2 := by
  simp only [magnet_collision_handler] at hc
  split_ifs at hc <;> simp only [Option.some.injEq] at hc <;> subst hc <;>
    exact (FlagMono.modify _ _ _ keep_remove).modify_trans _ _ (keep_set_magnet _)

theorem call_handler_mono (M : Libm K) (handler : Handler) (body1 body2 : Nat) (axis : Vec K)
    (aux : Option (Dbl K)) (h h2 : Heap K)
    (hc : call_handler M handler body1 body2 axis aux h = some h2) : FlagMono h h2 := by
  cases handler <;> simp only [call_handler] at hc
  · exact destroy_handler_mono _ _ _ _ hc
  · exact physics_handler_mono _ _ _ _ _ _ hc
  · exact half_collision_handler_mono _ _ _ _ _ _ hc
  · exact remove_collision_handler_mono _ _ _ _ hc
  · exact slow_collision_handler_mono _ _ _ _ _ hc
  · exact double_point_collision_handler_mono _ _ _ _ _ hc
  · exact magnet_collision_handler_mono _ _ _ _ _ hc

theorem collision_creator_mono (M : Libm K) (aux aux2 : Aux K) (h h2 : Heap K) (fired : Bool)
    (hc : collision_creator M aux h = some (aux2, h2, fired)) : FlagMono h h2 := by
  simp only [collision_creator, Option.bind_eq_bind, Option.bind_eq_some] at hc
  obtain ⟨b1, _, b2, _, hc⟩ := hc
  by_cases hcol : (find_collision M (body_get_shape (h b1)) (body_get_shape (h b2))).collided
      = true
  · by_cases hlatch : aux.collided_or_not = false
    · simp only [hcol, hlatch, if_true, Option.bind_eq_some] at hc
      obtain ⟨hd, _, h3, hcall, hc⟩ := hc
      have hm := call_handler_mono _ _ _ _ _ _ _ _ hcall
      split_ifs at hc
      · simp only [Option.some.injEq, Prod.mk.injEq] at hc
        obtain ⟨_, rfl, _⟩ := hc
        exact (hm.modify_trans _ _ keep_negate_score).modify_trans _ _ keep_negate_score
      · simp only [Option.some.injEq, Prod.mk.injEq] at hc
        obtain ⟨_, rfl, _⟩ := hc
        exact hm
    · simp only [hcol, hlatch, if_true, if_false, Option.some.injEq, Prod.mk.injEq] at hc
      obtain ⟨_, rfl, _⟩ := hc
      exact FlagMono.refl _
  · simp only [hcol, if_false, Option.some.injEq, Prod.mk.injEq] at hc
    obtain ⟨_, rfl, _⟩ := hc
    exact FlagMono.refl _

theorem normal_force_creator_mono (M : Libm K) (aux aux2 : Aux K) (h h2 : Heap K)
    (hc : normal_force_creator M aux h = some (aux2, h2)) : FlagMono h h2 := by
  simp only [normal_force_creator, Option.bind_eq_bind, Option.bind_eq_some] at hc
  obtain ⟨b1, _, b2, _, hc⟩ := hc
  by_cases hcol : (find_collision M (body_get_shape (h b1)) (body_get_shape (h b2))).collided
      = true
  · by_cases hlatch : aux.collided_or_not = false
    · simp only [hcol, hlatch, if_true, Option.some.injEq, Prod.mk.injEq] at hc
      obtain ⟨_, rfl⟩ := hc
      exact (FlagMono.modify _ _ _ (keep_add_force _)).modify_trans _ _ (keep_set_velocity _)
    · simp only [hcol, hlatch, if_true, if_false, Option.some.injEq, Prod.mk.injEq] at hc
      obtain ⟨_, rfl⟩ := hc
      exact FlagMono.modify _ _ _ (keep_add_force _)
  · simp only [hcol, if_false, Option.some.injEq, Prod.mk.injEq] at hc
    obtain ⟨_, rfl⟩ := hc
    exact FlagMono.refl _

/-- No force creator clears the removal flag of a body. -/
theorem call_forcer_mono (M : Libm K) (fc fc2 : ForceCreator K) (h h2 : Heap K)
    (hc : call_forcer M fc h = some (fc2, h2)) : FlagMono h h2 := by
  unfold call_forcer at hc
  cases hf : fc.forcer <;> simp only [hf, Option.map_eq_some', Prod.mk.injEq] at hc <;>
    obtain ⟨r, hr, _, hr2⟩ := hc
  · subst hr2; exact gravity_creator_mono _ _ _ _ hr
  · subst hr2; exact earth_gravity_creator_mono _ _ _ hr
  · subst hr2; exact spring_creator_mono _ _ _ hr
  · subst hr2; exact drag_creator_mono _ _ _ hr
  · subst hr2; exact collision_creator_mono M fc.aux r.1 h r.2.1 r.2.2 hr
  · subst hr2; exact normal_force_creator_mono M fc.aux r.1 h r.2 hr
  · subst hr2; exact buoyancy_creator_mono _ _ _ hr

theorem tick_bodies_remove (bodies : List Nat) (dt : Dbl K) (h : Heap K) (x : Nat) :
    (tick_bodies bodies dt h x).remove = (h x).remove := by
  induction bodies generalizing h with
  | nil => rfl
  | cons body rest ih =>
    simp only [tick_bodies, List.foldl_cons] at ih ⊢
    rw [ih]
    unfold Heap.modify
    by_cases hxb : x = body
    · subst hxb
      simp [body_tick_remove]
    · simp [Function.update_noteq hxb]

end Flags

/-! ## Removed bodies and the calls of force creators -/

section Invocations

variable {K : Type} [LinearOrderedField K]

theorem apply_forces_mono (M : Libm K) (fcs fcs2 : List (ForceCreator K)) (h h2 : Heap K)
    (hrun : apply_forces M fcs h = some (fcs2, h2)) : FlagMono h h2 := by
  induction fcs generalizing fcs2 h h2 with
  | nil =>
    simp only [apply_forces, Option.some.injEq, Prod.mk.injEq] at hrun
    obtain ⟨_, rfl⟩ := hrun
    exact FlagMono.refl _
  | cons fc rest ih =>
    simp only [apply_forces, Option.bind_eq_bind, Option.bind_eq_some, Option.some.injEq,
      Prod.mk.injEq] at hrun
    obtain ⟨r, hr, rs, hrs, _, rfl⟩ := hrun
    exact (call_forcer_mono M fc r.1 h r.2 hr).trans (ih rs.1 r.2 rs.2 hrs)

/-- Every call of the first loop of scene_tick returns, and the bodies flagged as
removed when it returns are still flagged when the loop ends. -/
theorem invocations_mono (M : Libm K) (fcs fcs2 : List (ForceCreator K)) (h h2 : Heap K)
    (hrun : apply_forces M fcs h = some (fcs2, h2)) (p : ForceCreator K × Heap K)
    (hp : p ∈ invocations M fcs h) :
    ∃ r, call_forcer M p.1 p.2 = some r ∧ FlagMono r.2 h2 := by
  induction fcs generalizing fcs2 h h2 with
  | nil => simp [invocations] at hp
  | cons fc rest ih =>
    simp only [apply_forces, Option.bind_eq_bind, Option.bind_eq_some, Option.some.injEq,
      Prod.mk.injEq] at hrun
    obtain ⟨r, hr, rs, hrs, _, rfl⟩ := hrun
    simp only [invocations, hr, List.mem_cons] at hp
    rcases hp with rfl | hp
    · exact ⟨r, hr, apply_forces_mono M rest rs.1 r.2 rs.2 hrs⟩
    · exact ih rs.1 r.2 rs.2 hrs hp

theorem invocations_mem (M : Libm K) (fcs : List (ForceCreator K)) (h : Heap K)
    (p : ForceCreator K × Heap K) (hp : p ∈ invocations M fcs h) : p.1 ∈ fcs := by
  induction fcs generalizing h with
  | nil => simp [invocations] at hp
  | cons fc rest ih =>
    simp only [invocations, List.mem_cons] at hp
    rcases hp with rfl | hp
    · simp
    · cases hc : call_forcer M fc h with
      | none => simp [hc] at hp
      | some r =>
        simp only [hc] at hp
        exact List.mem_cons_of_mem _ (ih r.2 hp)

theorem scene_tick_some (M : Libm K) (scene scene2 : Scene K) (dt : Dbl K)
    (htick : scene_tick M scene dt = some scene2) :
    ∃ fcs mem1, apply_forces M scene.force_creators scene.mem = some (fcs, mem1) := by
  cases hrun : apply_forces M scene.force_creators scene.mem with
  | none => simp [scene_tick, hrun] at htick
  | some r => exact ⟨r.1, r.2, rfl⟩

/-- A body on which no force creator of the scene depends stays so through scene_tick,
and the lists of the scene do not grow. -/
theorem scene_tick_no_dep (M : Libm K) (scene scene2 : Scene K) (dt : Dbl K) (body : Nat)
    (hnb : scene.bodies.length < SIZE_MOD) (hnf : scene.force_creators.length < SIZE_MOD)
    (htick : scene_tick M scene dt = some scene2)
    (hno : ∀ fc ∈ scene.force_creators, body ∉ fc.bodies) :
    scene2.bodies.length < SIZE_MOD ∧ scene2.force_creators.length < SIZE_MOD ∧
    ∀ fc ∈ scene2.force_creators, body ∉ fc.bodies := by
  obtain ⟨fcs, mem1, hrun⟩ := scene_tick_some M scene scene2 dt htick
  obtain ⟨hsame1, hsame2⟩ := apply_forces_same M _ _ _ _ hrun
  obtain ⟨s2, hs2, _, hb, hf, _⟩ := scene_tick_eq M scene dt fcs mem1 hrun hnb hnf
  rw [htick, Option.some.injEq] at hs2
  subst hs2
  have hlenf : fcs.length = scene.force_creators.length := by
    have := congrArg List.length hsame1
    simpa using this
  refine ⟨?_, ?_, ?_⟩
  · rw [hb]
    exact lt_of_le_of_lt (List.length_filter_le _ _) hnb
  · rw [hf]
    exact lt_of_le_of_lt (List.length_filter_le _ _) (hlenf ▸ hnf)
  · intro fc hfc
    rw [hf] at hfc
    have hmem : fc.bodies ∈ fcs.map (fun fc => fc.bodies) :=
      List.mem_map_of_mem _ (List.mem_of_mem_filter hfc)
    rw [hsame2, List.mem_map] at hmem
    obtain ⟨fc0, hfc0, heq⟩ := hmem
    rw [← heq]
    exact hno fc0 hfc0

theorem run_invocations_no_dep (M : Libm K) (dts : List (Dbl K)) (scene : Scene K) (body : Nat)
    (hnb : scene.bodies.length < SIZE_MOD) (hnf : scene.force_creators.length < SIZE_MOD)
    (hno : ∀ fc ∈ scene.force_creators, body ∉ fc.bodies) :
    ∀ q ∈ run_invocations M dts scene, body ∉ q.1.bodies := by
  induction dts generalizing scene with
  | nil => simp [run_invocations]
  | cons dt dts ih =>
    intro q hq
    simp only [run_invocations, List.mem_append] at hq
    rcases hq with hq | hq
    · exact hno q.1 (invocations_mem M _ _ q hq)
    · cases htick : scene_tick M scene dt with
      | none => simp [htick] at hq
      | some scene2 =>
        simp only [htick] at hq
        obtain ⟨h1, h2, h3⟩ := scene_tick_no_dep M scene scene2 dt body hnb hnf htick hno
        exact ih scene2 h1 h2 h3 q hq

/-- C3 (as amended): if a body of the scene is flagged as removed when some force
creator call of a scene_tick returns, then after that scene_tick the body is no longer
in the scene, no force creator of the scene depends on it, and no force creator that
depends on it is called in any later scene_tick. -/
theorem removed_body_never_invoked_later (M : Libm K) (scene scene2 : Scene K) (dt : Dbl K)
    (dts : List (Dbl K)) (body : Nat) (p : ForceCreator K × Heap K)
    (hnb : scene.bodies.length < SIZE_MOD) (hnf : scene.force_creators.length < SIZE_MOD)
    (hin : body ∈ scene.bodies)
    (hp : p ∈ invocations M scene.force_creators scene.mem)
    (hmark : (call_forcer M p.1 p.2).map (fun r => body_is_removed (r.2 body)) = some true)
    (htick : scene_tick M scene dt = some scene2) :
    body ∉ scene2.bodies ∧ (∀ fc ∈ scene2.force_creators, body ∉ fc.bodies) ∧
    ∀ q ∈ run_invocations M dts scene2, body ∉ q.1.bodies := by
  obtain ⟨fcs, mem1, hrun⟩ := scene_tick_some M scene scene2 dt htick
  obtain ⟨hsame1, hsame2⟩ := apply_forces_same M _ _ _ _ hrun
  obtain ⟨s2, hs2, hmem, hb, hf, _⟩ := scene_tick_eq M scene dt fcs mem1 hrun hnb hnf
  rw [htick, Option.some.injEq] at hs2
  subst hs2
  obtain ⟨r, hr, hmono⟩ := invocations_mono M _ fcs _ mem1 hrun p hp
  have hflag1 : (mem1 body).remove = true := by
    apply hmono
    simpa [hr, body_is_removed] using hmark
  have hflag : body_is_removed (scene2.mem body) = true := by
    rw [hmem]
    simpa [body_is_removed, tick_bodies_remove] using hflag1
  have hnodep : ∀ fc ∈ scene2.force_creators, body ∉ fc.bodies := by
    intro fc hfc hdep
    rw [hf] at hfc
    have hsurv := (List.mem_filter.mp hfc).2
    simp only [survives, Bool.not_eq_true', List.any_eq_false, Bool.and_eq_true,
      not_and, Bool.not_eq_true] at hsurv
    have := hsurv body hin hflag
    simp only [force_to_removed, List.any_eq_false, decide_eq_true_eq] at this
    exact this body hdep rfl
  have hlens := scene_tick_no_dep M scene scene2 dt body hnb hnf htick
  refine ⟨?_, hnodep, ?_⟩
  · intro hmem2
    rw [hb] at hmem2
    have := (List.mem_filter.mp hmem2).2
    simp [hflag] at this
  · have hb2 : scene2.bodies.length < SIZE_MOD := by
      rw [hb]
      exact lt_of_le_of_lt (List.length_filter_le _ _) hnb
    have hlenf : fcs.length = scene.force_creators.length := by
      have := congrArg List.length hsame1
      simpa using this
    have hf2 : scene2.force_creators.length < SIZE_MOD := by
      rw [hf]
      exact lt_of_le_of_lt (List.length_filter_le _ _) (hlenf ▸ hnf)
    exact run_invocations_no_dep M dts scene2 body hb2 hf2 hnodep

theorem some_getD {α : Type} (x : Option α) (d : α) (h : x.isSome = true) :
    x = some (x.getD d) := by
  cases x <;> simp_all

theorem invocations_head (M : Libm K) (fcs : List (ForceCreator K)) (h : Heap K)
    (fc : ForceCreator K) (hhead : fcs.head? = some fc) : (fc, h) ∈ invocations M fcs h := by
  cases fcs with
  | nil => simp at hhead
  | cons a rest =>
    simp only [List.head?_cons, Option.some.injEq] at hhead
    subst hhead
    simp [invocations]

/-- Witness of C3 (as amended) on scene_c: the first call, the destructive collision of
the bodies 0 and 1, flags body 1 as removed; after the tick body 1 is out of the scene and
the two later ticks only call the drag on body 2. -/
theorem removed_body_never_invoked_later_witness :
    scene_c.bodies.length < SIZE_MOD ∧ scene_c.force_creators.length < SIZE_MOD ∧
    1 ∈ scene_c.bodies ∧
    first_call_c ∈ invocations libmQ scene_c.force_creators scene_c.mem ∧
    (call_forcer libmQ first_call_c.1 first_call_c.2).map
      (fun r => body_is_removed (r.2 1)) = some true ∧
    scene_tick libmQ scene_c (Dbl.fin 1) = some scene_c2 ∧
    (1 ∉ scene_c2.bodies ∧ (∀ fc ∈ scene_c2.force_creators, 1 ∉ fc.bodies) ∧
      ∀ q ∈ run_invocations libmQ [Dbl.fin 1, Dbl.fin 1] scene_c2, 1 ∉ q.1.bodies) ∧
    (run_invocations libmQ [Dbl.fin 1, Dbl.fin 1] scene_c2).map (fun q => q.1.bodies)
      = [[2], [2]] :=
  ⟨by decide!, by decide!, by decide!, invocations_head _ _ _ _ (by decide!), by decide!,
    some_getD _ _ (by decide!),
    removed_body_never_invoked_later libmQ scene_c scene_c2 (Dbl.fin 1) [Dbl.fin 1, Dbl.fin 1] 1
      first_call_c (by decide!) (by decide!) (by decide!)
      (invocations_head _ _ _ _ (by decide!)) (by decide!) (some_getD _ _ (by decide!)),
    by decide!⟩

/-- C3 (counterexample): in scene_tick on scene_c, whose bodies are all unflagged, the
first call (the destructive collision of the bodies 0 and 1) flags body 1 as removed, and
the drag creator on body 1 is still called afterwards in the same tick, on a memory in
which body 1 is flagged. -/
theorem creator_invoked_after_removal_same_tick :
    (invocations libmQ scene_c.force_creators scene_c.mem).map
        (fun p => (p.1.forcer, p.1.bodies, p.1.bodies.map fun b => body_is_removed (p.2 b)))
      = [(Forcer.collision_creator, [0, 1], [false, false]),
         (Forcer.drag_creator, [1], [true]), (Forcer.drag_creator, [2], [false])] := by
  decide!

end Invocations

/-! ## The latch of collision_creator -/

section Latch

variable {K : Type} [LinearOrderedField K]

/-- One call of collision_creator whose handler returns: the handler is called exactly
when the bodies overlap and the latch is clear, and the latch becomes the overlap flag. -/
theorem collision_creator_step (M : Libm K) (aux : Aux K) (body1 body2 : Nat)
    (handler : Handler) (h : Heap K) (hb : aux.bodies = [body1, body2])
    (hh : aux.handler = some handler)
    (hok : ∀ axis, (call_handler M handler body1 body2 axis aux.other_aux h).isSome = true) :
    ∃ r, collision_creator M aux h = some r ∧
      r.2.2 = (overlap_test M body1 body2 h && !aux.collided_or_not) ∧
      r.1.collided_or_not = overlap_test M body1 body2 h ∧
      r.1.bodies = [body1, body2] ∧ r.1.handler = some handler ∧
      r.1.other_aux = aux.other_aux := by
  simp only [collision_creator, aux_get_body, list_get, hb, List.getElem?_cons_zero,
    List.getElem?_cons_succ, Option.bind_eq_bind, Option.some_bind, overlap_test, hh]
  by_cases hcol : (find_collision M (body_get_shape (h body1)) (body_get_shape (h body2))).collided
      = true
  · cases hlatch : aux.collided_or_not
    · obtain ⟨h3, hh3⟩ := Option.isSome_iff_exists.mp
        (hok (find_collision M (body_get_shape (h body1)) (body_get_shape (h body2))).axis)
      simp only [hcol, if_true, hh3, Option.some_bind]
      split_ifs <;> exact ⟨_, rfl, by simp, rfl, rfl, rfl, rfl⟩
    · simp only [hcol, if_true, Bool.true_eq_false, if_false]
      exact ⟨_, rfl, by simp, by simp [hlatch], by first | rfl | exact hb,
        by first | rfl | exact hh, rfl⟩
  · simp only [hcol, if_false]
    exact ⟨_, rfl, by simp [Bool.not_eq_true _ ▸ hcol], by simp [hcol], rfl, rfl, rfl⟩

/-- The handler calls of a collision creator over consecutive ticks, for any state of the
latch at the start. -/
theorem collision_run_spec (M : Libm K) (hs : List (Heap K)) (aux : Aux K) (body1 body2 : Nat)
    (handler : Handler) (hb : aux.bodies = [body1, body2]) (hh : aux.handler = some handler)
    (hok : ∀ h ∈ hs, ∀ axis,
      (call_handler M handler body1 body2 axis aux.other_aux h).isSome = true) :
    ∃ fired, collision_run M aux hs = some fired ∧ fired.length = hs.length ∧
      ∀ i, i < hs.length → fired[i]? = some (overlap_at M body1 body2 hs i &&
        !(if i = 0 then aux.collided_or_not else overlap_at M body1 body2 hs (i - 1))) := by
  induction hs generalizing aux with
  | nil => exact ⟨[], rfl, rfl, fun i hi => absurd hi (Nat.not_lt_zero _)⟩
  | cons h hs ih =>
    obtain ⟨r, hr, hfired, hlatch, hb2, hh2, ho2⟩ := collision_creator_step M aux body1 body2
      handler h hb hh (hok h (List.mem_cons_self _ _))
    obtain ⟨rest, hrest, hlen, hidx⟩ := ih r.1 hb2 hh2
      (fun h2 hmem axis => ho2 ▸ hok h2 (List.mem_cons_of_mem _ hmem) axis)
    refine ⟨r.2.2 :: rest, by simp [collision_run, hr, hrest], by simp [hlen], ?_⟩
    intro i hi
    cases i with
    | zero => simp [hfired, overlap_at]
    | succ i =>
      have hi2 : i < hs.length := by simpa using hi
      rw [List.getElem?_cons_succ, hidx i hi2]
      cases i with
      | zero => simp [overlap_at, hlatch]
      | succ i => simp [overlap_at]

/-- One call of collision_creator whose handler returns: when the bodies overlap and the
latch is clear, the memory left is the one that the handler, called on the two bodies
with the collision axis and the auxiliary value, returns, with the scores negated if
vec_opposite holds; otherwise the memory is left as it was. -/
theorem collision_creator_effect (M : Libm K) (aux : Aux K) (body1 body2 : Nat)
    (handler : Handler) (h : Heap K) (hb : aux.bodies = [body1, body2])
    (hh : aux.handler = some handler)
    (hok : ∀ axis, (call_handler M handler body1 body2 axis aux.other_aux h).isSome = true) :
    ∃ r, collision_creator M aux h = some r ∧
      r.2.2 = (overlap_test M body1 body2 h && !aux.collided_or_not) ∧
      r.1.collided_or_not = overlap_test M body1 body2 h ∧
      r.1.bodies = [body1, body2] ∧ r.1.handler = some handler ∧
      r.1.other_aux = aux.other_aux ∧
      (r.2.2 = true → ∃ h1, call_handler M handler body1 body2
          (find_collision M (body_get_shape (h body1)) (body_get_shape (h body2))).axis
          aux.other_aux h = some h1 ∧
        r.2.1 = scores_after_handler M body1 body2 h1) ∧
      (r.2.2 = false → r.2.1 = h) := by
  simp only [collision_creator, aux_get_body, list_get, hb, List.getElem?_cons_zero,
    List.getElem?_cons_succ, Option.bind_eq_bind, Option.some_bind, overlap_test, hh]
  by_cases hcol : (find_collision M (body_get_shape (h body1)) (body_get_shape (h body2))).collided
      = true
  · cases hlatch : aux.collided_or_not
    · obtain ⟨h3, hh3⟩ := Option.isSome_iff_exists.mp
        (hok (find_collision M (body_get_shape (h body1)) (body_get_shape (h body2))).axis)
      simp only [hcol, if_true, hh3, Option.some_bind]
      split_ifs with hopp
      · exact ⟨_, rfl, by simp, rfl, rfl, rfl, rfl,
          fun _ => ⟨h3, rfl, by simp [scores_after_handler, hopp]⟩,
          fun hf => absurd hf (by simp)⟩
      · exact ⟨_, rfl, by simp, rfl, rfl, rfl, rfl,
          fun _ => ⟨h3, rfl, by simp [scores_after_handler, hopp]⟩,
          fun hf => absurd hf (by simp)⟩
    · simp only [hcol, if_true, Bool.true_eq_false, if_false]
      exact ⟨_, rfl, by simp, by simp [hlatch], by first | rfl | exact hb,
        by first | rfl | exact hh, rfl, fun hf => absurd hf (by simp), fun _ => rfl⟩
  · simp only [hcol, if_false]
    exact ⟨_, rfl, by simp [Bool.not_eq_true _ ▸ hcol], by simp [hcol], rfl, rfl, rfl,
      fun hf => absurd hf (by simp), fun _ => rfl⟩

/-- The handler calls of a collision creator over consecutive ticks and the memories they
leave, for any state of the latch at the start. -/
theorem collision_trace_spec (M : Libm K) (hs : List (Heap K)) (aux : Aux K)
    (body1 body2 : Nat) (handler : Handler) (hb : aux.bodies = [body1, body2])
    (hh : aux.handler = some handler)
    (hok : ∀ h ∈ hs, ∀ axis,
      (call_handler M handler body1 body2 axis aux.other_aux h).isSome = true) :
    ∃ out, collision_trace M aux hs = some out ∧
      collision_run M aux hs = some (out.map Prod.fst) ∧ out.length = hs.length ∧
      ∀ i h, hs[i]? = some h → ∃ m,
        out[i]? = some (overlap_at M body1 body2 hs i &&
          !(if i = 0 then aux.collided_or_not else overlap_at M body1 body2 hs (i - 1)), m) ∧
        ((overlap_at M body1 body2 hs i &&
            !(if i = 0 then aux.collided_or_not else overlap_at M body1 body2 hs (i - 1)))
          = true →
          ∃ h1, call_handler M handler body1 body2
              (find_collision M (body_get_shape (h body1)) (body_get_shape (h body2))).axis
              aux.other_aux h = some h1 ∧
            m = scores_after_handler M body1 body2 h1) ∧
        ((overlap_at M body1 body2 hs i &&
            !(if i = 0 then aux.collided_or_not else overlap_at M body1 body2 hs (i - 1)))
          = false → m = h) := by
  induction hs generalizing aux with
  | nil => exact ⟨[], rfl, rfl, rfl, fun i h hi => by simp at hi⟩
  | cons h0 hs ih =>
    obtain ⟨r, hr, hfired, hlatch, hb2, hh2, ho2, hyes, hno⟩ := collision_creator_effect M aux
      body1 body2 handler h0 hb hh (hok h0 (List.mem_cons_self _ _))
    obtain ⟨rest, hrest, hrun, hlen, hidx⟩ := ih r.1 hb2 hh2
      (fun h2 hmem axis => ho2 ▸ hok h2 (List.mem_cons_of_mem _ hmem) axis)
    refine ⟨(r.2.2, r.2.1) :: rest, by simp [collision_trace, hr, hrest],
      by simp [collision_run, hr, hrun], by simp [hlen], ?_⟩
    intro i h hi
    cases i with
    | zero =>
      simp only [List.getElem?_cons_zero, Option.some.injEq] at hi
      subst hi
      have hf : (overlap_at M body1 body2 (h0 :: hs) 0 &&
          !(if (0 : Nat) = 0 then aux.collided_or_not
            else overlap_at M body1 body2 (h0 :: hs) (0 - 1))) = r.2.2 := by
        simp [hfired, overlap_at]
      rw [hf]
      exact ⟨r.2.1, by simp, hyes, hno⟩
    | succ i =>
      rw [List.getElem?_cons_succ] at hi
      obtain ⟨m, hm, hy, hn⟩ := hidx i h hi
      have hf : (overlap_at M body1 body2 (h0 :: hs) (i + 1) &&
          !(if i + 1 = 0 then aux.collided_or_not
            else overlap_at M body1 body2 (h0 :: hs) (i + 1 - 1)))
          = (overlap_at M body1 body2 hs i &&
            !(if i = 0 then r.1.collided_or_not else overlap_at M body1 body2 hs (i - 1))) := by
        cases i with
        | zero => simp [overlap_at, hlatch]
        | succ i => simp [overlap_at]
      rw [hf, ← ho2]
      exact ⟨m, by rw [List.getElem?_cons_succ]; exact hm, hy, hn⟩

/-- C9: a collision creator registered with create_collision (its latch is clear) whose
handler returns whenever it is called calls the handler, over consecutive ticks with the
overlap tests `o_0, o_1, ...`, at tick `i` exactly when `o_i` is true and `i` is the first
tick or `o_(i-1)` is false.  At such a tick the memory that the creator leaves is the one
returned by the handler, called on the two bodies with the collision axis and the
auxiliary value of create_collision (followed by the negation of the scores that ends
collision_creator); at every other tick the creator leaves the memory as it was. -/
theorem collision_debounce (M : Libm K) (scene : Scene K) (body1 body2 : Nat)
    (handler : Handler) (oaux : Option (Dbl K)) (fc : ForceCreator K) (hs : List (Heap K))
    (hfc : (create_collision scene body1 body2 handler oaux).force_creators.getLast? = some fc)
    (hok : ∀ h ∈ hs, ∀ axis, (call_handler M handler body1 body2 axis oaux h).isSome = true) :
    fc.forcer = Forcer.collision_creator ∧
    (∃ fired, collision_run M fc.aux hs = some fired ∧ fired.length = hs.length ∧
      ∀ i, i < hs.length → fired[i]? = some (overlap_at M body1 body2 hs i &&
        (decide (i = 0) || !overlap_at M body1 body2 hs (i - 1)))) ∧
    ∃ out, collision_trace M fc.aux hs = some out ∧
      collision_run M fc.aux hs = some (out.map Prod.fst) ∧ out.length = hs.length ∧
      ∀ i h, hs[i]? = some h → ∃ m,
        out[i]? = some (overlap_at M body1 body2 hs i &&
          (decide (i = 0) || !overlap_at M body1 body2 hs (i - 1)), m) ∧
        ((overlap_at M body1 body2 hs i &&
            (decide (i = 0) || !overlap_at M body1 body2 hs (i - 1))) = true →
          ∃ h1, call_handler M handler body1 body2
              (find_collision M (body_get_shape (h body1)) (body_get_shape (h body2))).axis
              oaux h = some h1 ∧
            m = scores_after_handler M body1 body2 h1) ∧
        ((overlap_at M body1 body2 hs i &&
            (decide (i = 0) || !overlap_at M body1 body2 hs (i - 1))) = false → m = h) := by
  simp [create_collision, scene_add_bodies_force_creator] at hfc
  subst hfc
  have hF : ∀ i, (overlap_at M body1 body2 hs i &&
      !(if i = 0 then
          ({ aux_init [body1, body2] NON_CONSTANT with
            other_aux := oaux, handler := some handler } : Aux K).collided_or_not
        else overlap_at M body1 body2 hs (i - 1)))
      = (overlap_at M body1 body2 hs i &&
        (decide (i = 0) || !overlap_at M body1 body2 hs (i - 1))) := by
    intro i
    by_cases h0 : i = 0 <;> simp [h0, aux_init]
  refine ⟨rfl, ?_, ?_⟩
  · obtain ⟨fired, hrun, hlen, hidx⟩ := collision_run_spec M hs
      ({ aux_init [body1, body2] NON_CONSTANT with other_aux := oaux, handler := some handler })
      body1 body2 handler rfl rfl hok
    refine ⟨fired, hrun, hlen, fun i hi => ?_⟩
    rw [hidx i hi, hF i]
  · obtain ⟨out, htrace, hrun, hlen, hidx⟩ := collision_trace_spec M hs
      ({ aux_init [body1, body2] NON_CONSTANT with other_aux := oaux, handler := some handler })
      body1 body2 handler rfl rfl hok
    refine ⟨out, htrace, hrun, hlen, fun i h hi => ?_⟩
    obtain ⟨m, hm, hy, hn⟩ := hidx i h hi
    rw [hF i] at hm hy hn
    exact ⟨m, hm, hy, hn⟩

/-- Witness of C9: over five ticks on which the bodies overlap, overlap, are apart,
overlap and overlap, the handler is called at the first and at the fourth tick only: the
memory left has both bodies flagged as removed by destroy_handler at these two ticks, and
no body flagged at the other ticks. -/
theorem collision_debounce_witness :
    (create_collision (scene_init mem_touch false false (Dbl.fin 0)) 0 1 .destroy_handler
      (some NON_CONSTANT)).force_creators.getLast? = some destructive_01 ∧
    (∀ h ∈ [mem_touch, mem_touch, mem_apart, mem_touch, mem_touch], ∀ axis,
      (call_handler libmQ .destroy_handler 0 1 axis (some NON_CONSTANT) h).isSome = true) ∧
    (∃ out, collision_trace libmQ destructive_01.aux
        [mem_touch, mem_touch, mem_apart, mem_touch, mem_touch] = some out ∧
      collision_run libmQ destructive_01.aux
        [mem_touch, mem_touch, mem_apart, mem_touch, mem_touch] = some (out.map Prod.fst) ∧
      out.length = 5) ∧
    collision_run libmQ destructive_01.aux
        [mem_touch, mem_touch, mem_apart, mem_touch, mem_touch]
      = some [true, false, false, true, false] ∧
    (collision_trace libmQ destructive_01.aux
        [mem_touch, mem_touch, mem_apart, mem_touch, mem_touch]).map
        (fun out => out.map fun r => (r.1, (r.2 0).remove, (r.2 1).remove))
      = some [(true, true, true), (false, false, false), (false, false, false),
          (true, true, true), (false, false, false)] ∧
    (call_handler libmQ .destroy_handler 0 1 (Vec.fin 0 0) (some NON_CONSTANT) mem_touch).map
        (fun h1 => ((h1 0).remove, (h1 1).remove)) = some (true, true) ∧
    ((mem_touch 0).remove, (mem_touch 1).remove) = (false, false) :=
  ⟨by decide!, fun _ _ _ => rfl, by
    obtain ⟨_, _, out, htrace, hrun, hlen, _⟩ :=
      collision_debounce libmQ (scene_init mem_touch false false (Dbl.fin 0)) 0 1
        .destroy_handler (some NON_CONSTANT)
        destructive_01 [mem_touch, mem_touch, mem_apart, mem_touch, mem_touch] (by decide!)
        (fun _ _ _ => rfl)
    exact ⟨out, htrace, hrun, hlen⟩,
    by decide!, by decide!, by decide!, by decide!⟩

end Latch

/-! ## find_collision on axis-aligned rectangles -/

section Sat

variable {K : Type} [LinearOrderedField K]

theorem find_perpline_fin (x1 y1 x2 y2 : K) :
    find_perpline (Vec.fin x1 y1) (Vec.fin x2 y2) = Vec.fin (y1 - y2) (x2 - x1) := by
  simp only [find_perpline, vec_subtract, vec_negate, vec_multiply, vec_add, Vec.fin,
    Dbl.fin_mul_fin, Dbl.fin_add_fin, Dbl.neg_fin, Vec.mk.injEq, Dbl.fin.injEq]
  constructor <;> ring

theorem project_vertical (px py w : K) (hw : w ≠ 0) :
    point_project_to_line (Vec.fin px py) (Vec.fin 0 w) = Vec.fin 0 py := by
  have hww : px * 0 + py * w = py * w := by ring
  have hden : (0 : K) * 0 + w * w ≠ 0 := by
    have : (0 : K) * 0 + w * w = w * w := by ring
    rw [this]
    exact mul_ne_zero hw hw
  simp only [point_project_to_line, vec_dot, vec_multiply, Vec.fin, Dbl.fin_mul_fin,
    Dbl.fin_add_fin, Dbl.fin_div_fin _ hden, Vec.mk.injEq, Dbl.fin.injEq]
  constructor
  · ring
  · field_simp
    ring

theorem project_horizontal (px py w : K) (hw : w ≠ 0) :
    point_project_to_line (Vec.fin px py) (Vec.fin w 0) = Vec.fin px 0 := by
  have hden : w * w + (0 : K) * 0 ≠ 0 := by
    have : w * w + (0 : K) * 0 = w * w := by ring
    rw [this]
    exact mul_ne_zero hw hw
  simp only [point_project_to_line, vec_dot, vec_multiply, Vec.fin, Dbl.fin_mul_fin,
    Dbl.fin_add_fin, Dbl.fin_div_fin _ hden, Vec.mk.injEq, Dbl.fin.injEq]
  constructor
  · field_simp
    ring
  · ring

/-- One step of the projection loop on a vertical axis, after the first vertex: the
running maximum and minimum of the `y` coordinates. -/
theorem project_step_vertical (w M m px py : K) (i : Nat) (hw : w ≠ 0) (hi : i ≠ 0) :
    project_step (Vec.fin 0 w) ⟨Vec.fin 0 M, Vec.fin 0 m⟩ (i, Vec.fin px py)
      = ⟨Vec.fin 0 (max M py), Vec.fin 0 (min m py)⟩ := by
  simp only [project_step, project_vertical px py w hw, hi, if_false]
  simp only [Vec.fin, Dbl.feq_fin_fin, decide_True, if_true, Dbl.fin_lt_fin]
  rcases le_or_lt py M with h1 | h1 <;> rcases le_or_lt m py with h2 | h2
  · simp [not_lt.mpr h1, not_lt.mpr h2, max_eq_left h1, min_eq_left h2]
  · simp [not_lt.mpr h1, h2, max_eq_left h1, min_eq_right h2.le]
  · simp [h1, not_lt.mpr h2, max_eq_right h1.le, min_eq_left h2]
  · simp [h1, h2, max_eq_right h1.le, min_eq_right h2.le]

theorem project_step_horizontal (w M m px py : K) (i : Nat) (hw : w ≠ 0) (hi : i ≠ 0) :
    project_step (Vec.fin w 0) ⟨Vec.fin M 0, Vec.fin m 0⟩ (i, Vec.fin px py)
      = ⟨Vec.fin (max M px) 0, Vec.fin (min m px) 0⟩ := by
  simp only [project_step, project_horizontal px py w hw, hi, if_false]
  simp only [Vec.fin, Dbl.feq_fin_fin, hw, decide_False, Bool.false_eq_true, if_false,
    Dbl.fin_lt_fin]
  rcases le_or_lt px M with h1 | h1 <;> rcases le_or_lt m px with h2 | h2
  · simp [not_lt.mpr h1, not_lt.mpr h2, max_eq_left h1, min_eq_left h2]
  · simp [not_lt.mpr h1, h2, max_eq_left h1, min_eq_right h2.le]
  · simp [h1, not_lt.mpr h2, max_eq_right h1.le, min_eq_left h2]
  · simp [h1, h2, max_eq_right h1.le, min_eq_right h2.le]

theorem project_step_vertical_first (w px py : K) (acc : ProjectedLine K) (hw : w ≠ 0) :
    project_step (Vec.fin 0 w) acc (0, Vec.fin px py) = ⟨Vec.fin 0 py, Vec.fin 0 py⟩ := by
  simp only [project_step, project_vertical px py w hw, if_true]
  simp [Vec.fin]

theorem project_step_horizontal_first (w px py : K) (acc : ProjectedLine K) (hw : w ≠ 0) :
    project_step (Vec.fin w 0) acc (0, Vec.fin px py) = ⟨Vec.fin px 0, Vec.fin px 0⟩ := by
  simp only [project_step, project_horizontal px py w hw, if_true]
  simp [Vec.fin, hw]

/-- The projection of a rectangle on a vertical axis is its `y` extent. -/
theorem rectangle_project_vertical (v : Bool) (x0 x1 y0 y1 w : K) (hw : w ≠ 0) :
    shape_project_to_line (rectangle v x0 x1 y0 y1) (Vec.fin 0 w)
      = ⟨Vec.fin 0 (max y0 y1), Vec.fin 0 (min y0 y1)⟩ := by
  cases v <;>
    simp only [shape_project_to_line, rectangle, Bool.false_eq_true, if_true, if_false,
      List.enum, List.enumFrom, List.foldl_cons, List.foldl_nil,
      project_step_vertical_first _ _ _ _ hw,
      project_step_vertical _ _ _ _ _ _ hw (Nat.succ_ne_zero _)] <;>
    congr 2 <;> rcases le_total y0 y1 with h | h <;> simp [h]

/-- The projection of a rectangle on a horizontal axis is its `x` extent. -/
theorem rectangle_project_horizontal (v : Bool) (x0 x1 y0 y1 w : K) (hw : w ≠ 0) :
    shape_project_to_line (rectangle v x0 x1 y0 y1) (Vec.fin w 0)
      = ⟨Vec.fin (max x0 x1) 0, Vec.fin (min x0 x1) 0⟩ := by
  cases v <;>
    simp only [shape_project_to_line, rectangle, Bool.false_eq_true, if_true, if_false,
      List.enum, List.enumFrom, List.foldl_cons, List.foldl_nil,
      project_step_horizontal_first _ _ _ _ hw,
      project_step_horizontal _ _ _ _ _ _ hw (Nat.succ_ne_zero _)] <;>
    congr 2 <;> rcases le_total x0 x1 with h | h <;> simp [h]

theorem not_overlap_vertical (M1 m1 M2 m2 : K) (h1 : m2 ≤ M1) (h2 : m1 ≤ M2) :
    two_segments_not_overlap (⟨Vec.fin 0 M1, Vec.fin 0 m1⟩ : ProjectedLine K)
      ⟨Vec.fin 0 M2, Vec.fin 0 m2⟩ = false := by
  simp [two_segments_not_overlap, Vec.fin, h1, h2]

theorem not_overlap_horizontal (M1 m1 M2 m2 : K) (h1 : m2 ≤ M1) (h2 : m1 ≤ M2) :
    two_segments_not_overlap (⟨Vec.fin M1 0, Vec.fin m1 0⟩ : ProjectedLine K)
      ⟨Vec.fin M2 0, Vec.fin m2 0⟩ = false := by
  by_cases h0 : M1 = 0 <;> simp [two_segments_not_overlap, Vec.fin, h0, h1, h2]

/-- A loop of find_collision that finds no separating axis leaves the flag as it is. -/
theorem sat_loop_overlap (M : Libm K) (shape1 shape2 : List (Vec K))
    (es : List (Vec K × Vec K)) (st : SatState K)
    (h : ∀ e ∈ es, two_segments_not_overlap
      (shape_project_to_line shape1 (find_perpline e.1 e.2))
      (shape_project_to_line shape2 (find_perpline e.1 e.2)) = false) :
    (sat_loop M shape1 shape2 es st).overlap = st.overlap := by
  induction es generalizing st with
  | nil => rfl
  | cons e rest ih =>
    have he := h e (List.mem_cons_self _ _)
    simp only [sat_loop, he, Bool.false_eq_true, if_false]
    rw [ih _ (fun e2 he2 => h e2 (List.mem_cons_of_mem _ he2))]
    split_ifs <;> rfl

theorem edges_rectangle (v : Bool) (x0 x1 y0 y1 : K) :
    edges (rectangle v x0 x1 y0 y1)
      = if v then
          [(Vec.fin x0 y0, Vec.fin x0 y1), (Vec.fin x0 y1, Vec.fin x1 y1),
           (Vec.fin x1 y1, Vec.fin x1 y0), (Vec.fin x1 y0, Vec.fin x0 y0)]
        else
          [(Vec.fin x0 y0, Vec.fin x1 y0), (Vec.fin x1 y0, Vec.fin x1 y1),
           (Vec.fin x1 y1, Vec.fin x0 y1), (Vec.fin x0 y1, Vec.fin x0 y0)] := by
  cases v <;> simp [edges, rectangle, List.range, List.range.loop]

/-- On every axis taken from an edge of a rectangle, the projections of two rectangles
whose extents intersect are reported as overlapping. -/
theorem rectangle_axes (v v1 v2 : Bool) (x0 x1 y0 y1 a0 a1 b0 b1 c0 c1 d0 d1 : K)
    (hx : x0 ≠ x1) (hy : y0 ≠ y1)
    (hx1 : min c0 c1 ≤ max a0 a1) (hx2 : min a0 a1 ≤ max c0 c1)
    (hy1 : min d0 d1 ≤ max b0 b1) (hy2 : min b0 b1 ≤ max d0 d1) :
    ∀ e ∈ edges (rectangle v x0 x1 y0 y1), two_segments_not_overlap
      (shape_project_to_line (rectangle v1 a0 a1 b0 b1) (find_perpline e.1 e.2))
      (shape_project_to_line (rectangle v2 c0 c1 d0 d1) (find_perpline e.1 e.2)) = false := by
  have hx01 : x1 - x0 ≠ 0 := sub_ne_zero.mpr (Ne.symm hx)
  have hx10 : x0 - x1 ≠ 0 := sub_ne_zero.mpr hx
  have hy01 : y1 - y0 ≠ 0 := sub_ne_zero.mpr (Ne.symm hy)
  have hy10 : y0 - y1 ≠ 0 := sub_ne_zero.mpr hy
  have hver : ∀ w : K, w ≠ 0 → two_segments_not_overlap
      (shape_project_to_line (rectangle v1 a0 a1 b0 b1) (Vec.fin 0 w))
      (shape_project_to_line (rectangle v2 c0 c1 d0 d1) (Vec.fin 0 w)) = false := by
    intro w hw
    rw [rectangle_project_vertical _ _ _ _ _ _ hw, rectangle_project_vertical _ _ _ _ _ _ hw]
    exact not_overlap_vertical _ _ _ _ hy1 hy2
  have hhor : ∀ w : K, w ≠ 0 → two_segments_not_overlap
      (shape_project_to_line (rectangle v1 a0 a1 b0 b1) (Vec.fin w 0))
      (shape_project_to_line (rectangle v2 c0 c1 d0 d1) (Vec.fin w 0)) = false := by
    intro w hw
    rw [rectangle_project_horizontal _ _ _ _ _ _ hw,
      rectangle_project_horizontal _ _ _ _ _ _ hw]
    exact not_overlap_horizontal _ _ _ _ hx1 hx2
  intro e he
  rw [edges_rectangle] at he
  cases v <;>
    simp only [Bool.false_eq_true, if_true, if_false, List.mem_cons, List.mem_singleton,
      List.not_mem_nil, or_false] at he <;>
    rcases he with rfl | rfl | rfl | rfl <;> simp only [find_perpline_fin, sub_self] <;>
    first
    | exact hver _ hx01
    | exact hver _ hx10
    | exact hhor _ hy01
    | exact hhor _ hy10

/-- C5: two axis-aligned rectangles of non-zero width and height, each with its vertices
listed in any cyclic order, whose `x` extents intersect and whose `y` extents intersect
(sharing an edge or a corner included) are reported as collided by find_collision. -/
theorem find_collision_rectangles (M : Libm K) (v1 v2 : Bool) (a0 a1 b0 b1 c0 c1 d0 d1 : K)
    (ha : a0 ≠ a1) (hb : b0 ≠ b1) (hc : c0 ≠ c1) (hd : d0 ≠ d1)
    (hx1 : min c0 c1 ≤ max a0 a1) (hx2 : min a0 a1 ≤ max c0 c1)
    (hy1 : min d0 d1 ≤ max b0 b1) (hy2 : min b0 b1 ≤ max d0 d1) :
    (find_collision M (rectangle v1 a0 a1 b0 b1) (rectangle v2 c0 c1 d0 d1)).collided
      = true := by
  simp only [find_collision]
  rw [sat_loop_overlap M _ _ _ _ (rectangle_axes v2 v1 v2 c0 c1 d0 d1 a0 a1 b0 b1 c0 c1 d0 d1
      hc hd hx1 hx2 hy1 hy2),
    sat_loop_overlap M _ _ _ _ (rectangle_axes v1 v1 v2 a0 a1 b0 b1 a0 a1 b0 b1 c0 c1 d0 d1
      ha hb hx1 hx2 hy1 hy2)]

/-- Witness of C5: the squares of the collision test, which share the edge `x = 1`. -/
theorem find_collision_rectangles_witness :
    (-1 : ℚ) ≠ 1 ∧ (1 : ℚ) ≠ 3 ∧ min (1 : ℚ) 3 ≤ max (-1) 1 ∧
    min (-1 : ℚ) 1 ≤ max 1 3 ∧ min (-1 : ℚ) 1 ≤ max (-1) 1 ∧
    rectangle false (-1 : ℚ) 1 (-1) 1 = shape_1 ∧ rectangle false (1 : ℚ) 3 (-1) 1 = shape_3 ∧
    (find_collision libmQ (rectangle false (-1) 1 (-1) 1)
      (rectangle false 1 3 (-1) 1)).collided = true :=
  ⟨by norm_num, by norm_num, by norm_num, by norm_num, by norm_num, rfl, rfl,
    find_collision_rectangles libmQ false false (-1) 1 (-1) 1 1 3 (-1) 1 (by norm_num)
      (by norm_num) (by norm_num) (by norm_num) (by norm_num) (by norm_num) (by norm_num)
      (by norm_num)⟩

/-- C4 (failing input): the rectangles `[-2,0] x [-1,1]` and `[1,3] x [-1,1]` have
disjoint `x` extents: on the axis of the edge from `(0,-1)` to `(0,1)` their projections
are the intervals from `-2` to `0` and from `1` to `3`.  Still two_segments_not_overlap
answers false on that axis (the maximum of the first projection has `x = 0`, so the `y`
coordinates are compared) and find_collision reports a collision. -/
theorem disjoint_rectangles_reported_collided :
    shape_project_to_line shape_left (find_perpline (Vec.fin 0 (-1)) (Vec.fin 0 1))
      = ⟨Vec.fin 0 0, Vec.fin (-2) 0⟩ ∧
    shape_project_to_line shape_3 (find_perpline (Vec.fin 0 (-1)) (Vec.fin 0 1))
      = ⟨Vec.fin 3 0, Vec.fin 1 0⟩ ∧
    two_segments_not_overlap
      (shape_project_to_line shape_left (find_perpline (Vec.fin 0 (-1)) (Vec.fin 0 1)))
      (shape_project_to_line shape_3 (find_perpline (Vec.fin 0 (-1)) (Vec.fin 0 1))) = false ∧
    (find_collision libmQ shape_left shape_3).collided = true := by
  decide!

/-- C6 (failing input): a triangle of area 1 is reported as not colliding with itself,
and as not colliding with its copy moved up by 1, although the point `(1/10, 3/2)` lies
strictly inside both. -/
theorem overlapping_triangles_reported_apart :
    polygon_area triangle = Dbl.fin 1 ∧
    strictly_inside triangle (Vec.fin (1 / 10) (3 / 2)) = true ∧
    strictly_inside triangle_up (Vec.fin (1 / 10) (3 / 2)) = true ∧
    (find_collision libmQ triangle triangle).collided = false ∧
    (find_collision libmQ triangle triangle_up).collided = false := by
  decide!

/-- C7 (failing input): for the squares `[-1,1] x [-1,1]` and `[1,3] x [1,3]`, which touch
at the corner `(1,1)`, find_collision reports a collision with the zero vector as axis. -/
theorem touching_corner_zero_axis :
    find_collision libmQ shape_1 shape_corner = ⟨true, Vec.fin 0 0⟩ := by
  decide!

/-- C8 (failing input): for the square `[-1,1] x [-1,1]` and the rectangle
`[1/2,5/2] x [-1,1]` to its right, find_collision reports a collision with the axis
`(-1, 0)`, whose dot product with the difference of the centroids `(3/2, 0)` is `-3/2`. -/
theorem axis_points_away_from_second_shape :
    find_collision libmQ shape_1 shape_shifted = ⟨true, Vec.fin (-1) 0⟩ ∧
    vec_subtract (polygon_centroid shape_shifted) (polygon_centroid shape_1)
      = Vec.fin (3 / 2) 0 ∧
    vec_dot (find_collision libmQ shape_1 shape_shifted).axis
      (vec_subtract (polygon_centroid shape_shifted) (polygon_centroid shape_1))
      = Dbl.fin (-3 / 2) := by
  decide!

end Sat

/-! ## Memory updates -/

section HeapLemmas

variable {K : Type} [LinearOrderedField K]

theorem Heap.modify_same (h : Heap K) (body : Nat) (f : Body K → Body K) :
    h.modify body f body = f (h body) := by
  simp [Heap.modify]

theorem Heap.modify_other (h : Heap K) (body x : Nat) (f : Body K → Body K) (hx : x ≠ body) :
    h.modify body f x = h x := by
  simp [Heap.modify, Function.update_noteq hx]

end HeapLemmas

/-! ## The setters of body.c -/

section Setters

variable {K : Type} [LinearOrderedField K]

/-- C12: body_set_centroid makes body_get_centroid return exactly the new centroid and
replaces every vertex `p` of the shape, in place, by `p + (x - old centroid)`; the number
of vertices, the velocity, the mass and the accumulated force and impulse are unchanged.
For finite coordinates the new vertex is `p + (x - c)` in exact arithmetic. -/
theorem body_set_centroid_spec (b : Body K) (x : Vec K) :
    body_get_centroid (body_set_centroid b x) = x ∧
    (body_set_centroid b x).shape
      = b.shape.map (fun p => vec_add p (vec_subtract x (body_get_centroid b))) ∧
    (body_set_centroid b x).shape.length = b.shape.length ∧
    (∀ i : Nat, (body_set_centroid b x).shape[i]?
      = (b.shape[i]?).map (fun p => vec_add p (vec_subtract x (body_get_centroid b)))) ∧
    (body_set_centroid b x).velocity = b.velocity ∧
    (body_set_centroid b x).mass = b.mass ∧
    (body_set_centroid b x).forces = b.forces ∧
    (body_set_centroid b x).impulses = b.impulses ∧
    (∀ px py cx cy x1 y1 : K,
      vec_add (Vec.fin px py) (vec_subtract (Vec.fin x1 y1) (Vec.fin cx cy))
        = Vec.fin (px + (x1 - cx)) (py + (y1 - cy))) := by
  refine ⟨rfl, rfl, by simp [body_set_centroid, polygon_translate], fun i => ?_, rfl, rfl, rfl,
    rfl, fun px py cx cy x1 y1 => ?_⟩
  · simp [body_set_centroid, polygon_translate, body_get_centroid]
  · simp only [vec_add, vec_subtract, vec_negate, vec_multiply, Vec.fin, Dbl.fin_mul_fin,
      Dbl.fin_add_fin, Vec.mk.injEq, Dbl.fin.injEq]
    constructor <;> ring

/-- C13: body_add_force and body_add_impulse add their argument to the accumulated force
and to the accumulated impulse: two calls leave the previous value plus the first plus
the second argument (for finite values, the sum in exact arithmetic), and neither call
changes the centroid, the shape, the velocity or the other accumulator. -/
theorem body_add_force_impulse_spec (b : Body K) (f1 f2 : Vec K) :
    (body_add_force (body_add_force b f1) f2).forces = vec_add (vec_add b.forces f1) f2 ∧
    (body_add_impulse (body_add_impulse b f1) f2).impulses
      = vec_add (vec_add b.impulses f1) f2 ∧
    ((body_add_force b f1).center = b.center ∧ (body_add_force b f1).shape = b.shape ∧
      (body_add_force b f1).velocity = b.velocity ∧
      (body_add_force b f1).impulses = b.impulses) ∧
    ((body_add_impulse b f1).center = b.center ∧ (body_add_impulse b f1).shape = b.shape ∧
      (body_add_impulse b f1).velocity = b.velocity ∧
      (body_add_impulse b f1).forces = b.forces) ∧
    (∀ Fx Fy ax ay bx b_y : K,
      vec_add (vec_add (Vec.fin Fx Fy) (Vec.fin ax ay)) (Vec.fin bx b_y)
        = Vec.fin (Fx + ax + bx) (Fy + ay + b_y)) :=
  ⟨rfl, rfl, ⟨rfl, rfl, rfl, rfl⟩, ⟨rfl, rfl, rfl, rfl⟩, fun _ _ _ _ _ _ => rfl⟩

end Setters

/-! ## Collision handlers -/

section Handlers

variable {K : Type} [LinearOrderedField K]

/-- C20: remove_collision_handler on two different bodies leaves body1 with its score
plus the score of body2 and with its lives plus the lives of body2 (as a `size_t`),
decremented once when the score of body2 is negative; when the sum of the lives fits a
`size_t` and there is a life to take, that is the sum, less one for a negative score.
It flags body2 as removed and leaves the flag of body1 as it was. -/
theorem remove_collision_handler_spec (h : Heap K) (body1 body2 : Nat) (hne : body1 ≠ body2) :
    ∃ h2, remove_collision_handler body1 body2 h = some h2 ∧
      (h2 body1).score = (h body1).score + (h body2).score ∧
      (h2 body1).remaining_lives
        = (if (h body2).score < Dbl.fin 0 then
            (((h body1).remaining_lives + (h body2).remaining_lives) % SIZE_MOD
              + SIZE_MOD - 1) % SIZE_MOD
          else ((h body1).remaining_lives + (h body2).remaining_lives) % SIZE_MOD) ∧
      ((h body1).remaining_lives + (h body2).remaining_lives < SIZE_MOD →
        ((h body2).score < Dbl.fin 0 →
          0 < (h body1).remaining_lives + (h body2).remaining_lives) →
        (h2 body1).remaining_lives
          = (h body1).remaining_lives + (h body2).remaining_lives
            - (if (h body2).score < Dbl.fin 0 then 1 else 0)) ∧
      (h2 body2).remove = true ∧ (h2 body1).remove = (h body1).remove ∧
      (h2 body2).score = (h body2).score := by
  have hne2 : body2 ≠ body1 := Ne.symm hne
  have hlives : ∀ h2 : Heap K, remove_collision_handler body1 body2 h = some h2 →
      (h2 body1).remaining_lives
        = (if (h body2).score < Dbl.fin 0 then
            (((h body1).remaining_lives + (h body2).remaining_lives) % SIZE_MOD
              + SIZE_MOD - 1) % SIZE_MOD
          else ((h body1).remaining_lives + (h body2).remaining_lives) % SIZE_MOD) := by
    intro h2 hh
    simp only [remove_collision_handler, Option.some.injEq] at hh
    subst hh
    simp only [Heap.modify_other _ _ _ _ hne, Heap.modify_other _ _ _ _ hne2,
      Heap.modify_same, body_get_score, body_get_lives]
    split_ifs <;>
      simp [Heap.modify_same, body_reduce_live, body_add_lives, body_add_score, body_get_lives]
  refine ⟨_, rfl, ?_, hlives _ rfl, ?_, ?_, ?_, ?_⟩
  · simp only [Heap.modify_other _ _ _ _ hne, Heap.modify_other _ _ _ _ hne2,
      Heap.modify_same, body_get_score, body_get_lives]
    split_ifs <;>
      simp [Heap.modify_same, body_reduce_live, body_add_lives, body_add_score, body_get_score]
  · intro hfit hlife
    rw [hlives _ rfl]
    split_ifs with hneg
    · have := hlife hneg
      rw [Nat.mod_eq_of_lt hfit]
      unfold SIZE_MOD at *
      omega
    · rw [Nat.mod_eq_of_lt hfit]
      rfl
  · simp [Heap.modify_same, body_remove]
  · simp only [Heap.modify_other _ _ _ _ hne, Heap.modify_other _ _ _ _ hne2,
      Heap.modify_same, body_get_score, body_get_lives]
    split_ifs <;>
      simp [Heap.modify_same, body_reduce_live, body_add_lives, body_add_score, body_get_score]
  · simp only [Heap.modify_other _ _ _ _ hne, Heap.modify_other _ _ _ _ hne2,
      Heap.modify_same, body_get_score, body_get_lives]
    split_ifs <;>
      simp [Heap.modify_same, Heap.modify_other _ _ _ _ hne2, body_remove]

/-- Witness of C20 on mem_scores: body 0 (score 5, 3 lives) takes body 1 (score -2, 1 life)
and is left with score 3 and 3 lives; body 1 is flagged as removed. -/
theorem remove_collision_handler_spec_witness :
    (0 : Nat) ≠ 1 ∧
    ∃ h2, remove_collision_handler 0 1 mem_scores = some h2 ∧
      (h2 0).score = Dbl.fin 3 ∧ (h2 0).remaining_lives = 3 ∧ (h2 1).remove = true ∧
      (h2 0).remove = false :=
  ⟨by decide, by
    obtain ⟨h2, he, hs, _, hfit, hr2, hr1, _⟩ :=
      remove_collision_handler_spec mem_scores 0 1 (by decide)
    refine ⟨h2, he, ?_, ?_, hr2, ?_⟩
    · rw [hs]
      decide!
    · rw [hfit (by simp [mem_scores, SIZE_MOD]) (by simp [mem_scores])]
      decide!
    · rw [hr1]
      rfl⟩

end Handlers

/-! ## Impulse handlers -/

section Impulses

variable {K : Type} [LinearOrderedField K]

theorem reduced_mass_finite (m1 m2 : K) (hm : m1 + m2 ≠ 0) :
    reduced_mass (Dbl.fin m1) (Dbl.fin m2) = Dbl.fin (m1 * m2 / (m1 + m2)) := by
  simp [reduced_mass, Dbl.INFINITY, Dbl.fne, Dbl.feq, Dbl.fin_div_fin _ hm]

theorem reduced_mass_infinite_left (m2 : K) :
    reduced_mass (Dbl.INFINITY : Dbl K) (Dbl.fin m2) = Dbl.fin m2 := by
  simp [reduced_mass, Dbl.INFINITY, Dbl.fne, Dbl.feq]

theorem reduced_mass_infinite_right (m1 : K) :
    reduced_mass (Dbl.fin m1) (Dbl.INFINITY : Dbl K) = Dbl.fin m1 := by
  simp [reduced_mass, Dbl.INFINITY, Dbl.fne, Dbl.feq]

/-- The impulse that both impulse handlers compute, for finite values. -/
theorem impulse_fin (mr e v1x v1y v2x v2y ax ay : K) :
    vec_multiply (Dbl.fin mr * (Dbl.fin 1 + Dbl.fin e) *
        (vec_dot (Vec.fin v2x v2y) (Vec.fin ax ay) - vec_dot (Vec.fin v1x v1y) (Vec.fin ax ay)))
      (Vec.fin ax ay)
    = Vec.fin (mr * (1 + e) * ((v2x * ax + v2y * ay) - (v1x * ax + v1y * ay)) * ax)
        (mr * (1 + e) * ((v2x * ax + v2y * ay) - (v1x * ax + v1y * ay)) * ay) := by
  simp only [vec_multiply, vec_dot, Vec.fin, Dbl.fin_mul_fin, Dbl.fin_add_fin, Dbl.fin_sub_fin,
    Vec.mk.injEq, Dbl.fin.injEq]
  constructor <;> ring

/-- C15: half_collision_handler on two different bodies with finite velocities, axis and
restitution `e` adds to body1 exactly the impulse `m_r*(1+e)*(u2-u1)*axis`, where `u1`, `u2`
are the velocities projected on the axis and `m_r` is `m1*m2/(m1+m2)` for two finite
masses and the finite mass when exactly one mass is INFINITY; it adds no impulse to
body2, flags body2 as removed and leaves the flag of body1 as it was. -/
theorem half_collision_handler_spec (h : Heap K) (body1 body2 : Nat)
    (ax ay e v1x v1y v2x v2y ix iy mr m1 m2 : K) (hne : body1 ≠ body2)
    (hv1 : (h body1).velocity = Vec.fin v1x v1y) (hv2 : (h body2).velocity = Vec.fin v2x v2y)
    (hi : (h body1).impulses = Vec.fin ix iy)
    (hmass : ((h body1).mass = Dbl.fin m1 ∧ (h body2).mass = Dbl.fin m2 ∧ m1 + m2 ≠ 0 ∧
        mr = m1 * m2 / (m1 + m2)) ∨
      ((h body1).mass = Dbl.INFINITY ∧ (h body2).mass = Dbl.fin mr) ∨
      ((h body1).mass = Dbl.fin mr ∧ (h body2).mass = Dbl.INFINITY)) :
    ∃ h2, half_collision_handler body1 body2 (Vec.fin ax ay) (some (Dbl.fin e)) h = some h2 ∧
      (h2 body1).impulses
        = Vec.fin (ix + mr * (1 + e) * ((v2x * ax + v2y * ay) - (v1x * ax + v1y * ay)) * ax)
            (iy + mr * (1 + e) * ((v2x * ax + v2y * ay) - (v1x * ax + v1y * ay)) * ay) ∧
      (h2 body2).impulses = (h body2).impulses ∧
      (h2 body2).remove = true ∧ (h2 body1).remove = (h body1).remove := by
  have hne2 : body2 ≠ body1 := Ne.symm hne
  have hmr : reduced_mass (h body1).mass (h body2).mass = Dbl.fin mr := by
    rcases hmass with ⟨h1, h2, hm, rfl⟩ | ⟨h1, h2⟩ | ⟨h1, h2⟩
    · rw [h1, h2, reduced_mass_finite _ _ hm]
    · rw [h1, h2, reduced_mass_infinite_left]
    · rw [h1, h2, reduced_mass_infinite_right]
  simp only [half_collision_handler, Option.bind_eq_bind, Option.some_bind, body_get_mass,
    body_get_velocity, hmr, hv1, hv2, impulse_fin, body_get_score,
    Heap.modify_other _ _ _ _ hne, Heap.modify_other _ _ _ _ hne2, Heap.modify_same]
  refine ⟨_, rfl, ?_, ?_, ?_, ?_⟩
  · split_ifs <;>
      simp [Heap.modify_same, Heap.modify_other _ _ _ _ hne, body_reduce_live, body_add_score,
        body_add_impulse, hi, vec_add, Vec.fin]
  · split_ifs <;>
      simp [Heap.modify_same, Heap.modify_other _ _ _ _ hne2, body_remove]
  · simp [Heap.modify_same, body_remove]
  · split_ifs <;>
      simp [Heap.modify_same, Heap.modify_other _ _ _ _ hne, body_reduce_live, body_add_score,
        body_add_impulse]

/-- Witness of C15 on mem_balls (two finite masses 1, so `m_r = 1/2`) with the unit axis
`(3/5, 4/5)` and `e = 1`: body 0 receives the impulse `(-18/25, -24/25)`. -/
theorem half_collision_handler_spec_witness :
    (0 : Nat) ≠ 1 ∧ (mem_balls 0).velocity = Vec.fin 1 0 ∧
    (mem_balls 1).velocity = Vec.fin (-1) 0 ∧ (mem_balls 0).impulses = Vec.fin 0 0 ∧
    (mem_balls 0).mass = Dbl.fin 1 ∧ (mem_balls 1).mass = Dbl.fin 1 ∧
    ∃ h2, half_collision_handler 0 1 (Vec.fin (3 / 5) (4 / 5)) (some (Dbl.fin 1)) mem_balls
        = some h2 ∧
      (h2 0).impulses = Vec.fin (-18 / 25) (-24 / 25) ∧
      (h2 1).impulses = Vec.fin 0 0 ∧ (h2 1).remove = true ∧ (h2 0).remove = false :=
  ⟨by decide, rfl, rfl, rfl, rfl, rfl, by
    obtain ⟨h2, he, hi, hi2, hr2, hr1⟩ :=
      half_collision_handler_spec mem_balls 0 1 (3 / 5) (4 / 5) 1 1 0 (-1) 0 0 0 (1 / 2) 1 1
        (by decide) rfl rfl rfl (Or.inl ⟨rfl, rfl, by norm_num, by norm_num⟩)
    refine ⟨h2, he, ?_, ?_, hr2, ?_⟩
    · rw [hi]
      norm_num [Vec.fin]
    · rw [hi2]
      rfl
    · rw [hr1]
      rfl⟩


/-- C14 (as amended): physics_handler on two different bodies, neither tagged BLOCK_INFO,
with finite masses, velocities, axis `a` and restitution `e`, computes
`J = m_r*(1+e)*(u2-u1)*a` with `m_r = m1*m2/(m1+m2)`, and adds to body1 the impulse
`(0, J.y)` and to body2 the impulse `(0, -J.y)`: the `x` component of `J` is dropped.
Neither body is flagged as removed by it. -/
theorem physics_handler_spec (h : Heap K) (body1 body2 t1 t2 : Nat)
    (ax ay e v1x v1y v2x v2y i1x i1y i2x i2y m1 m2 : K) (hne : body1 ≠ body2)
    (ht1 : (h body1).info = some t1) (ht2 : (h body2).info = some t2)
    (hb1 : t1 ≠ BLOCK_INFO) (hb2 : t2 ≠ BLOCK_INFO)
    (hv1 : (h body1).velocity = Vec.fin v1x v1y) (hv2 : (h body2).velocity = Vec.fin v2x v2y)
    (hi1 : (h body1).impulses = Vec.fin i1x i1y) (hi2 : (h body2).impulses = Vec.fin i2x i2y)
    (hm1 : (h body1).mass = Dbl.fin m1) (hm2 : (h body2).mass = Dbl.fin m2)
    (hm : m1 + m2 ≠ 0) :
    ∃ h2, physics_handler body1 body2 (Vec.fin ax ay) (some (Dbl.fin e)) h = some h2 ∧
      (h2 body1).impulses = Vec.fin i1x (i1y +
        m1 * m2 / (m1 + m2) * (1 + e) * ((v2x * ax + v2y * ay) - (v1x * ax + v1y * ay)) * ay) ∧
      (h2 body2).impulses = Vec.fin i2x (i2y -
        m1 * m2 / (m1 + m2) * (1 + e) * ((v2x * ax + v2y * ay) - (v1x * ax + v1y * ay)) * ay) ∧
      (h2 body1).remove = (h body1).remove ∧ (h2 body2).remove = (h body2).remove := by
  have hne2 : body2 ≠ body1 := Ne.symm hne
  simp only [physics_handler, Option.bind_eq_bind, Option.some_bind, body_get_mass,
    body_get_velocity, hm1, hm2, reduced_mass_finite _ _ hm, hv1, hv2, impulse_fin, ht1, ht2,
    hb1, hb2, ne_eq, not_false_eq_true, if_true]
  refine ⟨_, rfl, ?_, ?_, ?_, ?_⟩
  · simp [Heap.modify_same, Heap.modify_other _ _ _ _ hne, body_add_impulse, hi1, vec_add,
      Vec.fin]
  · simp only [Heap.modify_same, Heap.modify_other _ _ _ _ hne2, body_add_impulse, hi2,
      vec_add, vec_negate, vec_multiply, Vec.fin, Dbl.fin_mul_fin, Dbl.fin_add_fin,
      Vec.mk.injEq, Dbl.fin.injEq]
    constructor <;> ring
  · simp [Heap.modify_same, Heap.modify_other _ _ _ _ hne, body_add_impulse]
  · simp [Heap.modify_same, Heap.modify_other _ _ _ _ hne2, body_add_impulse]

/-- Witness of C14 (as amended) on mem_balls with the axis `(3/5, 4/5)` and `e = 1`. -/
theorem physics_handler_spec_witness :
    (0 : Nat) ≠ 1 ∧ (mem_balls 0).info = some 6 ∧ (mem_balls 1).info = some 6 ∧
    6 ≠ BLOCK_INFO ∧ (mem_balls 0).velocity = Vec.fin 1 0 ∧
    (mem_balls 1).velocity = Vec.fin (-1) 0 ∧ (mem_balls 0).impulses = Vec.fin 0 0 ∧
    (mem_balls 1).impulses = Vec.fin 0 0 ∧ (mem_balls 0).mass = Dbl.fin 1 ∧
    (mem_balls 1).mass = Dbl.fin 1 ∧ (1 : ℚ) + 1 ≠ 0 ∧
    (∃ h2, physics_handler 0 1 (Vec.fin (3 / 5) (4 / 5)) (some (Dbl.fin 1)) mem_balls = some h2 ∧
      (h2 0).impulses = Vec.fin 0 (0 + 1 * 1 / (1 + 1) * (1 + 1) *
        (((-1) * (3 / 5) + 0 * (4 / 5)) - (1 * (3 / 5) + 0 * (4 / 5))) * (4 / 5)) ∧
      (h2 1).impulses = Vec.fin 0 (0 - 1 * 1 / (1 + 1) * (1 + 1) *
        (((-1) * (3 / 5) + 0 * (4 / 5)) - (1 * (3 / 5) + 0 * (4 / 5))) * (4 / 5)) ∧
      (h2 0).remove = (mem_balls 0).remove ∧ (h2 1).remove = (mem_balls 1).remove) :=
  ⟨by decide, rfl, rfl, by decide, rfl, rfl, rfl, rfl, rfl, rfl, by norm_num,
    physics_handler_spec mem_balls 0 1 6 6 (3 / 5) (4 / 5) 1 1 0 (-1) 0 0 0 0 0 1 1 (by decide)
      rfl rfl (by decide) (by decide) rfl rfl rfl rfl rfl rfl (by norm_num)⟩

/-- C14 (counterexample): on mem_balls with the unit axis `(3/5, 4/5)` and `e = 1`, the
impulse of the claim is `J = (-18/25, -24/25)`, along the axis; physics_handler adds
`(0, -24/25)` to body 0 and `(0, 24/25)` to body 1, which is not `J` and `-J` and is not
along the axis. -/
theorem physics_handler_drops_x :
    vec_multiply (reduced_mass (mem_balls 0).mass (mem_balls 1).mass *
        (Dbl.fin 1 + Dbl.fin 1) *
        (vec_dot (mem_balls 1).velocity (Vec.fin (3 / 5) (4 / 5))
          - vec_dot (mem_balls 0).velocity (Vec.fin (3 / 5) (4 / 5))))
      (Vec.fin (3 / 5) (4 / 5)) = Vec.fin (-18 / 25) (-24 / 25) ∧
    (physics_handler 0 1 (Vec.fin (3 / 5) (4 / 5)) (some (Dbl.fin 1)) mem_balls).map
        (fun h => ((h 0).impulses, (h 1).impulses))
      = some (Vec.fin 0 (-24 / 25), Vec.fin 0 (24 / 25)) := by
  decide!

end Impulses

/-! ## The score of the scene -/

section Score

variable {K : Type} [LinearOrderedField K]

theorem foldl_add_score (mem : Heap K) (scores : Nat → K) (l : List Nat) (s0 : K)
    (h : ∀ b ∈ l, (mem b).score = Dbl.fin (scores b)) :
    l.foldl (fun sc body => sc + body_get_score (mem body)) (Dbl.fin s0)
      = Dbl.fin (s0 + (l.map scores).sum) := by
  induction l generalizing s0 with
  | nil => simp
  | cons b rest ih =>
    have hb : (mem b).score = Dbl.fin (scores b) := h b (List.mem_cons_self _ _)
    simp only [List.foldl_cons, body_get_score, hb, Dbl.fin_add_fin, List.map_cons,
      List.sum_cons]
    have := ih (s0 + scores b) (fun x hx => h x (List.mem_cons_of_mem _ hx))
    simp only [body_get_score] at this
    rw [this, add_assoc]

/-- C19: when the force creators of a scene_tick run to their end, the scene that
scene_tick returns has lost exactly the bodies flagged as removed in its memory (the
memory at the time of the sweep), and its score is the previous score to which the score
of each of those bodies has been added, in list order; for finite scores that is the
previous score plus their sum.  The bodies that stay add nothing: when no body is
removed, the score is unchanged. -/
theorem scene_tick_score (M : Libm K) (scene : Scene K) (dt : Dbl K)
    (fcs : List (ForceCreator K)) (mem1 : Heap K)
    (hrun : apply_forces M scene.force_creators scene.mem = some (fcs, mem1))
    (hnb : scene.bodies.length < SIZE_MOD) (hnf : scene.force_creators.length < SIZE_MOD) :
    ∃ scene2, scene_tick M scene dt = some scene2 ∧
      scene2.bodies = scene.bodies.filter (fun body => !body_is_removed (scene2.mem body)) ∧
      scene2.score
        = (scene.bodies.filter fun body => body_is_removed (scene2.mem body)).foldl
            (fun sc body => sc + body_get_score (scene2.mem body)) scene.score ∧
      (∀ (s0 : K) (scores : Nat → K), scene.score = Dbl.fin s0 →
        (∀ body ∈ scene.bodies, body_is_removed (scene2.mem body) = true →
          (scene2.mem body).score = Dbl.fin (scores body)) →
        scene2.score = Dbl.fin (s0 +
          ((scene.bodies.filter fun body => body_is_removed (scene2.mem body)).map
            scores).sum)) ∧
      ((∀ body ∈ scene.bodies, body_is_removed (scene2.mem body) = false) →
        scene2.score = scene.score) := by
  obtain ⟨scene2, htick, _, hb, _, hs⟩ := scene_tick_eq M scene dt fcs mem1 hrun hnb hnf
  refine ⟨scene2, htick, hb, hs, fun s0 scores h0 hsc => ?_, fun hnone => ?_⟩
  · rw [hs, swept_score, h0]
    apply foldl_add_score
    intro b hb2
    rw [List.mem_filter] at hb2
    exact hsc b hb2.1 hb2.2
  · rw [hs, swept_score, List.filter_eq_nil_iff.mpr (fun b hb2 => by simp [hnone b hb2])]
    rfl

/-- Witness of C19 on scene_s: the removed bodies 1 and 2 add their scores 4 and -1 to the
scene score 10, and the bodies 0 and 3, which stay, add nothing. -/
theorem scene_tick_score_witness :
    apply_forces libmQ scene_s.force_creators scene_s.mem = some (forces_s.1, forces_s.2) ∧
    scene_s.bodies.length < SIZE_MOD ∧ scene_s.force_creators.length < SIZE_MOD ∧
    ∃ scene2, scene_tick libmQ scene_s (Dbl.fin 1) = some scene2 ∧
      scene2.bodies = [0, 3] ∧ scene2.score = Dbl.fin 13 :=
  ⟨rfl, by decide!, by decide!, by
    obtain ⟨scene2, htick, hb, hs, _, _⟩ :=
      scene_tick_score libmQ scene_s (Dbl.fin 1) forces_s.1 forces_s.2 rfl (by decide!)
        (by decide!)
    have h2 : (scene_tick libmQ scene_s (Dbl.fin 1)).map (fun s => (s.bodies, s.score))
        = some ([0, 3], Dbl.fin 13) := by decide!
    rw [htick] at h2
    simp only [Option.map_some', Option.some.injEq, Prod.mk.injEq] at h2
    exact ⟨scene2, htick, h2.1, h2.2⟩⟩

end Score

/-! ## One scene_tick with a single force creator -/

section OneTick

variable {K : Type} [LinearOrderedField K]

/-- The finite case of body_tick, on a body that is not flagged as removed. -/
theorem body_tick_fin (b : Body K) (Fx Fy Jx Jy m v0x v0y cx cy dt : K) (hm : m ≠ 0)
    (hF : b.forces = Vec.fin Fx Fy) (hJ : b.impulses = Vec.fin Jx Jy)
    (hmass : b.mass = Dbl.fin m) (hv : b.velocity = Vec.fin v0x v0y)
    (hc : b.center = Vec.fin cx cy) (hrem : b.remove = false) :
    (body_tick b (Dbl.fin dt)).velocity
        = Vec.fin (v0x + Jx / m + Fx / m * dt) (v0y + Jy / m + Fy / m * dt) ∧
    (body_tick b (Dbl.fin dt)).center
        = Vec.fin (cx + dt / 2 * (v0x + (v0x + Jx / m + Fx / m * dt)))
            (cy + dt / 2 * (v0y + (v0y + Jy / m + Fy / m * dt))) := by
  have h2 : (2 : K) ≠ 0 := two_ne_zero
  simp only [body_tick, body_is_removed, hrem, body_get_mass, hmass, hF, hJ, hv, hc,
    body_set_centroid, body_get_centroid, vec_multiply, vec_add, Vec.fin,
    Dbl.fin_div_fin _ hm, Dbl.fin_div_fin _ h2, Dbl.fin_mul_fin, Dbl.fin_add_fin]
  simp only [Bool.not_false, if_true, Vec.mk.injEq, Dbl.fin.injEq]
  refine ⟨⟨?_, ?_⟩, ⟨?_, ?_⟩⟩ <;> field_simp <;> ring

/-- The third loop of scene_tick leaves alone the bodies that are not in the scene. -/
theorem tick_bodies_not_mem (bodies : List Nat) (dt : Dbl K) (h : Heap K) (x : Nat)
    (hx : x ∉ bodies) : tick_bodies bodies dt h x = h x := by
  induction bodies generalizing h with
  | nil => rfl
  | cons b rest ih =>
    have hxb : x ≠ b := fun e => hx (e ▸ List.mem_cons_self _ _)
    have hxr : x ∉ rest := fun e => hx (List.mem_cons_of_mem _ e)
    show tick_bodies rest dt (h.modify b fun y => body_tick y dt) x = h x
    rw [ih _ hxr, Heap.modify_other _ _ _ _ hxb]

/-- The third loop of scene_tick runs body_tick once on a body that the scene holds once. -/
theorem tick_bodies_mem (bodies : List Nat) (dt : Dbl K) (h : Heap K) (x : Nat)
    (hx : x ∈ bodies) (hnd : bodies.Nodup) :
    tick_bodies bodies dt h x = body_tick (h x) dt := by
  induction bodies generalizing h with
  | nil => simp at hx
  | cons b rest ih =>
    rw [List.nodup_cons] at hnd
    show tick_bodies rest dt (h.modify b fun y => body_tick y dt) x = body_tick (h x) dt
    rcases List.mem_cons.mp hx with e | hxr
    · subst e
      rw [tick_bodies_not_mem _ _ _ _ hnd.1, Heap.modify_same]
    · have hxb : x ≠ b := fun e => hnd.1 (e ▸ hxr)
      rw [ih _ hxr hnd.2, Heap.modify_other _ _ _ _ hxb]

/-- C18: in the scene that scene_init, scene_add_body and create_drag build with one body
of finite non-zero mass `m`, velocity `v`, centroid `c` and no accumulated force or
impulse, and one drag creator with constant `gamma` on it, scene_tick with a finite `dt`
returns a scene in which the body has velocity `v1 = v + dt*(-gamma/m)*v` and centroid
`c + (dt/2)*(v + v1)`. -/
theorem drag_scene_tick (M : Libm K) (mem : Heap K) (slow_speed have_double_points : Bool)
    (total_points : Dbl K) (body : Nat) (gamma m vx vy cx cy dt : K) (hm : m ≠ 0)
    (hmass : (mem body).mass = Dbl.fin m) (hv : (mem body).velocity = Vec.fin vx vy)
    (hc : (mem body).center = Vec.fin cx cy) (hF : (mem body).forces = VEC_ZERO)
    (hJ : (mem body).impulses = VEC_ZERO) (hrem : (mem body).remove = false) :
    ∃ scene2,
      scene_tick M
        (create_drag
          (scene_add_body (scene_init mem slow_speed have_double_points total_points) body)
          (Dbl.fin gamma) body)
        (Dbl.fin dt) = some scene2 ∧
      (scene2.mem body).velocity
        = Vec.fin (vx + dt * (-gamma / m) * vx) (vy + dt * (-gamma / m) * vy) ∧
      (scene2.mem body).center
        = Vec.fin (cx + dt / 2 * (vx + (vx + dt * (-gamma / m) * vx)))
            (cy + dt / 2 * (vy + (vy + dt * (-gamma / m) * vy))) := by
  have hrun : apply_forces M
      (create_drag
        (scene_add_body (scene_init mem slow_speed have_double_points total_points) body)
        (Dbl.fin gamma) body).force_creators
      (create_drag
        (scene_add_body (scene_init mem slow_speed have_double_points total_points) body)
        (Dbl.fin gamma) body).mem
      = some ([⟨.drag_creator, aux_init [body] (Dbl.fin gamma), [body]⟩],
          mem.modify body fun b =>
            body_add_force b (vec_multiply (-Dbl.fin gamma) (body_get_velocity (mem body)))) := by
    simp [create_drag, scene_add_body, scene_init, scene_add_bodies_force_creator,
      apply_forces, call_forcer, drag_creator, aux_get_body, aux_init, list_get,
      aux_get_constant]
  obtain ⟨scene2, htick, hmem, _⟩ := scene_tick_eq M _ (Dbl.fin dt) _ _ hrun
    (by simp [create_drag, scene_add_body, scene_init, scene_add_bodies_force_creator,
      SIZE_MOD])
    (by simp [create_drag, scene_add_body, scene_init, scene_add_bodies_force_creator,
      SIZE_MOD])
  have hb : (create_drag
      (scene_add_body (scene_init mem slow_speed have_double_points total_points) body)
      (Dbl.fin gamma) body).bodies = [body] := rfl
  rw [hb] at hmem
  have hval : scene2.mem body
      = body_tick (body_add_force (mem body)
          (vec_multiply (-Dbl.fin gamma) (body_get_velocity (mem body)))) (Dbl.fin dt) := by
    rw [hmem, tick_bodies_mem _ _ _ _ (List.mem_singleton_self _) (List.nodup_singleton _),
      Heap.modify_same]
  obtain ⟨h1, h2⟩ := body_tick_fin
    (body_add_force (mem body) (vec_multiply (-Dbl.fin gamma) (body_get_velocity (mem body))))
    (-gamma * vx) (-gamma * vy) 0 0 m vx vy cx cy dt hm
    (by
      simp only [body_add_force, hF, VEC_ZERO, body_get_velocity, hv, vec_multiply, vec_add,
        Vec.fin, Dbl.neg_fin, Dbl.fin_mul_fin, Dbl.fin_add_fin, Vec.mk.injEq, Dbl.fin.injEq]
      constructor <;> ring)
    (by simp [body_add_force, hJ, VEC_ZERO, Vec.fin]) hmass hv hc hrem
  refine ⟨scene2, htick, ?_, ?_⟩
  · rw [hval, h1]
    simp only [Vec.fin, Vec.mk.injEq, Dbl.fin.injEq]
    constructor <;> ring
  · rw [hval, h2]
    simp only [Vec.fin, Vec.mk.injEq, Dbl.fin.injEq]
    constructor <;> ring

/-- Witness of C18 on a body of mass 2 with velocity `(3, -1)` at `(0, 0)`, with
`gamma = 1` and `dt = 1`: the velocity becomes `(3/2, -1/2)` and the centroid
`(9/4, -3/4)`. -/
theorem drag_scene_tick_witness :
    (2 : ℚ) ≠ 0 ∧ (mem_rest 0).mass = Dbl.fin 2 ∧ (mem_rest 0).velocity = Vec.fin 3 (-1) ∧
    (mem_rest 0).center = Vec.fin 0 0 ∧ (mem_rest 0).forces = VEC_ZERO ∧
    (mem_rest 0).impulses = VEC_ZERO ∧ (mem_rest 0).remove = false ∧
    ∃ scene2,
      scene_tick libmQ
        (create_drag (scene_add_body (scene_init mem_rest false false (Dbl.fin 0)) 0)
          (Dbl.fin 1) 0)
        (Dbl.fin 1) = some scene2 ∧
      (scene2.mem 0).velocity = Vec.fin (3 / 2) (-1 / 2) ∧
      (scene2.mem 0).center = Vec.fin (9 / 4) (-3 / 4) :=
  ⟨by norm_num, rfl, rfl, rfl, rfl, rfl, rfl, by
    obtain ⟨scene2, htick, hv, hc⟩ :=
      drag_scene_tick libmQ mem_rest false false (Dbl.fin 0) 0 1 2 3 (-1) 0 0 1 (by norm_num)
        rfl rfl rfl rfl rfl rfl
    refine ⟨scene2, htick, ?_, ?_⟩
    · rw [hv]
      norm_num [Vec.fin]
    · rw [hc]
      norm_num [Vec.fin]⟩

/-- For a body of mass INFINITY at rest with finite force and impulse, body_tick with a
finite time step leaves the centroid and the velocity as they were. -/
theorem body_tick_anchor (b : Body K) (fx fy jx jy cx cy dt : K)
    (hm : b.mass = Dbl.INFINITY) (hF : b.forces = Vec.fin fx fy)
    (hJ : b.impulses = Vec.fin jx jy) (hv : b.velocity = VEC_ZERO)
    (hc : b.center = Vec.fin cx cy) :
    (body_tick b (Dbl.fin dt)).center = Vec.fin cx cy ∧
    (body_tick b (Dbl.fin dt)).velocity = VEC_ZERO := by
  have h2 : (2 : K) ≠ 0 := two_ne_zero
  cases hrem : b.remove
  · simp only [body_tick, body_is_removed, hrem, body_get_mass, hm, hF, hJ, hv, hc,
      Dbl.INFINITY, body_set_centroid, body_get_centroid, vec_multiply, vec_add, Vec.fin,
      Dbl.fin_div_pinf, Dbl.fin_div_fin _ h2, Dbl.fin_mul_fin, Dbl.fin_add_fin, mul_zero,
      zero_mul, add_zero, Bool.not_false, if_true, VEC_ZERO, and_self]
  · simp only [body_tick, body_is_removed, hrem, Bool.not_true]
    exact ⟨hc, hv⟩

/-- C17: in the scene that scene_init, scene_add_body and create_spring build with a body
of finite non-zero mass `m` at centroid `x` with velocity `v` and an anchor of mass
INFINITY at rest at centroid `a`, neither with an accumulated force or impulse, joined by
create_spring with constant `k`, scene_tick with a finite `dt` returns a scene in which
the body has velocity `v1 = v - (k/m)*(x - a)*dt` and centroid `x + (dt/2)*(v + v1)`, and
the anchor has the centroid and the velocity that it had. -/
theorem spring_scene_tick (M : Libm K) (mem : Heap K) (slow_speed have_double_points : Bool)
    (total_points : Dbl K) (body anchor : Nat) (k m vx vy x1 x2 a1 a2 dt : K)
    (hne : body ≠ anchor) (hm : m ≠ 0)
    (hmass : (mem body).mass = Dbl.fin m) (hv : (mem body).velocity = Vec.fin vx vy)
    (hc : (mem body).center = Vec.fin x1 x2) (hF : (mem body).forces = VEC_ZERO)
    (hJ : (mem body).impulses = VEC_ZERO) (hrem : (mem body).remove = false)
    (hamass : (mem anchor).mass = Dbl.INFINITY) (hav : (mem anchor).velocity = VEC_ZERO)
    (hac : (mem anchor).center = Vec.fin a1 a2) (haF : (mem anchor).forces = VEC_ZERO)
    (haJ : (mem anchor).impulses = VEC_ZERO) :
    ∃ scene2,
      scene_tick M
        (create_spring
          (scene_add_body
            (scene_add_body (scene_init mem slow_speed have_double_points total_points) body)
            anchor)
          (Dbl.fin k) body anchor)
        (Dbl.fin dt) = some scene2 ∧
      (scene2.mem body).velocity
        = Vec.fin (vx - k / m * (x1 - a1) * dt) (vy - k / m * (x2 - a2) * dt) ∧
      (scene2.mem body).center
        = Vec.fin (x1 + dt / 2 * (vx + (vx - k / m * (x1 - a1) * dt)))
            (x2 + dt / 2 * (vy + (vy - k / m * (x2 - a2) * dt))) ∧
      (scene2.mem anchor).center = (mem anchor).center ∧
      (scene2.mem anchor).velocity = (mem anchor).velocity := by
  have hne2 : anchor ≠ body := Ne.symm hne
  have hforce : vec_multiply (-Dbl.fin k)
      (vec_subtract (body_get_centroid (mem body)) (body_get_centroid (mem anchor)))
      = Vec.fin (-k * (x1 - a1)) (-k * (x2 - a2)) := by
    simp only [body_get_centroid, hc, hac, vec_multiply, vec_subtract, vec_negate, vec_add,
      Vec.fin, Dbl.neg_fin, Dbl.fin_mul_fin, Dbl.fin_add_fin, Vec.mk.injEq, Dbl.fin.injEq]
    constructor <;> ring
  have hrun : apply_forces M
      (create_spring
        (scene_add_body
          (scene_add_body (scene_init mem slow_speed have_double_points total_points) body)
          anchor)
        (Dbl.fin k) body anchor).force_creators
      (create_spring
        (scene_add_body
          (scene_add_body (scene_init mem slow_speed have_double_points total_points) body)
          anchor)
        (Dbl.fin k) body anchor).mem
      = some ([⟨.spring_creator, aux_init [body, anchor] (Dbl.fin k), [body, anchor]⟩],
          (mem.modify body fun b =>
            body_add_force b (vec_multiply (-Dbl.fin k)
              (vec_subtract (body_get_centroid (mem body))
                (body_get_centroid (mem anchor))))).modify anchor
            fun b => body_add_force b
              (vec_negate (vec_multiply (-Dbl.fin k)
                (vec_subtract (body_get_centroid (mem body))
                  (body_get_centroid (mem anchor)))))) := by
    simp [create_spring, scene_add_body, scene_init, scene_add_bodies_force_creator,
      apply_forces, call_forcer, spring_creator, aux_get_body, aux_init, list_get,
      aux_get_constant]
  rw [hforce] at hrun
  obtain ⟨scene2, htick, hmem, _⟩ := scene_tick_eq M _ (Dbl.fin dt) _ _ hrun
    (by simp [create_spring, scene_add_body, scene_init, scene_add_bodies_force_creator,
      SIZE_MOD])
    (by simp [create_spring, scene_add_body, scene_init, scene_add_bodies_force_creator,
      SIZE_MOD])
  have hb : (create_spring
      (scene_add_body
        (scene_add_body (scene_init mem slow_speed have_double_points total_points) body)
        anchor)
      (Dbl.fin k) body anchor).bodies = [body, anchor] := rfl
  rw [hb] at hmem
  have hnd : [body, anchor].Nodup := by simp [hne]
  have hval : scene2.mem body
      = body_tick (body_add_force (mem body) (Vec.fin (-k * (x1 - a1)) (-k * (x2 - a2))))
          (Dbl.fin dt) := by
    rw [hmem, tick_bodies_mem _ _ _ _ (by simp) hnd, Heap.modify_other _ _ _ _ hne,
      Heap.modify_same]
  have hvala : scene2.mem anchor
      = body_tick (body_add_force (mem anchor)
          (vec_negate (Vec.fin (-k * (x1 - a1)) (-k * (x2 - a2))))) (Dbl.fin dt) := by
    rw [hmem, tick_bodies_mem _ _ _ _ (by simp) hnd, Heap.modify_same,
      Heap.modify_other _ _ _ _ hne2]
  obtain ⟨h1, h2⟩ := body_tick_fin
    (body_add_force (mem body) (Vec.fin (-k * (x1 - a1)) (-k * (x2 - a2))))
    (-k * (x1 - a1)) (-k * (x2 - a2)) 0 0 m vx vy x1 x2 dt hm
    (by simp [body_add_force, hF, VEC_ZERO, vec_add, Vec.fin])
    (by simp [body_add_force, hJ, VEC_ZERO, Vec.fin]) hmass hv hc hrem
  obtain ⟨h3, h4⟩ := body_tick_anchor
    (body_add_force (mem anchor) (vec_negate (Vec.fin (-k * (x1 - a1)) (-k * (x2 - a2)))))
    (-k * (x1 - a1) * -1) (-k * (x2 - a2) * -1) 0 0 a1 a2 dt hamass
    (by simp [body_add_force, haF, VEC_ZERO, vec_add, vec_negate, vec_multiply, Vec.fin])
    (by simp [body_add_force, haJ, VEC_ZERO, Vec.fin]) hav hac
  refine ⟨scene2, htick, ?_, ?_, ?_, ?_⟩
  · rw [hval, h1]
    simp only [Vec.fin, Vec.mk.injEq, Dbl.fin.injEq]
    constructor <;> ring
  · rw [hval, h2]
    simp only [Vec.fin, Vec.mk.injEq, Dbl.fin.injEq]
    constructor <;> ring
  · rw [hvala, h3, hac]
  · rw [hvala, h4, hav]

/-- Witness of C17 on mem_spring with `k = 2` and `dt = 1`: the body (mass 2, at `(4, 6)`
with velocity `(3, -1)`) gets the velocity `(0, -5)` and the centroid `(11/2, 3)`; the
anchor stays at `(1, 2)` at rest. -/
theorem spring_scene_tick_witness :
    (0 : Nat) ≠ 1 ∧ (2 : ℚ) ≠ 0 ∧ (mem_spring 0).mass = Dbl.fin 2 ∧
    (mem_spring 0).velocity = Vec.fin 3 (-1) ∧ (mem_spring 0).center = Vec.fin 4 6 ∧
    (mem_spring 0).forces = VEC_ZERO ∧ (mem_spring 0).impulses = VEC_ZERO ∧
    (mem_spring 0).remove = false ∧ (mem_spring 1).mass = Dbl.INFINITY ∧
    (mem_spring 1).velocity = VEC_ZERO ∧ (mem_spring 1).center = Vec.fin 1 2 ∧
    (mem_spring 1).forces = VEC_ZERO ∧ (mem_spring 1).impulses = VEC_ZERO ∧
    ∃ scene2,
      scene_tick libmQ
        (create_spring
          (scene_add_body (scene_add_body (scene_init mem_spring false false (Dbl.fin 0)) 0) 1)
          (Dbl.fin 2) 0 1)
        (Dbl.fin 1) = some scene2 ∧
      (scene2.mem 0).velocity = Vec.fin 0 (-5) ∧
      (scene2.mem 0).center = Vec.fin (11 / 2) 3 ∧
      (scene2.mem 1).center = Vec.fin 1 2 ∧ (scene2.mem 1).velocity = Vec.fin 0 0 :=
  ⟨by decide, by norm_num, rfl, rfl, rfl, rfl, rfl, rfl, rfl, rfl, rfl, rfl, rfl, by
    obtain ⟨scene2, htick, hv, hc, hac, hav⟩ :=
      spring_scene_tick libmQ mem_spring false false (Dbl.fin 0) 0 1 2 2 3 (-1) 4 6 1 2 1
        (by decide) (by norm_num) rfl rfl rfl rfl rfl rfl rfl rfl rfl rfl rfl
    refine ⟨scene2, htick, ?_, ?_, ?_, ?_⟩
    · rw [hv]
      norm_num [Vec.fin]
    · rw [hc]
      norm_num [Vec.fin]
    · rw [hac]
      rfl
    · rw [hav]
      rfl⟩

end OneTick

/-! ## Newtonian gravity -/

section Gravity

variable {K : Type} [LinearOrderedField K]

/-- The clamp of gravity_creator is the maximum of the squared distance and 100. -/
theorem clamp_eq_max (d2 : K) :
    (if Dbl.fin d2 < (MIN_DISTANCE : Dbl K) * MIN_DISTANCE then
        (MIN_DISTANCE : Dbl K) * MIN_DISTANCE
      else Dbl.fin d2) = Dbl.fin (max d2 100) := by
  have h100 : (10 : K) * 10 = 100 := by norm_num
  simp only [MIN_DISTANCE, Dbl.fin_mul_fin, Dbl.fin_lt_fin, h100]
  split_ifs with hlt
  · rw [max_eq_right hlt.le]
  · rw [max_eq_left (not_lt.mp hlt)]

/-- C16: gravity_creator on two different bodies with finite masses `m1`, `m2`, finite
centroids `p1`, `p2` at distance `s > 0` (the square root that the library returns for
the squared distance `d2`, taken to be exact), and constant `G`, adds to body1 the force
`G*m1*m2/max(d2, 100)` times the unit vector `(p2 - p1)/s` from body1 toward body2, and to
body2 the opposite force.  For `d2 < 100` the factor is `G*m1*m2/100`, and for
`100 <= d2` it is `G*m1*m2/d2`. -/
theorem gravity_creator_spec (M : Libm K) (h : Heap K) (body1 body2 : Nat)
    (G m1 m2 x1 y1 x2 y2 s f1x f1y f2x f2y : K) (hne : body1 ≠ body2)
    (hm1 : (h body1).mass = Dbl.fin m1) (hm2 : (h body2).mass = Dbl.fin m2)
    (hc1 : (h body1).center = Vec.fin x1 y1) (hc2 : (h body2).center = Vec.fin x2 y2)
    (hF1 : (h body1).forces = Vec.fin f1x f1y) (hF2 : (h body2).forces = Vec.fin f2x f2y)
    (hs : 0 < s) (hss : s * s = (x1 - x2) * (x1 - x2) + (y1 - y2) * (y1 - y2))
    (hsqrt : M.sqrt ((x1 - x2) * (x1 - x2) + (y1 - y2) * (y1 - y2)) = s) :
    ∃ h2, gravity_creator M (aux_init [body1, body2] (Dbl.fin G)) h = some h2 ∧
      (h2 body1).forces
        = Vec.fin
            (f1x + G * m1 * m2 / max ((x1 - x2) * (x1 - x2) + (y1 - y2) * (y1 - y2)) 100
              * ((x2 - x1) / s))
            (f1y + G * m1 * m2 / max ((x1 - x2) * (x1 - x2) + (y1 - y2) * (y1 - y2)) 100
              * ((y2 - y1) / s)) ∧
      (h2 body2).forces
        = Vec.fin
            (f2x - G * m1 * m2 / max ((x1 - x2) * (x1 - x2) + (y1 - y2) * (y1 - y2)) 100
              * ((x2 - x1) / s))
            (f2y - G * m1 * m2 / max ((x1 - x2) * (x1 - x2) + (y1 - y2) * (y1 - y2)) 100
              * ((y2 - y1) / s)) ∧
      ((x1 - x2) * (x1 - x2) + (y1 - y2) * (y1 - y2) < 100 →
        G * m1 * m2 / max ((x1 - x2) * (x1 - x2) + (y1 - y2) * (y1 - y2)) 100
          = G * m1 * m2 / 100) ∧
      (100 ≤ (x1 - x2) * (x1 - x2) + (y1 - y2) * (y1 - y2) →
        G * m1 * m2 / max ((x1 - x2) * (x1 - x2) + (y1 - y2) * (y1 - y2)) 100
          = G * m1 * m2 / ((x1 - x2) * (x1 - x2) + (y1 - y2) * (y1 - y2))) := by
  have hne2 : body2 ≠ body1 := Ne.symm hne
  have hs0 : s ≠ 0 := ne_of_gt hs
  have hd2 : 0 ≤ (x1 - x2) * (x1 - x2) + (y1 - y2) * (y1 - y2) := by
    rw [← hss]
    exact mul_self_nonneg s
  have hD : max ((x1 - x2) * (x1 - x2) + (y1 - y2) * (y1 - y2)) 100 ≠ 0 :=
    ne_of_gt (lt_of_lt_of_le (by norm_num) (le_max_right _ _))
  have hdisp : vec_subtract (body_get_centroid (h body1)) (body_get_centroid (h body2))
      = Vec.fin (x1 - x2) (y1 - y2) := by
    simp only [body_get_centroid, hc1, hc2, vec_subtract, vec_negate, vec_multiply, vec_add,
      Vec.fin, Dbl.fin_mul_fin, Dbl.fin_add_fin, Vec.mk.injEq, Dbl.fin.injEq]
    constructor <;> ring
  have hdot : vec_dot (Vec.fin (x1 - x2) (y1 - y2)) (Vec.fin (x1 - x2) (y1 - y2))
      = Dbl.fin ((x1 - x2) * (x1 - x2) + (y1 - y2) * (y1 - y2)) := rfl
  have hnorm : normalize M (Vec.fin (x1 - x2) (y1 - y2))
      = Vec.fin ((x1 - x2) * (1 / s)) ((y1 - y2) * (1 / s)) := by
    simp only [normalize, hdot]
    simp only [Dbl.sqrt, not_lt.mpr hd2, if_false, hsqrt, Dbl.fne_fin_fin,
      hs0, decide_False, Bool.not_false, if_true, Dbl.fin_div_fin _ hs0, vec_multiply, Vec.fin,
      Dbl.fin_mul_fin]
  have hrun : gravity_creator M (aux_init [body1, body2] (Dbl.fin G)) h
      = some ((h.modify body1 fun b => body_add_force b (vec_negate
          (vec_multiply
            (Dbl.fin (G * m1 * m2
              / max ((x1 - x2) * (x1 - x2) + (y1 - y2) * (y1 - y2)) 100))
            (Vec.fin ((x1 - x2) * (1 / s)) ((y1 - y2) * (1 / s)))))).modify body2
          fun b => body_add_force b
            (vec_multiply
              (Dbl.fin (G * m1 * m2
                / max ((x1 - x2) * (x1 - x2) + (y1 - y2) * (y1 - y2)) 100))
              (Vec.fin ((x1 - x2) * (1 / s)) ((y1 - y2) * (1 / s))))) := by
    simp only [gravity_creator, aux_get_body, aux_init, list_get, List.getElem?_cons_zero,
      List.getElem?_cons_succ, Option.bind_eq_bind, Option.some_bind, aux_get_constant,
      body_get_mass, hm1, hm2, hdisp, hdot, clamp_eq_max, hnorm, Dbl.fin_mul_fin,
      Dbl.fin_div_fin _ hD]
  refine ⟨_, hrun, ?_, ?_, fun hlt => ?_, fun hle => ?_⟩
  · simp only [Heap.modify_other _ _ _ _ hne, Heap.modify_same, body_add_force, hF1,
      vec_negate, vec_multiply, vec_add, Vec.fin, Dbl.fin_mul_fin, Dbl.fin_add_fin,
      Vec.mk.injEq, Dbl.fin.injEq]
    constructor <;> ring
  · simp only [Heap.modify_other _ _ _ _ hne2, Heap.modify_same, body_add_force, hF2,
      vec_negate, vec_multiply, vec_add, Vec.fin, Dbl.fin_mul_fin, Dbl.fin_add_fin,
      Vec.mk.injEq, Dbl.fin.injEq]
    constructor <;> ring
  · rw [max_eq_right hlt.le]
  · rw [max_eq_left hle]

/-- Witness of C16 with `G = 5`, body 0 of mass 2 at `(0, 0)` and body 1 of mass 3 at
`(9, 12)`, at distance 15: body 0 is pulled toward body 1 with the force
`(5*2*3/225) * (9/15, 12/15)`, and body 1 with the opposite force.  With body 1 at
`(3, 4)`, at distance 5, the factor is `5*2*3/100`. -/
theorem gravity_creator_spec_witness :
    (0 : Nat) ≠ 1 ∧ (0 : ℚ) < 15 ∧
    libmQ.sqrt ((0 - 9) * (0 - 9) + (0 - 12) * (0 - 12)) = 15 ∧
    (∃ h2, gravity_creator libmQ (aux_init [0, 1] (Dbl.fin 5)) (mem_gravity 9 12) = some h2 ∧
      (h2 0).forces = Vec.fin (2 / 25) (8 / 75) ∧
      (h2 1).forces = Vec.fin (-2 / 25) (-8 / 75)) ∧
    (gravity_creator libmQ (aux_init [0, 1] (Dbl.fin 5)) (mem_gravity 3 4)).map
        (fun h2 => ((h2 0).forces, (h2 1).forces))
      = some (Vec.fin (5 * 2 * 3 / 100 * (3 / 5)) (5 * 2 * 3 / 100 * (4 / 5)),
          Vec.fin (-(5 * 2 * 3 / 100 * (3 / 5))) (-(5 * 2 * 3 / 100 * (4 / 5)))) :=
  ⟨by decide, by norm_num, by decide!, by
    obtain ⟨h2, hrun, hf1, hf2, _, hinv⟩ :=
      gravity_creator_spec libmQ (mem_gravity 9 12) 0 1 5 2 3 0 0 9 12 15 0 0 0 0 (by decide)
        rfl rfl rfl rfl rfl rfl (by norm_num) (by norm_num) (by decide!)
    refine ⟨h2, hrun, ?_, ?_⟩
    · rw [hf1, hinv (by norm_num)]
      norm_num [Vec.fin]
    · rw [hf2, hinv (by norm_num)]
      norm_num [Vec.fin],
    by decide!⟩

end Gravity

/-! ## The centroid of a translated polygon -/

section Centroid

variable {K : Type} [LinearOrderedField K]

theorem edges_vertex (P : List (K × K)) :
    edges (P.map vertex)
      = (List.range P.length).map fun i =>
          (vertex (P.getD i (0, 0)), vertex (P.getD ((i + 1) % P.length) (0, 0))) := by
  have hz : (VEC_ZERO : Vec K) = vertex (0, 0) := rfl
  simp only [edges, List.length_map, hz, List.getD_map]

theorem foldl_fin_sum {ι : Type} (L : List ι) (step : Dbl K → ι → Dbl K) (g : ι → K)
    (hstep : ∀ a i, step (Dbl.fin a) i = Dbl.fin (a + g i)) (a0 : K) :
    L.foldl step (Dbl.fin a0) = Dbl.fin (a0 + (L.map g).sum) := by
  induction L generalizing a0 with
  | nil => simp
  | cons i rest ih =>
    simp only [List.foldl_cons, hstep, ih, List.map_cons, List.sum_cons, add_assoc]

theorem foldl_fin_sum2 {ι : Type} (L : List ι) (step : Vec K → ι → Vec K) (g1 g2 : ι → K)
    (hstep : ∀ a b i, step (Vec.fin a b) i = Vec.fin (a + g1 i) (b + g2 i)) (a0 b0 : K) :
    L.foldl step (Vec.fin a0 b0) = Vec.fin (a0 + (L.map g1).sum) (b0 + (L.map g2).sum) := by
  induction L generalizing a0 b0 with
  | nil => simp
  | cons i rest ih =>
    simp only [List.foldl_cons, hstep, ih, List.map_cons, List.sum_cons, add_assoc]

theorem vec_cross_vertex (p q : K × K) :
    vec_cross (vertex p) (vertex q) = Dbl.fin (cross2 p q) := by
  simp [vec_cross, vertex, Vec.fin, cross2]

theorem polygon_area_vertex (P : List (K × K)) :
    polygon_area (P.map vertex) = Dbl.fin |shoelace P / 2| := by
  have h2 : (2 : K) ≠ 0 := two_ne_zero
  simp only [polygon_area, edges_vertex, List.foldl_map]
  rw [foldl_fin_sum (List.range P.length) _
    (fun i => 1 / 2 * cross2 (P.getD i (0, 0)) (P.getD ((i + 1) % P.length) (0, 0)))
    (fun a i => by simp only [vec_cross_vertex, Dbl.fin_div_fin _ h2, Dbl.fin_mul_fin,
      Dbl.fin_add_fin])]
  simp only [Dbl.fabs, zero_add, List.sum_map_mul_left, shoelace]
  congr 2
  ring

theorem polygon_centroid_vertex (P : List (K × K)) (hP : shoelace P ≠ 0) :
    polygon_centroid (P.map vertex)
      = Vec.fin (moment_x P * (1 / (6 * |shoelace P / 2|)))
          (moment_y P * (1 / (6 * |shoelace P / 2|))) := by
  have hA : 6 * |shoelace P / 2| ≠ 0 := by
    have : shoelace P / 2 ≠ 0 := div_ne_zero hP two_ne_zero
    exact mul_ne_zero (by norm_num) (abs_ne_zero.mpr this)
  have h0 : (⟨Dbl.fin 0, Dbl.fin 0⟩ : Vec K) = Vec.fin 0 0 := rfl
  simp only [polygon_centroid, polygon_area_vertex, edges_vertex, List.foldl_map, h0]
  rw [foldl_fin_sum2 (List.range P.length) _
    (fun i => ((P.getD i (0, 0)).1 + (P.getD ((i + 1) % P.length) (0, 0)).1)
      * cross2 (P.getD i (0, 0)) (P.getD ((i + 1) % P.length) (0, 0)))
    (fun i => ((P.getD i (0, 0)).2 + (P.getD ((i + 1) % P.length) (0, 0)).2)
      * cross2 (P.getD i (0, 0)) (P.getD ((i + 1) % P.length) (0, 0)))
    (fun a b i => by
      simp only [vec_cross_vertex]
      simp only [vertex, Vec.fin, Dbl.fin_mul_fin, Dbl.fin_add_fin])]
  simp only [vec_multiply, Vec.fin, Dbl.fin_mul_fin, Dbl.fin_div_fin _ hA, zero_add, moment_x,
    moment_y]

theorem list_sum_range (g : ℕ → K) (n : ℕ) :
    ((List.range n).map g).sum = ∑ i in Finset.range n, g i := by
  induction n with
  | zero => simp
  | succ n ih => rw [List.sum_range_succ, Finset.sum_range_succ, ih]

/-- A sum over the vertices of a closed chain does not depend on where the chain starts. -/
theorem sum_cyclic (a : ℕ → K) (n : ℕ) :
    ∑ i in Finset.range n, a ((i + 1) % n) = ∑ i in Finset.range n, a i := by
  cases n with
  | zero => simp
  | succ m =>
    rw [Finset.sum_range_succ, Finset.sum_range_succ' a m, Nat.mod_self]
    congr 1
    apply Finset.sum_congr rfl
    intro i hi
    rw [Nat.mod_eq_of_lt (Nat.succ_lt_succ (Finset.mem_range.mp hi))]

/-- Terms that differ by what telescopes along the closed chain have the same sum. -/
theorem sum_telescope (g g2 a : ℕ → K) (n : ℕ)
    (h : ∀ i, i < n → g2 i = g i + a i - a ((i + 1) % n)) :
    ((List.range n).map g2).sum = ((List.range n).map g).sum := by
  rw [list_sum_range, list_sum_range]
  have h1 : ∑ i in Finset.range n, g2 i
      = ∑ i in Finset.range n, (g i + a i - a ((i + 1) % n)) :=
    Finset.sum_congr rfl fun i hi => h i (Finset.mem_range.mp hi)
  rw [h1, Finset.sum_sub_distrib, Finset.sum_add_distrib, sum_cyclic a n]
  ring

theorem shift_length (tx ty : K) (P : List (K × K)) : (shift tx ty P).length = P.length := by
  simp [shift]

theorem shift_getD (tx ty : K) (P : List (K × K)) (i : ℕ) (hi : i < P.length) :
    (shift tx ty P).getD i (0, 0) = ((P.getD i (0, 0)).1 + tx, (P.getD i (0, 0)).2 + ty) := by
  rw [List.getD_eq_getElem _ _ (by rw [shift_length]; exact hi), List.getD_eq_getElem _ _ hi]
  simp [shift]

theorem next_lt (n i : ℕ) (hi : i < n) : (i + 1) % n < n :=
  Nat.mod_lt _ (Nat.lt_of_le_of_lt (Nat.zero_le _) hi)

theorem shoelace_shift (tx ty : K) (P : List (K × K)) :
    shoelace (shift tx ty P) = shoelace P := by
  simp only [shoelace, shift_length]
  apply sum_telescope _ _ (fun i => (P.getD i (0, 0)).1 * ty - (P.getD i (0, 0)).2 * tx)
  intro i hi
  rw [shift_getD _ _ _ _ hi, shift_getD _ _ _ _ (next_lt _ _ hi)]
  simp only [cross2]
  ring

theorem moment_x_shift (tx ty : K) (P : List (K × K)) :
    moment_x (shift tx ty P) = moment_x P + 3 * tx * shoelace P := by
  have h : moment_x (shift tx ty P)
      = ((List.range P.length).map fun i =>
          (((P.getD i (0, 0)).1 + (P.getD ((i + 1) % P.length) (0, 0)).1)
            * cross2 (P.getD i (0, 0)) (P.getD ((i + 1) % P.length) (0, 0))
          + 3 * tx * cross2 (P.getD i (0, 0)) (P.getD ((i + 1) % P.length) (0, 0)))).sum := by
    simp only [moment_x, shift_length]
    apply sum_telescope _ _ (fun i =>
      ty * (P.getD i (0, 0)).1 * (P.getD i (0, 0)).1
        - tx * (P.getD i (0, 0)).1 * (P.getD i (0, 0)).2
        + 2 * tx * ty * (P.getD i (0, 0)).1 - 2 * tx * tx * (P.getD i (0, 0)).2)
    intro i hi
    rw [shift_getD _ _ _ _ hi, shift_getD _ _ _ _ (next_lt _ _ hi)]
    simp only [cross2]
    ring
  rw [h, List.sum_map_add, List.sum_map_mul_left]
  rfl

theorem moment_y_shift (tx ty : K) (P : List (K × K)) :
    moment_y (shift tx ty P) = moment_y P + 3 * ty * shoelace P := by
  have h : moment_y (shift tx ty P)
      = ((List.range P.length).map fun i =>
          (((P.getD i (0, 0)).2 + (P.getD ((i + 1) % P.length) (0, 0)).2)
            * cross2 (P.getD i (0, 0)) (P.getD ((i + 1) % P.length) (0, 0))
          + 3 * ty * cross2 (P.getD i (0, 0)) (P.getD ((i + 1) % P.length) (0, 0)))).sum := by
    simp only [moment_y, shift_length]
    apply sum_telescope _ _ (fun i =>
      ty * (P.getD i (0, 0)).1 * (P.getD i (0, 0)).2
        - tx * (P.getD i (0, 0)).2 * (P.getD i (0, 0)).2
        - 2 * tx * ty * (P.getD i (0, 0)).2 + 2 * ty * ty * (P.getD i (0, 0)).1)
    intro i hi
    rw [shift_getD _ _ _ _ hi, shift_getD _ _ _ _ (next_lt _ _ hi)]
    simp only [cross2]
    ring
  rw [h, List.sum_map_add, List.sum_map_mul_left]
  rfl

theorem polygon_translate_vertex (tx ty : K) (P : List (K × K)) :
    polygon_translate (P.map vertex) (Vec.fin tx ty) = (shift tx ty P).map vertex := by
  simp [polygon_translate, shift, vertex, vec_add, Vec.fin]

/-- The centroid that polygon_centroid computes moves with a polygon whose vertices are in
counter-clockwise order. -/
theorem polygon_centroid_shift (tx ty cx cy : K) (P : List (K × K)) (hP : 0 < shoelace P)
    (hc : polygon_centroid (P.map vertex) = Vec.fin cx cy) :
    polygon_centroid ((shift tx ty P).map vertex) = Vec.fin (cx + tx) (cy + ty) := by
  have hS : shoelace P ≠ 0 := ne_of_gt hP
  have habs : |shoelace P / 2| = shoelace P / 2 := abs_of_pos (by positivity)
  rw [polygon_centroid_vertex _ hS, habs] at hc
  simp only [Vec.fin, Vec.mk.injEq, Dbl.fin.injEq] at hc
  rw [polygon_centroid_vertex _ (by rw [shoelace_shift]; exact hS), shoelace_shift,
    moment_x_shift, moment_y_shift, habs, ← hc.1, ← hc.2]
  simp only [Vec.fin, Vec.mk.injEq, Dbl.fin.injEq]
  constructor <;> field_simp <;> ring

end Centroid

/-! ## The cached centroid -/

section Cache

variable {K : Type} [LinearOrderedField K]

theorem inSync_init (P : List (K × K)) (mass : Dbl K) (garbage : Bool) (hccw : 0 < shoelace P)
    (hmass : (∃ m : K, m ≠ 0 ∧ mass = Dbl.fin m) ∨ mass = Dbl.INFINITY) :
    InSync (body_init (P.map vertex) mass garbage) :=
  ⟨P, _, _, 0, 0, 0, 0, 0, 0, rfl, hccw, polygon_centroid_vertex P (ne_of_gt hccw),
    polygon_centroid_vertex P (ne_of_gt hccw), rfl, rfl, rfl, hmass⟩

theorem inSync_set_centroid (b : Body K) (x y : K) (hb : InSync b) :
    InSync (body_set_centroid b (Vec.fin x y)) := by
  obtain ⟨P, cx, cy, vx, vy, fx, fy, jx, jy, hs, hccw, hc, hpc, hv, hf, hj, hm⟩ := hb
  have ht : vec_subtract (Vec.fin x y) (Vec.fin cx cy) = Vec.fin (x - cx) (y - cy) := by
    simp only [vec_subtract, vec_negate, vec_multiply, vec_add, Vec.fin, Dbl.fin_mul_fin,
      Dbl.fin_add_fin, Vec.mk.injEq, Dbl.fin.injEq]
    constructor <;> ring
  have hshape : (body_set_centroid b (Vec.fin x y)).shape
      = (shift (x - cx) (y - cy) P).map vertex := by
    simp only [body_set_centroid, hc, ht, hs, polygon_translate_vertex]
  refine ⟨shift (x - cx) (y - cy) P, x, y, vx, vy, fx, fy, jx, jy, hshape, ?_, rfl, ?_, hv, hf,
    hj, hm⟩
  · rw [shoelace_shift]
    exact hccw
  · rw [hshape, polygon_centroid_shift (x - cx) (y - cy) cx cy P hccw (by rw [← hs]; exact hpc)]
    simp only [Vec.fin, Vec.mk.injEq, Dbl.fin.injEq]
    constructor <;> ring

theorem body_tick_unfold (b : Body K) (dt : Dbl K) (hrem : b.remove = false) :
    body_tick b dt
      = { (body_set_centroid
            { b with velocity := (vec_add (vec_multiply (Dbl.fin 1 / b.mass) b.impulses)
                (vec_add b.velocity (vec_multiply dt
                  (vec_multiply (Dbl.fin 1 / b.mass) b.forces)))) }
            (vec_add b.center (vec_multiply (dt / Dbl.fin 2) (vec_add b.velocity
              (vec_add (vec_multiply (Dbl.fin 1 / b.mass) b.impulses)
                (vec_add b.velocity (vec_multiply dt
                  (vec_multiply (Dbl.fin 1 / b.mass) b.forces)))))))) with
          forces := VEC_ZERO, impulses := VEC_ZERO } := by
  simp [body_tick, body_is_removed, hrem, body_get_mass, body_get_centroid]

theorem inSync_tick (b : Body K) (dt : K) (hb : InSync b) :
    InSync (body_tick b (Dbl.fin dt)) := by
  cases hrem : b.remove
  · obtain ⟨P, cx, cy, vx, vy, fx, fy, jx, jy, hs, hccw, hc, hpc, hv, hf, hj, hm⟩ := hb
    have h2 : (2 : K) ≠ 0 := two_ne_zero
    obtain ⟨r, hr⟩ : ∃ r : K, Dbl.fin 1 / b.mass = Dbl.fin r := by
      rcases hm with ⟨m, hm0, hm⟩ | hm
      · exact ⟨1 / m, by rw [hm, Dbl.fin_div_fin _ hm0]⟩
      · exact ⟨0, by rw [hm]; rfl⟩
    have hvel : vec_add (vec_multiply (Dbl.fin 1 / b.mass) b.impulses)
        (vec_add b.velocity (vec_multiply (Dbl.fin dt)
          (vec_multiply (Dbl.fin 1 / b.mass) b.forces)))
        = Vec.fin (jx * r + (vx + fx * r * dt)) (jy * r + (vy + fy * r * dt)) := by
      rw [hr, hv, hf, hj]
      simp only [vec_multiply, vec_add, Vec.fin, Dbl.fin_mul_fin, Dbl.fin_add_fin]
    have hcen : vec_add b.center (vec_multiply (Dbl.fin dt / Dbl.fin 2) (vec_add b.velocity
        (Vec.fin (jx * r + (vx + fx * r * dt)) (jy * r + (vy + fy * r * dt)))))
        = Vec.fin (cx + (vx + (jx * r + (vx + fx * r * dt))) * (dt / 2))
            (cy + (vy + (jy * r + (vy + fy * r * dt))) * (dt / 2)) := by
      rw [hc, hv]
      simp only [vec_multiply, vec_add, Vec.fin, Dbl.fin_mul_fin, Dbl.fin_add_fin,
        Dbl.fin_div_fin _ h2]
    rw [body_tick_unfold _ _ hrem, hvel, hcen]
    obtain ⟨Q, qx, qy, wx, wy, gx, gy, ix, iy, hs2, hccw2, hc2, hpc2, hv2, hf2, hj2, hm2⟩ :=
      inSync_set_centroid
        { b with velocity := Vec.fin (jx * r + (vx + fx * r * dt)) (jy * r + (vy + fy * r * dt)) }
        (cx + (vx + (jx * r + (vx + fx * r * dt))) * (dt / 2))
        (cy + (vy + (jy * r + (vy + fy * r * dt))) * (dt / 2))
        ⟨P, cx, cy, _, _, fx, fy, jx, jy, hs, hccw, hc, hpc, rfl, hf, hj, hm⟩
    exact ⟨Q, qx, qy, wx, wy, 0, 0, 0, 0, hs2, hccw2, hc2, hpc2, hv2, rfl, rfl, hm2⟩
  · have : body_tick b (Dbl.fin dt) = b := by simp [body_tick, body_is_removed, hrem]
    rw [this]
    exact hb

theorem inSync_run (c : BodyCall K) (b : Body K) (hb : InSync b) : InSync (c.run b) := by
  cases c with
  | set_centroid x y => exact inSync_set_centroid b x y hb
  | tick dt => exact inSync_tick b dt hb
  | set_velocity x y =>
    obtain ⟨P, cx, cy, vx, vy, fx, fy, jx, jy, hs, hccw, hc, hpc, hv, hf, hj, hm⟩ := hb
    exact ⟨P, cx, cy, x, y, fx, fy, jx, jy, hs, hccw, hc, hpc, rfl, hf, hj, hm⟩
  | add_force x y =>
    obtain ⟨P, cx, cy, vx, vy, fx, fy, jx, jy, hs, hccw, hc, hpc, hv, hf, hj, hm⟩ := hb
    exact ⟨P, cx, cy, vx, vy, fx + x, fy + y, jx, jy, hs, hccw, hc, hpc, hv,
      by simp [BodyCall.run, body_add_force, hf, vec_add, Vec.fin], hj, hm⟩
  | add_impulse x y =>
    obtain ⟨P, cx, cy, vx, vy, fx, fy, jx, jy, hs, hccw, hc, hpc, hv, hf, hj, hm⟩ := hb
    exact ⟨P, cx, cy, vx, vy, fx, fy, jx + x, jy + y, hs, hccw, hc, hpc, hv, hf,
      by simp [BodyCall.run, body_add_impulse, hj, vec_add, Vec.fin], hm⟩

theorem inSync_run_calls (calls : List (BodyCall K)) (b : Body K) (hb : InSync b) :
    InSync (run_calls calls b) := by
  induction calls generalizing b with
  | nil => exact hb
  | cons c rest ih => exact ih _ (inSync_run c b hb)

/-- C11 (as amended): for every body built by body_init on a polygon with finite vertices
in counter-clockwise order (positive shoelace sum, so of non-zero area), with a mass that
is finite and non-zero or INFINITY, the cached centroid returned by body_get_centroid
is finite and equals polygon_centroid of the current shape of the body after body_init
and after every sequence of calls of body_set_centroid, body_tick, body_set_velocity,
body_add_force and body_add_impulse with finite arguments. -/
theorem centroid_cache_in_sync (P : List (K × K)) (mass : Dbl K) (garbage : Bool)
    (calls : List (BodyCall K)) (hccw : 0 < shoelace P)
    (hmass : (∃ m : K, m ≠ 0 ∧ mass = Dbl.fin m) ∨ mass = Dbl.INFINITY) :
    body_get_centroid (run_calls calls (body_init (P.map vertex) mass garbage))
      = polygon_centroid (run_calls calls (body_init (P.map vertex) mass garbage)).shape ∧
    ∃ cx cy : K,
      body_get_centroid (run_calls calls (body_init (P.map vertex) mass garbage))
        = Vec.fin cx cy := by
  obtain ⟨Q, cx, cy, vx, vy, fx, fy, jx, jy, hs, hq, hc, hpc, _⟩ :=
    inSync_run_calls calls _ (inSync_init P mass garbage hccw hmass)
  exact ⟨by rw [body_get_centroid, hc, hpc], cx, cy, hc⟩

/-- Witness of C11 (as amended) on the counter-clockwise square square_ccw with mass 2 and
the calls of calls_a: the cached centroid and polygon_centroid of the shape are both
`(7, 7)`. -/
theorem centroid_cache_in_sync_witness :
    (0 : ℚ) < shoelace square_ccw ∧
    body_get_centroid (run_calls calls_a (body_init (square_ccw.map vertex) (Dbl.fin 2) false))
      = polygon_centroid
          (run_calls calls_a (body_init (square_ccw.map vertex) (Dbl.fin 2) false)).shape ∧
    body_get_centroid (run_calls calls_a (body_init (square_ccw.map vertex) (Dbl.fin 2) false))
      = Vec.fin 7 7 :=
  ⟨by decide!,
    (centroid_cache_in_sync square_ccw (Dbl.fin 2) false calls_a (by decide!)
      (Or.inl ⟨2, by norm_num, rfl⟩)).1,
    by decide!⟩

/-- C11 (counterexample): the square square_cw has its vertices in clockwise order and
the area 4.  After body_init on it and body_set_centroid to `(0, 0)`, body_get_centroid
returns `(0, 0)` and polygon_centroid of the shape of the body is `(-4, 0)`. -/
theorem centroid_cache_out_of_sync_clockwise :
    shoelace square_cw = -8 ∧ polygon_area (square_cw.map vertex) = Dbl.fin 4 ∧
    body_get_centroid
        (body_set_centroid (body_init (square_cw.map vertex) (Dbl.fin 2) false) (Vec.fin 0 0))
      = Vec.fin 0 0 ∧
    polygon_centroid
        (body_set_centroid (body_init (square_cw.map vertex) (Dbl.fin 2) false)
          (Vec.fin 0 0)).shape
      = Vec.fin (-4) 0 := by
  decide!

end Cache

/-! ## The constructor of bodies -/

section Constructor

variable {K : Type} [LinearOrderedField K]

/-- C22: body_init_with_info and body_init make no test of the mass: with a zero or
a negative mass they return a body that has this mass, as with every other mass. -/
theorem body_init_accepts_nonpositive_mass :
    (body_init_with_info shape_1 (Dbl.fin 0) (some 6) false).mass = Dbl.fin 0 ∧
    (body_init_with_info shape_1 (Dbl.fin (-1)) (some 6) false).mass = Dbl.fin (-1) ∧
    (body_init shape_1 (Dbl.fin 0) false).mass = Dbl.fin 0 ∧
    (body_init shape_1 (Dbl.fin (-1)) false).mass = Dbl.fin (-1) ∧
    (∀ (shape : List (Vec K)) (mass : Dbl K) (info : Option Nat) (garbage : Bool),
      (body_init_with_info shape mass info garbage).mass = mass ∧
      (body_init shape mass garbage).mass = mass) :=
  ⟨rfl, rfl, rfl, rfl, fun _ _ _ _ => ⟨rfl, rfl⟩⟩

/-- C26: body_init_with_info assigns the velocity, the accumulated force and impulse
(zero), the removal flag (false), the score and the lives (0) and the flags `slow` and
`magnet` (false), and it does not assign the flag `double_points`: the body holds there
what the fresh allocation holds, which may be true. -/
theorem body_init_double_points_unassigned :
    (body_init_with_info shape_1 (Dbl.fin 1) (some 6) true).double_points = true ∧
    (body_init shape_1 (Dbl.fin 1) true).double_points = true ∧
    (∀ (shape : List (Vec K)) (mass : Dbl K) (info : Option Nat) (garbage : Bool),
      (body_init_with_info shape mass info garbage).double_points = garbage ∧
      (body_init_with_info shape mass info garbage).velocity = VEC_ZERO ∧
      (body_init_with_info shape mass info garbage).forces = VEC_ZERO ∧
      (body_init_with_info shape mass info garbage).impulses = VEC_ZERO ∧
      (body_init_with_info shape mass info garbage).remove = false ∧
      (body_init_with_info shape mass info garbage).score = Dbl.fin 0 ∧
      (body_init_with_info shape mass info garbage).remaining_lives = 0 ∧
      (body_init_with_info shape mass info garbage).slow = false ∧
      (body_init_with_info shape mass info garbage).magnet = false) :=
  ⟨rfl, rfl, fun _ _ _ _ => ⟨rfl, rfl, rfl, rfl, rfl, rfl, rfl, rfl, rfl⟩⟩

end Constructor

/-! ## The order of the arguments of find_collision -/

section Symmetry

/-- C27: for the disjoint rectangles shape_left (`[-2,0] x [-1,1]`) and shape_3
(`[1,3] x [-1,1]`), find_collision reports a collision with shape_left as first argument
and none with shape_3 as first argument. -/
theorem collided_depends_on_argument_order :
    (find_collision libmQ shape_left shape_3).collided = true ∧
    (find_collision libmQ shape_3 shape_left).collided = false := by
  decide!

end Symmetry

/-! ## The lives counter -/

section Lives

variable {K : Type} [LinearOrderedField K]

/-- C29: body_reduce_live takes one from a lives counter that is positive (and a
`size_t`), and leaves `2^64 - 1` when the counter is 0; remove_collision_handler on two
different bodies with no lives, of which body2 has a negative score, leaves body1 with
`2^64 - 1` lives. -/
theorem lives_wrap_around (h : Heap K) (body1 body2 : Nat) (hne : body1 ≠ body2)
    (h1 : (h body1).remaining_lives = 0) (h2 : (h body2).remaining_lives = 0)
    (hneg : (h body2).score < Dbl.fin 0) :
    (∀ b : Body K, 0 < b.remaining_lives → b.remaining_lives < SIZE_MOD →
      (body_reduce_live b).remaining_lives = b.remaining_lives - 1) ∧
    (∀ b : Body K, b.remaining_lives = 0 →
      (body_reduce_live b).remaining_lives = 18446744073709551615) ∧
    ∃ h3, remove_collision_handler body1 body2 h = some h3 ∧
      (h3 body1).remaining_lives = 18446744073709551615 := by
  have hne2 : body2 ≠ body1 := Ne.symm hne
  refine ⟨fun b hpos hlt => ?_, fun b hb => ?_, _, rfl, ?_⟩
  · simp only [body_reduce_live]
    have : b.remaining_lives + SIZE_MOD - 1 = (b.remaining_lives - 1) + SIZE_MOD := by omega
    rw [this, Nat.add_mod_right, Nat.mod_eq_of_lt (by omega)]
  · simp [body_reduce_live, hb, SIZE_MOD]
  · simp only [Heap.modify_other _ _ _ _ hne, Heap.modify_other _ _ _ _ hne2,
      Heap.modify_same, body_get_score, body_get_lives, hneg, if_true]
    simp [Heap.modify_same, Heap.modify_other _ _ _ _ hne2, body_remove, body_reduce_live,
      body_add_lives, body_add_score, body_get_lives, h1, h2, SIZE_MOD]

/-- Witness of C29 on mem_no_lives: body 0 and body 1 have no lives and body 1 has the
score -2; body 0 is left with `2^64 - 1` lives. -/
theorem lives_wrap_around_witness :
    (0 : Nat) ≠ 1 ∧ (mem_no_lives 0).remaining_lives = 0 ∧
    (mem_no_lives 1).remaining_lives = 0 ∧ (mem_no_lives 1).score < Dbl.fin 0 ∧
    ∃ h3, remove_collision_handler 0 1 mem_no_lives = some h3 ∧
      (h3 0).remaining_lives = 18446744073709551615 :=
  ⟨by decide, rfl, rfl, by decide!,
    (lives_wrap_around mem_no_lives 0 1 (by decide) rfl rfl (by decide!)).2.2⟩

end Lives

/-! ## Polygons with the vertex order reversed -/

section Reversal

variable {K : Type} [LinearOrderedField K]

theorem reverse_getD (P : List (K × K)) (i : ℕ) (hi : i < P.length) :
    P.reverse.getD i (0, 0) = P.getD (P.length - 1 - i) (0, 0) := by
  rw [List.getD_eq_getElem _ _ (by simpa using hi),
    List.getD_eq_getElem _ _ (by omega : P.length - 1 - i < P.length), List.getElem_reverse]

/-- The edge that follows vertex `i` of the reversed polygon is the edge that follows
vertex `(2n - 2 - i) % n` of the polygon, walked backwards. -/
theorem reverse_edge (P : List (K × K)) (i : ℕ) (hi : i < P.length) :
    P.reverse.getD i (0, 0)
        = P.getD (((2 * P.length - 2 - i) % P.length + 1) % P.length) (0, 0) ∧
    P.reverse.getD ((i + 1) % P.length) (0, 0)
        = P.getD ((2 * P.length - 2 - i) % P.length) (0, 0) := by
  rw [reverse_getD _ _ hi, reverse_getD _ _ (next_lt _ _ hi)]
  rcases Nat.lt_or_ge (i + 1) P.length with h | h
  · have e1 : (2 * P.length - 2 - i) % P.length = P.length - 2 - i := by
      have : 2 * P.length - 2 - i = (P.length - 2 - i) + P.length := by omega
      rw [this, Nat.add_mod_right, Nat.mod_eq_of_lt (by omega)]
    rw [e1, Nat.mod_eq_of_lt h, Nat.mod_eq_of_lt (by omega : P.length - 2 - i + 1 < P.length)]
    constructor <;> congr 1 <;> omega
  · have hi2 : i = P.length - 1 := by omega
    have e1 : (2 * P.length - 2 - i) % P.length = P.length - 1 := by
      have : 2 * P.length - 2 - i = P.length - 1 := by omega
      rw [this, Nat.mod_eq_of_lt (by omega)]
    have e2 : (i + 1) % P.length = 0 := by
      have : i + 1 = P.length := by omega
      rw [this, Nat.mod_self]
    have e3 : (P.length - 1 + 1) % P.length = 0 := by
      have : P.length - 1 + 1 = P.length := by omega
      rw [this, Nat.mod_self]
    rw [e1, e2, e3]
    constructor <;> congr 1
    omega

/-- A sum over the edges of a closed chain, taken in the reverse order. -/
theorem sum_reverse_cyclic (a : ℕ → K) (n : ℕ) :
    ∑ i in Finset.range n, a ((2 * n - 2 - i) % n) = ∑ i in Finset.range n, a i := by
  have h1 : ∑ i in Finset.range n, a ((2 * n - 2 - i) % n)
      = ∑ i in Finset.range n, (fun k => a ((k + n - 1) % n)) (n - 1 - i) := by
    apply Finset.sum_congr rfl
    intro i hi
    have := Finset.mem_range.mp hi
    show a ((2 * n - 2 - i) % n) = a ((n - 1 - i + n - 1) % n)
    congr 2
    omega
  rw [h1, Finset.sum_range_reflect (fun k => a ((k + n - 1) % n)) n,
    ← sum_cyclic (fun k => a ((k + n - 1) % n)) n]
  apply Finset.sum_congr rfl
  intro k hk
  have hk2 := Finset.mem_range.mp hk
  show a (((k + 1) % n + n - 1) % n) = a k
  congr 1
  rcases Nat.lt_or_ge (k + 1) n with h | h
  · rw [Nat.mod_eq_of_lt h]
    have : k + 1 + n - 1 = k + n := by omega
    rw [this, Nat.add_mod_right, Nat.mod_eq_of_lt hk2]
  · have : k + 1 = n := by omega
    rw [this, Nat.mod_self]
    have : 0 + n - 1 = k := by omega
    rw [this, Nat.mod_eq_of_lt hk2]

/-- Terms that are, edge by edge, the negated terms of the reversed chain have the negated
sum. -/
theorem sum_reversed (g g2 : ℕ → K) (n : ℕ)
    (h : ∀ i, i < n → g2 i = -g ((2 * n - 2 - i) % n)) :
    ((List.range n).map g2).sum = -((List.range n).map g).sum := by
  rw [list_sum_range, list_sum_range, ← sum_reverse_cyclic g n, ← Finset.sum_neg_distrib]
  exact Finset.sum_congr rfl fun i hi => h i (Finset.mem_range.mp hi)

theorem shoelace_reverse (P : List (K × K)) : shoelace P.reverse = -shoelace P := by
  simp only [shoelace, List.length_reverse]
  apply sum_reversed
  intro i hi
  obtain ⟨e1, e2⟩ := reverse_edge P i hi
  rw [e1, e2]
  simp only [cross2]
  ring

theorem moment_x_reverse (P : List (K × K)) : moment_x P.reverse = -moment_x P := by
  simp only [moment_x, List.length_reverse]
  apply sum_reversed
  intro i hi
  obtain ⟨e1, e2⟩ := reverse_edge P i hi
  rw [e1, e2]
  simp only [cross2]
  ring

theorem moment_y_reverse (P : List (K × K)) : moment_y P.reverse = -moment_y P := by
  simp only [moment_y, List.length_reverse]
  apply sum_reversed
  intro i hi
  obtain ⟨e1, e2⟩ := reverse_edge P i hi
  rw [e1, e2]
  simp only [cross2]
  ring

theorem fabs_not_neg (a : Dbl K) : ¬ (Dbl.fabs a < Dbl.fin 0) := by
  show ¬ (Dbl.lt (Dbl.fabs a) (Dbl.fin 0) = true)
  rcases a with a | _ | _ | _ <;> simp [Dbl.fabs, Dbl.lt]

/-- C24: polygon_area of a polygon with finite vertices is the absolute value of the
shoelace sum `(1/2) * sum of cross(p_i, p_(i+1))` over the cyclic vertex sequence; for
every polygon (special values included) it is not negative; and a polygon with finite
vertices and the same polygon with its vertex order reversed have equal area. -/
theorem polygon_area_spec :
    (∀ P : List (K × K),
      polygon_area (P.map vertex)
        = Dbl.fin |1 / 2 * ((List.range P.length).map fun i =>
            cross2 (P.getD i (0, 0)) (P.getD ((i + 1) % P.length) (0, 0))).sum|) ∧
    (∀ polygon : List (Vec K), ¬ (polygon_area polygon < Dbl.fin 0)) ∧
    (∀ P : List (K × K), polygon_area (P.reverse.map vertex) = polygon_area (P.map vertex)) ∧
    (∀ P : List (K × K), (P.reverse.map vertex) = (P.map vertex).reverse) := by
  refine ⟨fun P => ?_, fun polygon => ?_, fun P => ?_, fun P => ?_⟩
  · rw [polygon_area_vertex]
    congr 2
    simp only [shoelace]
    ring
  · exact fabs_not_neg _
  · rw [polygon_area_vertex, polygon_area_vertex, shoelace_reverse, neg_div, abs_neg]
  · rw [List.map_reverse]

/-- C25: for a polygon with finite vertices and a non-zero area, polygon_centroid of the
polygon with its vertex order reversed is the negation of polygon_centroid of the
polygon; for counter-clockwise vertices (positive shoelace sum) polygon_centroid is
`sum((p_i + p_(i+1)) * cross(p_i, p_(i+1))) / (6 * signed area)`, where the signed area is
half the shoelace sum, and for clockwise vertices it is minus that point. -/
theorem polygon_centroid_spec (P : List (K × K))
    (hP : polygon_area (P.map vertex) ≠ Dbl.fin 0) :
    polygon_centroid (P.reverse.map vertex) = vec_negate (polygon_centroid (P.map vertex)) ∧
    (0 < shoelace P →
      polygon_centroid (P.map vertex)
        = Vec.fin (moment_x P / (6 * (shoelace P / 2))) (moment_y P / (6 * (shoelace P / 2)))) ∧
    (shoelace P < 0 →
      polygon_centroid (P.map vertex)
        = Vec.fin (-(moment_x P / (6 * (shoelace P / 2))))
            (-(moment_y P / (6 * (shoelace P / 2))))) := by
  have hS : shoelace P ≠ 0 := by
    intro h0
    apply hP
    rw [polygon_area_vertex, h0]
    simp
  have hSr : shoelace P.reverse ≠ 0 := by
    rw [shoelace_reverse]
    exact neg_ne_zero.mpr hS
  refine ⟨?_, fun hpos => ?_, fun hneg => ?_⟩
  · rw [polygon_centroid_vertex _ hS, polygon_centroid_vertex _ hSr, shoelace_reverse,
      moment_x_reverse, moment_y_reverse, neg_div, abs_neg]
    simp only [vec_negate, vec_multiply, Vec.fin, Dbl.fin_mul_fin, Vec.mk.injEq,
      Dbl.fin.injEq]
    constructor <;> ring
  · rw [polygon_centroid_vertex _ hS, abs_of_pos (by positivity)]
    simp only [Vec.fin, Vec.mk.injEq, Dbl.fin.injEq]
    constructor <;> ring
  · have hneg2 : shoelace P / 2 < 0 := div_neg_of_neg_of_pos hneg (by norm_num)
    rw [polygon_centroid_vertex _ hS, abs_of_neg hneg2]
    simp only [Vec.fin, Vec.mk.injEq, Dbl.fin.injEq]
    constructor <;> field_simp

/-- Witness of C25 on the square `[1,3] x [-1,1]`: with counter-clockwise vertices
polygon_centroid is `(2, 0)`, and with the vertex order reversed it is `(-2, 0)`. -/
theorem polygon_centroid_spec_witness :
    polygon_area (square_ccw.map vertex) ≠ Dbl.fin 0 ∧ (0 : ℚ) < shoelace square_ccw ∧
    polygon_centroid (square_ccw.map vertex) = Vec.fin 2 0 ∧
    polygon_centroid (square_ccw.reverse.map vertex) = Vec.fin (-2) 0 ∧
    polygon_centroid (square_ccw.reverse.map vertex)
      = vec_negate (polygon_centroid (square_ccw.map vertex)) :=
  ⟨by decide!, by decide!, by decide!, by decide!,
    (polygon_centroid_spec square_ccw (by decide!)).1⟩

end Reversal

/-! ## The power-up collisions -/

section PowerUps

variable {K : Type} [LinearOrderedField K]

/-- One call, with the latch clear and on two different bodies that overlap, of a
collision creator whose handler flags body2 as removed and then applies `set` to body1:
body1 is left as `set` leaves it and body2 as body_remove leaves it, up to the negation of
their scores. -/
theorem flag_creator_step (M : Libm K) (body1 body2 : Nat) (h : Heap K) (handler : Handler)
    (oaux : Option (Dbl K)) (set : Body K → Body K) (hne : body1 ≠ body2)
    (hov : overlap_test M body1 body2 h = true)
    (hcall : ∀ axis, call_handler M handler body1 body2 axis oaux h
      = some ((h.modify body2 body_remove).modify body1 set)) :
    ∃ r, collision_creator M
        { aux_init [body1, body2] NON_CONSTANT with other_aux := oaux, handler := some handler }
        h = some r ∧
      r.2.2 = true ∧ r.1.collided_or_not = true ∧
      (r.2.1 body1 = set (h body1) ∨ r.2.1 body1 = body_negate_score (set (h body1))) ∧
      (r.2.1 body2 = body_remove (h body2) ∨
        r.2.1 body2 = body_negate_score (body_remove (h body2))) := by
  have hne2 : body2 ≠ body1 := Ne.symm hne
  simp only [overlap_test] at hov
  simp only [collision_creator, aux_get_body, aux_init, list_get, List.getElem?_cons_zero,
    List.getElem?_cons_succ, Option.bind_eq_bind, Option.some_bind, hov, if_true, hcall]
  split_ifs
  · exact ⟨_, rfl, rfl, rfl,
      Or.inr (by simp [Heap.modify_same, Heap.modify_other _ _ _ _ hne]),
      Or.inr (by simp [Heap.modify_same, Heap.modify_other _ _ _ _ hne2])⟩
  · exact ⟨_, rfl, rfl, rfl,
      Or.inl (by simp [Heap.modify_same, Heap.modify_other _ _ _ _ hne]),
      Or.inl (by simp [Heap.modify_same, Heap.modify_other _ _ _ _ hne2])⟩

/-- The collision creator that create_slow_collision (respectively
create_double_points_collision, create_magnet_collision) registers, called with its
latch clear on two different bodies for which the overlap test of the engine is true,
calls its handler and returns; afterwards the flag `slow` (respectively `double_points`,
`magnet`) of body1 is true, body2 is flagged as removed, the removal flag of body1 is as
it was, and the other two status flags of body1 are as they were. -/
theorem status_collision_spec (M : Libm K) (scene : Scene K) (body1 body2 : Nat) (h : Heap K)
    (hne : body1 ≠ body2) (hov : overlap_test M body1 body2 h = true) :
    (∀ fc, (create_slow_collision scene body1 body2).force_creators.getLast? = some fc →
      fc.aux.collided_or_not = false ∧
      ∃ fc2 h2, call_forcer M fc h = some (fc2, h2) ∧
        (h2 body1).slow = true ∧ (h2 body2).remove = true ∧
        (h2 body1).remove = (h body1).remove ∧
        (h2 body1).double_points = (h body1).double_points ∧
        (h2 body1).magnet = (h body1).magnet) ∧
    (∀ fc, (create_double_points_collision scene body1 body2).force_creators.getLast?
        = some fc →
      fc.aux.collided_or_not = false ∧
      ∃ fc2 h2, call_forcer M fc h = some (fc2, h2) ∧
        (h2 body1).double_points = true ∧ (h2 body2).remove = true ∧
        (h2 body1).remove = (h body1).remove ∧
        (h2 body1).slow = (h body1).slow ∧
        (h2 body1).magnet = (h body1).magnet) ∧
    (∀ fc, (create_magnet_collision scene body1 body2).force_creators.getLast? = some fc →
      fc.aux.collided_or_not = false ∧
      ∃ fc2 h2, call_forcer M fc h = some (fc2, h2) ∧
        (h2 body1).magnet = true ∧ (h2 body2).remove = true ∧
        (h2 body1).remove = (h body1).remove ∧
        (h2 body1).slow = (h body1).slow ∧
        (h2 body1).double_points = (h body1).double_points) := by
  have hov2 := hov
  simp only [overlap_test] at hov2
  refine ⟨fun fc hfc => ?_, fun fc hfc => ?_, fun fc hfc => ?_⟩
  · simp [create_slow_collision, create_collision, scene_add_bodies_force_creator] at hfc
    subst hfc
    obtain ⟨r, hr, _, _, h1, h2⟩ := flag_creator_step M body1 body2 h .slow_collision_handler
      (some NON_CONSTANT) (fun b => body_set_slow b true) hne hov
      (fun axis => by simp [call_handler, slow_collision_handler, hov2])
    refine ⟨rfl, ⟨.collision_creator, r.1, [body1, body2]⟩, r.2.1,
      by simp only [call_forcer, hr, Option.map_some'], ?_⟩
    rcases h1 with h1 | h1 <;> rcases h2 with h2 | h2 <;> rw [h1, h2] <;>
      exact ⟨rfl, rfl, rfl, rfl, rfl⟩
  · simp [create_double_points_collision, create_collision, scene_add_bodies_force_creator]
      at hfc
    subst hfc
    obtain ⟨r, hr, _, _, h1, h2⟩ := flag_creator_step M body1 body2 h
      .double_point_collision_handler (some NON_CONSTANT)
      (fun b => body_set_double_points b true) hne hov
      (fun axis => by simp [call_handler, double_point_collision_handler, hov2])
    refine ⟨rfl, ⟨.collision_creator, r.1, [body1, body2]⟩, r.2.1,
      by simp only [call_forcer, hr, Option.map_some'], ?_⟩
    rcases h1 with h1 | h1 <;> rcases h2 with h2 | h2 <;> rw [h1, h2] <;>
      exact ⟨rfl, rfl, rfl, rfl, rfl⟩
  · simp [create_magnet_collision, create_collision, scene_add_bodies_force_creator] at hfc
    subst hfc
    obtain ⟨r, hr, _, _, h1, h2⟩ := flag_creator_step M body1 body2 h
      .magnet_collision_handler (some NON_CONSTANT) (fun b => body_set_magnet b true) hne hov
      (fun axis => by simp [call_handler, magnet_collision_handler, hov2])
    refine ⟨rfl, ⟨.collision_creator, r.1, [body1, body2]⟩, r.2.1,
      by simp only [call_forcer, hr, Option.map_some'], ?_⟩
    rcases h1 with h1 | h1 <;> rcases h2 with h2 | h2 <;> rw [h1, h2] <;>
      exact ⟨rfl, rfl, rfl, rfl, rfl⟩

/-- On the touching squares of mem_touch the three creators set the flag
`slow`, `double_points` and `magnet` of body 0 and flag body 1 as removed. -/
theorem status_collision_spec_witness :
    (0 : Nat) ≠ 1 ∧ overlap_test libmQ 0 1 mem_touch = true ∧
    (∃ fc2 h2, call_forcer libmQ (creator_01 .slow_collision_handler) mem_touch
        = some (fc2, h2) ∧
      (h2 0).slow = true ∧ (h2 1).remove = true ∧ (h2 0).remove = (mem_touch 0).remove ∧
      (h2 0).double_points = (mem_touch 0).double_points ∧
      (h2 0).magnet = (mem_touch 0).magnet) ∧
    (call_forcer libmQ (creator_01 .double_point_collision_handler) mem_touch).map
        (fun r => ((r.2 0).slow, (r.2 0).double_points, (r.2 0).magnet, (r.2 0).remove,
          (r.2 1).remove))
      = some (false, true, false, false, true) ∧
    (call_forcer libmQ (creator_01 .magnet_collision_handler) mem_touch).map
        (fun r => ((r.2 0).slow, (r.2 0).double_points, (r.2 0).magnet, (r.2 0).remove,
          (r.2 1).remove))
      = some (false, false, true, false, true) :=
  ⟨by decide, by decide!,
    ((status_collision_spec libmQ (scene_init mem_touch false false (Dbl.fin 0)) 0 1 mem_touch
      (by decide) (by decide!)).1 (creator_01 .slow_collision_handler) (by decide!)).2,
    by decide!, by decide!⟩

/-- C21 (failing input): the triangles of the bodies 0 and 1 of mem_triangles overlap, the
point `(1/10, 3/2)` lying strictly inside both, and the collision creators that
create_slow_collision, create_double_points_collision and create_magnet_collision
register, called with their latch clear, return without calling their handler: the latch
stays clear, the flags `slow`, `double_points` and `magnet` of body 0 stay false and body
1 is not flagged as removed. -/
theorem power_up_missed_on_overlapping_triangles :
    strictly_inside (body_get_shape (mem_triangles 0)) (Vec.fin (1 / 10) (3 / 2)) = true ∧
    strictly_inside (body_get_shape (mem_triangles 1)) (Vec.fin (1 / 10) (3 / 2)) = true ∧
    (create_slow_collision (scene_init mem_triangles false false (Dbl.fin 0)) 0
      1).force_creators.getLast? = some (creator_01 .slow_collision_handler) ∧
    (create_double_points_collision (scene_init mem_triangles false false (Dbl.fin 0)) 0
      1).force_creators.getLast? = some (creator_01 .double_point_collision_handler) ∧
    (create_magnet_collision (scene_init mem_triangles false false (Dbl.fin 0)) 0
      1).force_creators.getLast? = some (creator_01 .magnet_collision_handler) ∧
    (call_forcer libmQ (creator_01 .slow_collision_handler) mem_triangles).map
        (fun r => (r.1.aux.collided_or_not, (r.2 0).slow, (r.2 1).remove))
      = some (false, false, false) ∧
    (call_forcer libmQ (creator_01 .double_point_collision_handler) mem_triangles).map
        (fun r => (r.1.aux.collided_or_not, (r.2 0).double_points, (r.2 1).remove))
      = some (false, false, false) ∧
    (call_forcer libmQ (creator_01 .magnet_collision_handler) mem_triangles).map
        (fun r => (r.1.aux.collided_or_not, (r.2 0).magnet, (r.2 1).remove))
      = some (false, false, false) := by
  decide!

end PowerUps

/-! ## The negation of the scores after a collision -/

section NegatedScores

variable {K : Type} [LinearOrderedField K]

/-- C28: when collision_creator, with its latch clear on two different bodies for which
the overlap test is true, calls its handler and the handler returns the memory `h1`, it
returns the memory `h2` in which the scores of both bodies are those of `h1` negated if
vec_opposite holds of the velocities in `h1`, and `h2 = h1` otherwise.  vec_opposite is
the test that the normalised first velocity and the negated normalised second velocity
are at a distance below 0.001, which holds of two zero velocities.  With
remove_collision_handler and scores `s1`, `s2`, the score of body1 is `-(s1 + s2)` after
the call when vec_opposite holds. -/
theorem collision_creator_negates_scores (M : Libm K) (aux : Aux K) (body1 body2 : Nat)
    (handler : Handler) (h h1 : Heap K) (hne : body1 ≠ body2)
    (hb : aux.bodies = [body1, body2]) (hh : aux.handler = some handler)
    (hlatch : aux.collided_or_not = false) (hov : overlap_test M body1 body2 h = true)
    (hcall : call_handler M handler body1 body2
      (find_collision M (body_get_shape (h body1)) (body_get_shape (h body2))).axis
      aux.other_aux h = some h1) :
    ∃ aux2 h2, collision_creator M aux h = some (aux2, h2, true) ∧
      (vec_opposite M (body_get_velocity (h1 body1)) (body_get_velocity (h1 body2)) = true →
        (h2 body1).score = -(h1 body1).score ∧ (h2 body2).score = -(h1 body2).score ∧
        ∀ x, x ≠ body1 → x ≠ body2 → h2 x = h1 x) ∧
      (vec_opposite M (body_get_velocity (h1 body1)) (body_get_velocity (h1 body2)) = false →
        h2 = h1) ∧
      (∀ v1 v2 : Vec K, vec_opposite M v1 v2
        = Dbl.lt (distance M (normalize M v1) (vec_negate (normalize M v2)))
            (Dbl.fin (1 / 1000))) ∧
      (M.sqrt 0 = 0 → vec_opposite M (VEC_ZERO : Vec K) VEC_ZERO = true) ∧
      (handler = .remove_collision_handler → ∀ s1 s2 : K,
        (h body1).score = Dbl.fin s1 → (h body2).score = Dbl.fin s2 →
        vec_opposite M (body_get_velocity (h1 body1)) (body_get_velocity (h1 body2)) = true →
        (h2 body1).score = Dbl.fin (-(s1 + s2))) := by
  have hne2 : body2 ≠ body1 := Ne.symm hne
  have hov2 := hov
  simp only [overlap_test] at hov2
  have hzero : M.sqrt 0 = 0 → vec_opposite M (VEC_ZERO : Vec K) VEC_ZERO = true := by
    intro h0
    have hn : normalize M (VEC_ZERO : Vec K) = VEC_ZERO := by
      simp [normalize, VEC_ZERO, vec_dot, Dbl.sqrt, h0]
    simp only [vec_opposite, hn]
    simp [distance, vec_negate, vec_multiply, VEC_ZERO, Dbl.sqrt, h0, Dbl.sq]
  have hscore : handler = .remove_collision_handler → ∀ s1 s2 : K,
      (h body1).score = Dbl.fin s1 → (h body2).score = Dbl.fin s2 →
      (h1 body1).score = Dbl.fin (s1 + s2) := by
    intro hrem s1 s2 hs1 hs2
    subst hrem
    simp only [call_handler, remove_collision_handler, Option.some.injEq] at hcall
    subst hcall
    simp only [Heap.modify_other _ _ _ _ hne, Heap.modify_other _ _ _ _ hne2,
      Heap.modify_same, body_get_score, body_get_lives]
    split_ifs <;>
      simp [Heap.modify_same, body_reduce_live, body_add_lives, body_add_score, body_get_score,
        hs1, hs2]
  by_cases hopp : vec_opposite M (body_get_velocity (h1 body1)) (body_get_velocity (h1 body2))
      = true
  · refine ⟨{ aux with collided_or_not := true },
      (h1.modify body1 body_negate_score).modify body2 body_negate_score, ?_, ?_, ?_,
      fun _ _ => rfl, hzero, ?_⟩
    · simp only [collision_creator, aux_get_body, list_get, hb, List.getElem?_cons_zero,
        List.getElem?_cons_succ, Option.bind_eq_bind, Option.some_bind, hov2, if_true, hlatch,
        hh, hcall, hopp]
    · intro _
      refine ⟨?_, ?_, fun x hx1 hx2 => ?_⟩
      · simp [Heap.modify_same, Heap.modify_other _ _ _ _ hne, body_negate_score]
      · simp [Heap.modify_same, Heap.modify_other _ _ _ _ hne2, body_negate_score]
      · rw [Heap.modify_other _ _ _ _ hx2, Heap.modify_other _ _ _ _ hx1]
    · intro hf
      rw [hopp] at hf
      exact absurd hf (by decide)
    · intro hrem s1 s2 hs1 hs2 _
      simp [Heap.modify_same, Heap.modify_other _ _ _ _ hne, body_negate_score,
        hscore hrem s1 s2 hs1 hs2]
  · refine ⟨{ aux with collided_or_not := true }, h1, ?_, fun ht => absurd ht hopp,
      fun _ => rfl, fun _ _ => rfl, hzero, fun _ _ _ _ _ ht => absurd ht hopp⟩
    simp only [collision_creator, aux_get_body, list_get, hb, List.getElem?_cons_zero,
      List.getElem?_cons_succ, Option.bind_eq_bind, Option.some_bind, hov2, if_true, hlatch,
      hh, hcall, hopp]
    simp

/-- Witness of C28 on mem_head_on with the creator of create_remove_collision: the
velocities `(1, 0)` and `(-1, 0)` are opposite, and body 0, with the score 5, is left
with the score `-(5 + 3)`, and body 1 with the score -3. -/
theorem collision_creator_negates_scores_witness :
    (0 : Nat) ≠ 1 ∧ overlap_test libmQ 0 1 mem_head_on = true ∧
    call_handler libmQ .remove_collision_handler 0 1
      (find_collision libmQ (body_get_shape (mem_head_on 0))
        (body_get_shape (mem_head_on 1))).axis
      (creator_01 .remove_collision_handler).aux.other_aux mem_head_on
      = some mem_head_on_handled ∧
    vec_opposite libmQ (body_get_velocity (mem_head_on_handled 0))
      (body_get_velocity (mem_head_on_handled 1)) = true ∧
    (mem_head_on_handled 0).score = Dbl.fin 8 ∧
    ∃ aux2 h2, collision_creator libmQ (creator_01 .remove_collision_handler).aux mem_head_on
        = some (aux2, h2, true) ∧
      (h2 0).score = Dbl.fin (-(5 + 3)) ∧ (h2 1).score = -(mem_head_on_handled 1).score :=
  ⟨by decide, by decide!, rfl, by decide!, by decide!, by
    obtain ⟨aux2, h2, hrun, hopp, _, _, _, hrem⟩ :=
      collision_creator_negates_scores libmQ (creator_01 .remove_collision_handler).aux 0 1
        .remove_collision_handler mem_head_on mem_head_on_handled (by decide) rfl rfl rfl
        (by decide!) rfl
    exact ⟨aux2, h2, hrun, hrem rfl 5 3 rfl rfl (by decide!), (hopp (by decide!)).2.1⟩⟩

end NegatedScores

/-! ## body_set_rotation -/

section SetRotation

variable {K : Type} [LinearOrderedField K]

/-- body_set_rotation with an angle whose sine is 1 and whose cosine is 0 turns the
current shape by a quarter turn about the cached centroid. -/
theorem body_set_rotation_quarter (T : Trig K) (a cx cy : K) (b : Body K) (P : List (K × K))
    (hs : T.sin a = 1) (hc : T.cos a = 0) (hshape : b.shape = P.map vertex)
    (hcen : b.center = Vec.fin cx cy) :
    (body_set_rotation T b (Dbl.fin a)).shape
      = (P.map fun p => (cx - (p.2 - cy), cy + (p.1 - cx))).map vertex ∧
    (body_set_rotation T b (Dbl.fin a)).center = Vec.fin cx cy := by
  refine ⟨?_, hcen⟩
  simp only [body_set_rotation, polygon_rotate, polygon_translate, body_get_centroid, hshape,
    hcen, List.map_map]
  apply List.map_congr_left
  intro p _
  simp only [Function.comp, vertex, vec_rotate, vec_add, vec_multiply, Vec.fin, Dbl.sin,
    Dbl.cos, hs, hc, Dbl.fin_mul_fin, Dbl.fin_add_fin, Dbl.fin_sub_fin, Vec.mk.injEq,
    Dbl.fin.injEq]
  constructor <;> ring

/-- C23: on the body that body_init builds on the rectangle `[0,4] x [0,2]`, with the
sine and the cosine of the real numbers, body_set_rotation with the angle `pi/2` leaves
the rectangle `[1,3] x [-1,3]`, and a second body_set_rotation with the angle `pi/2`
leaves the rectangle `[0,4] x [0,2]` again, turned by `pi` and not by `pi/2`. -/
theorem body_set_rotation_is_relative :
    (body_set_rotation ⟨Real.sin, Real.cos⟩
        (body_init (([(0, 0), (4, 0), (4, 2), (0, 2)] : List (ℝ × ℝ)).map vertex) (Dbl.fin 1)
          false)
        (Dbl.fin (Real.pi / 2))).shape
      = [Vec.fin 3 (-1), Vec.fin 3 3, Vec.fin 1 3, Vec.fin 1 (-1)] ∧
    (body_set_rotation ⟨Real.sin, Real.cos⟩
        (body_set_rotation ⟨Real.sin, Real.cos⟩
          (body_init (([(0, 0), (4, 0), (4, 2), (0, 2)] : List (ℝ × ℝ)).map vertex) (Dbl.fin 1)
            false)
          (Dbl.fin (Real.pi / 2)))
        (Dbl.fin (Real.pi / 2))).shape
      = [Vec.fin 4 2, Vec.fin 0 2, Vec.fin 0 0, Vec.fin 4 0] := by
  have hr : List.range 4 = [0, 1, 2, 3] := rfl
  have hS : shoelace ([(0, 0), (4, 0), (4, 2), (0, 2)] : List (ℝ × ℝ)) = 16 := by
    simp [shoelace, cross2, hr]
    norm_num
  have hcen : (body_init (([(0, 0), (4, 0), (4, 2), (0, 2)] : List (ℝ × ℝ)).map vertex)
      (Dbl.fin 1) false).center = Vec.fin 2 1 := by
    show polygon_centroid _ = _
    rw [polygon_centroid_vertex _ (by rw [hS]; norm_num), hS]
    simp [moment_x, moment_y, cross2, hr, Vec.fin]
    norm_num
  obtain ⟨h1, h1c⟩ := body_set_rotation_quarter (⟨Real.sin, Real.cos⟩ : Trig ℝ) (Real.pi / 2)
    2 1 _ _ Real.sin_pi_div_two Real.cos_pi_div_two rfl hcen
  obtain ⟨h2, _⟩ := body_set_rotation_quarter (⟨Real.sin, Real.cos⟩ : Trig ℝ) (Real.pi / 2)
    2 1 _ _ Real.sin_pi_div_two Real.cos_pi_div_two h1 h1c
  rw [h1, h2]
  simp [vertex, Vec.fin]
  norm_num

end SetRotation

/-! ## Newton's third law and the total momentum -/

section Momentum

variable {K : Type} [LinearOrderedField K]

theorem vec_negate_fin (a b : K) : vec_negate (Vec.fin a b) = Vec.fin (-a) (-b) := by
  simp [vec_negate, vec_multiply, Vec.fin]

theorem vec_subtract_fin (a b c d : K) :
    vec_subtract (Vec.fin a b) (Vec.fin c d) = Vec.fin (a - c) (b - d) := by
  simp only [vec_subtract, vec_negate, vec_multiply, vec_add, Vec.fin, Dbl.fin_mul_fin,
    Dbl.fin_add_fin, Vec.mk.injEq, Dbl.fin.injEq]
  constructor <;> ring

/-- The function normalize returns a finite vector on a finite vector, whatever the
square root of the library returns. -/
theorem normalize_finite (M : Libm K) (dx dy : K) :
    ∃ nx ny, normalize M (Vec.fin dx dy) = Vec.fin nx ny := by
  have hd : ¬ (dx * dx + dy * dy < 0) :=
    not_lt.mpr (add_nonneg (mul_self_nonneg dx) (mul_self_nonneg dy))
  have hdot : vec_dot (Vec.fin dx dy) (Vec.fin dx dy) = Dbl.fin (dx * dx + dy * dy) := rfl
  simp only [normalize, hdot, Dbl.sqrt, hd, if_false, Dbl.fne_fin_fin]
  by_cases h0 : M.sqrt (dx * dx + dy * dy) = 0
  · exact ⟨dx, dy, by simp [h0]⟩
  · exact ⟨dx * (1 / M.sqrt (dx * dx + dy * dy)), dy * (1 / M.sqrt (dx * dx + dy * dy)), by
      simp only [h0, decide_False, Bool.not_false, if_true, Dbl.fin_div_fin _ h0, vec_multiply,
        Vec.fin, Dbl.fin_mul_fin]⟩

/-- The creator gravity_creator on two different bodies with finite masses and centroids
adds a finite force to the second body and the opposite force to the first. -/
theorem gravity_creator_pair (M : Libm K) (h : Heap K) (a b : Nat) (G ma mb xa ya xb yb : K)
    (hne : a ≠ b) (hma : (h a).mass = Dbl.fin ma) (hmb : (h b).mass = Dbl.fin mb)
    (hca : (h a).center = Vec.fin xa ya) (hcb : (h b).center = Vec.fin xb yb) :
    ∃ h2 fx fy, gravity_creator M (aux_init [a, b] (Dbl.fin G)) h = some h2 ∧
      h2 a = body_add_force (h a) (Vec.fin (-fx) (-fy)) ∧
      h2 b = body_add_force (h b) (Vec.fin fx fy) := by
  have hne2 : b ≠ a := Ne.symm hne
  obtain ⟨nx, ny, hn⟩ := normalize_finite M (xa - xb) (ya - yb)
  have hD : max ((xa - xb) * (xa - xb) + (ya - yb) * (ya - yb)) 100 ≠ 0 :=
    ne_of_gt (lt_of_lt_of_le (by norm_num) (le_max_right _ _))
  have hdot : vec_dot (Vec.fin (xa - xb) (ya - yb)) (Vec.fin (xa - xb) (ya - yb))
      = Dbl.fin ((xa - xb) * (xa - xb) + (ya - yb) * (ya - yb)) := rfl
  have hrun : gravity_creator M (aux_init [a, b] (Dbl.fin G)) h
      = some ((h.modify a fun y => body_add_force y (vec_negate
          (vec_multiply
            (Dbl.fin (G * ma * mb / max ((xa - xb) * (xa - xb) + (ya - yb) * (ya - yb)) 100))
            (Vec.fin nx ny)))).modify b
          fun y => body_add_force y
            (vec_multiply
              (Dbl.fin (G * ma * mb / max ((xa - xb) * (xa - xb) + (ya - yb) * (ya - yb)) 100))
              (Vec.fin nx ny))) := by
    simp only [gravity_creator, aux_get_body, aux_init, list_get, List.getElem?_cons_zero,
      List.getElem?_cons_succ, Option.bind_eq_bind, Option.some_bind, aux_get_constant,
      body_get_mass, body_get_centroid, hma, hmb, hca, hcb, vec_subtract_fin, hdot,
      clamp_eq_max, hn, Dbl.fin_mul_fin, Dbl.fin_div_fin _ hD]
  refine ⟨_, nx * (G * ma * mb / max ((xa - xb) * (xa - xb) + (ya - yb) * (ya - yb)) 100),
    ny * (G * ma * mb / max ((xa - xb) * (xa - xb) + (ya - yb) * (ya - yb)) 100), hrun, ?_, ?_⟩
  · rw [Heap.modify_other _ _ _ _ hne, Heap.modify_same, ← vec_negate_fin]
    rfl
  · rw [Heap.modify_same, Heap.modify_other _ _ _ _ hne2]
    rfl

/-- The creator spring_creator on two different bodies with finite centroids adds a
finite force to the second body and the opposite force to the first. -/
theorem spring_creator_pair (h : Heap K) (a b : Nat) (k xa ya xb yb : K)
    (hne : a ≠ b) (hca : (h a).center = Vec.fin xa ya) (hcb : (h b).center = Vec.fin xb yb) :
    ∃ h2 fx fy, spring_creator (aux_init [a, b] (Dbl.fin k)) h = some h2 ∧
      h2 a = body_add_force (h a) (Vec.fin (-fx) (-fy)) ∧
      h2 b = body_add_force (h b) (Vec.fin fx fy) := by
  have hne2 : b ≠ a := Ne.symm hne
  have hforce : vec_multiply (-Dbl.fin k)
      (vec_subtract (body_get_centroid (h a)) (body_get_centroid (h b)))
      = Vec.fin (-(k * (xa - xb))) (-(k * (ya - yb))) := by
    simp only [body_get_centroid, hca, hcb, vec_subtract_fin]
    simp only [vec_multiply, Vec.fin, Dbl.neg_fin, Dbl.fin_mul_fin, Vec.mk.injEq,
      Dbl.fin.injEq]
    constructor <;> ring
  have hrun : spring_creator (aux_init [a, b] (Dbl.fin k)) h
      = some ((h.modify a fun y => body_add_force y (vec_multiply (-Dbl.fin k)
            (vec_subtract (body_get_centroid (h a)) (body_get_centroid (h b))))).modify b
          fun y => body_add_force y (vec_negate (vec_multiply (-Dbl.fin k)
            (vec_subtract (body_get_centroid (h a)) (body_get_centroid (h b)))))) := by
    simp [spring_creator, aux_get_body, aux_init, list_get, aux_get_constant]
  rw [hforce, vec_negate_fin, neg_neg, neg_neg] at hrun
  refine ⟨_, k * (xa - xb), k * (ya - yb), hrun, ?_, ?_⟩
  · rw [Heap.modify_other _ _ _ _ hne, Heap.modify_same]
  · rw [Heap.modify_same, Heap.modify_other _ _ _ _ hne2]

/-- One call of the force creator of a pairwise force keeps the accumulated forces of the
two bodies opposite, and changes nothing else of them. -/
theorem pair_step (M : Libm K) (h0 h : Heap K) (body1 body2 : Nat) (f : PairForce K)
    (m1 m2 x1 y1 x2 y2 : K) (hne : body1 ≠ body2)
    (hm1 : (h0 body1).mass = Dbl.fin m1) (hm2 : (h0 body2).mass = Dbl.fin m2)
    (hc1 : (h0 body1).center = Vec.fin x1 y1) (hc2 : (h0 body2).center = Vec.fin x2 y2)
    (hbal : ∃ p q : K, h body1 = { h0 body1 with forces := Vec.fin p q } ∧
      h body2 = { h0 body2 with forces := Vec.fin (-p) (-q) }) :
    ∃ h2, call_forcer M (f.creator body1 body2) h = some (f.creator body1 body2, h2) ∧
      ∃ p q : K, h2 body1 = { h0 body1 with forces := Vec.fin p q } ∧
        h2 body2 = { h0 body2 with forces := Vec.fin (-p) (-q) } := by
  obtain ⟨p, q, hb1, hb2⟩ := hbal
  have hne2 : body2 ≠ body1 := Ne.symm hne
  have hm1b : (h body1).mass = Dbl.fin m1 := by rw [hb1]; exact hm1
  have hm2b : (h body2).mass = Dbl.fin m2 := by rw [hb2]; exact hm2
  have hc1b : (h body1).center = Vec.fin x1 y1 := by rw [hb1]; exact hc1
  have hc2b : (h body2).center = Vec.fin x2 y2 := by rw [hb2]; exact hc2
  rcases f with ⟨G, _ | _⟩ | ⟨k, _ | _⟩
  · obtain ⟨h2, fx, fy, hrun, ha, hb⟩ :=
      gravity_creator_pair M h body1 body2 G m1 m2 x1 y1 x2 y2 hne hm1b hm2b hc1b hc2b
    refine ⟨h2, by simp only [PairForce.creator, call_forcer, hrun, Option.map_some'],
      p + -fx, q + -fy, ?_, ?_⟩
    · rw [ha, hb1]
      simp [body_add_force, vec_add, Vec.fin]
    · rw [hb, hb2]
      simp only [body_add_force, vec_add, Vec.fin, Dbl.fin_add_fin, neg_add, neg_neg]
  · obtain ⟨h2, fx, fy, hrun, ha, hb⟩ :=
      gravity_creator_pair M h body2 body1 G m2 m1 x2 y2 x1 y1 hne2 hm2b hm1b hc2b hc1b
    refine ⟨h2, by simp only [PairForce.creator, call_forcer, hrun, Option.map_some'],
      p + fx, q + fy, ?_, ?_⟩
    · rw [hb, hb1]
      simp [body_add_force, vec_add, Vec.fin]
    · rw [ha, hb2]
      simp only [body_add_force, vec_add, Vec.fin, Dbl.fin_add_fin, neg_add]
  · obtain ⟨h2, fx, fy, hrun, ha, hb⟩ :=
      spring_creator_pair h body1 body2 k x1 y1 x2 y2 hne hc1b hc2b
    refine ⟨h2, by simp only [PairForce.creator, call_forcer, hrun, Option.map_some'],
      p + -fx, q + -fy, ?_, ?_⟩
    · rw [ha, hb1]
      simp [body_add_force, vec_add, Vec.fin]
    · rw [hb, hb2]
      simp only [body_add_force, vec_add, Vec.fin, Dbl.fin_add_fin, neg_add, neg_neg]
  · obtain ⟨h2, fx, fy, hrun, ha, hb⟩ :=
      spring_creator_pair h body2 body1 k x2 y2 x1 y1 hne2 hc2b hc1b
    refine ⟨h2, by simp only [PairForce.creator, call_forcer, hrun, Option.map_some'],
      p + fx, q + fy, ?_, ?_⟩
    · rw [hb, hb1]
      simp [body_add_force, vec_add, Vec.fin]
    · rw [ha, hb2]
      simp only [body_add_force, vec_add, Vec.fin, Dbl.fin_add_fin, neg_add]

/-- The first loop of scene_tick over the creators of pairwise forces keeps the
accumulated forces of the two bodies opposite. -/
theorem pair_apply_forces (M : Libm K) (h0 : Heap K) (body1 body2 : Nat)
    (m1 m2 x1 y1 x2 y2 : K) (hne : body1 ≠ body2)
    (hm1 : (h0 body1).mass = Dbl.fin m1) (hm2 : (h0 body2).mass = Dbl.fin m2)
    (hc1 : (h0 body1).center = Vec.fin x1 y1) (hc2 : (h0 body2).center = Vec.fin x2 y2)
    (forces : List (PairForce K)) (h : Heap K)
    (hbal : ∃ p q : K, h body1 = { h0 body1 with forces := Vec.fin p q } ∧
      h body2 = { h0 body2 with forces := Vec.fin (-p) (-q) }) :
    ∃ h2, apply_forces M (forces.map (PairForce.creator body1 body2)) h
        = some (forces.map (PairForce.creator body1 body2), h2) ∧
      ∃ p q : K, h2 body1 = { h0 body1 with forces := Vec.fin p q } ∧
        h2 body2 = { h0 body2 with forces := Vec.fin (-p) (-q) } := by
  induction forces generalizing h with
  | nil => exact ⟨h, rfl, hbal⟩
  | cons f rest ih =>
    obtain ⟨h1, hcall, hbal1⟩ :=
      pair_step M h0 h body1 body2 f m1 m2 x1 y1 x2 y2 hne hm1 hm2 hc1 hc2 hbal
    obtain ⟨h2, hrest, hbal2⟩ := ih h1 hbal1
    exact ⟨h2, by simp [apply_forces, hcall, hrest], hbal2⟩

theorem register_fields (scene : Scene K) (body1 body2 : Nat) (f : PairForce K) :
    (f.register scene body1 body2).force_creators
        = scene.force_creators ++ [f.creator body1 body2] ∧
    (f.register scene body1 body2).bodies = scene.bodies ∧
    (f.register scene body1 body2).mem = scene.mem := by
  rcases f with ⟨G, _ | _⟩ | ⟨k, _ | _⟩ <;> exact ⟨rfl, rfl, rfl⟩

theorem register_all_fields (forces : List (PairForce K)) (scene : Scene K)
    (body1 body2 : Nat) :
    (forces.foldl (fun scene f => f.register scene body1 body2) scene).force_creators
        = scene.force_creators ++ forces.map (PairForce.creator body1 body2) ∧
    (forces.foldl (fun scene f => f.register scene body1 body2) scene).bodies = scene.bodies ∧
    (forces.foldl (fun scene f => f.register scene body1 body2) scene).mem = scene.mem := by
  induction forces generalizing scene with
  | nil => simp
  | cons f rest ih =>
    obtain ⟨h1, h2, h3⟩ := ih (f.register scene body1 body2)
    obtain ⟨g1, g2, g3⟩ := register_fields scene body1 body2 f
    simp only [List.foldl_cons, List.map_cons]
    rw [h1, h2, h3, g1, g2, g3]
    simp

theorem pair_scene_fields (mem : Heap K) (slow_speed have_double_points : Bool)
    (total_points : Dbl K) (body1 body2 : Nat) (forces : List (PairForce K)) :
    (pair_scene mem slow_speed have_double_points total_points body1 body2 forces).force_creators
        = forces.map (PairForce.creator body1 body2) ∧
    (pair_scene mem slow_speed have_double_points total_points body1 body2 forces).bodies
        = [body1, body2] ∧
    (pair_scene mem slow_speed have_double_points total_points body1 body2 forces).mem
        = mem := by
  obtain ⟨h1, h2, h3⟩ := register_all_fields forces
    (scene_add_body
      (scene_add_body (scene_init mem slow_speed have_double_points total_points) body1) body2)
    body1 body2
  exact ⟨by rw [pair_scene, h1]; rfl, by rw [pair_scene, h2]; rfl, by rw [pair_scene, h3]; rfl⟩

theorem body_forces_eta (b : Body K) (p q : K) (h : b.forces = Vec.fin p q) :
    b = { b with forces := Vec.fin p q } := by
  rcases b with ⟨_, forces, _, _, _, _, _, _, _, _, _, _, _, _⟩
  simp only at h
  subst h
  rfl

/-- C30: on two different bodies with finite masses and centroids and no accumulated
force, gravity_creator and spring_creator each add to one body a finite force and to the
other body the opposite force, so the two forces sum to the zero vector.  In the scene
that scene_init, scene_add_body and the constructors of any list of gravities and springs
between the two bodies build, with finite non-zero masses `m1`, `m2`, finite velocities
`v1`, `v2`, no accumulated force or impulse and no removal flag, scene_tick with a finite
`dt` returns a scene in which the velocities `w1`, `w2` of the bodies are finite and
`m1*w1 + m2*w2 = m1*v1 + m2*v2`. -/
theorem momentum_conserved (M : Libm K) (mem : Heap K) (slow_speed have_double_points : Bool)
    (total_points : Dbl K) (body1 body2 : Nat) (forces : List (PairForce K))
    (m1 m2 v1x v1y v2x v2y x1 y1 x2 y2 dt : K) (hne : body1 ≠ body2)
    (hm1 : m1 ≠ 0) (hm2 : m2 ≠ 0)
    (hmass1 : (mem body1).mass = Dbl.fin m1) (hmass2 : (mem body2).mass = Dbl.fin m2)
    (hv1 : (mem body1).velocity = Vec.fin v1x v1y) (hv2 : (mem body2).velocity = Vec.fin v2x v2y)
    (hc1 : (mem body1).center = Vec.fin x1 y1) (hc2 : (mem body2).center = Vec.fin x2 y2)
    (hF1 : (mem body1).forces = VEC_ZERO) (hF2 : (mem body2).forces = VEC_ZERO)
    (hJ1 : (mem body1).impulses = VEC_ZERO) (hJ2 : (mem body2).impulses = VEC_ZERO)
    (hr1 : (mem body1).remove = false) (hr2 : (mem body2).remove = false)
    (hlen : forces.length < SIZE_MOD) :
    (∀ G : K, ∃ h2 fx fy, gravity_creator M (aux_init [body1, body2] (Dbl.fin G)) mem = some h2 ∧
      (h2 body1).forces = Vec.fin (-fx) (-fy) ∧ (h2 body2).forces = Vec.fin fx fy ∧
      vec_add (h2 body1).forces (h2 body2).forces = VEC_ZERO) ∧
    (∀ k : K, ∃ h2 fx fy, spring_creator (aux_init [body1, body2] (Dbl.fin k)) mem = some h2 ∧
      (h2 body1).forces = Vec.fin (-fx) (-fy) ∧ (h2 body2).forces = Vec.fin fx fy ∧
      vec_add (h2 body1).forces (h2 body2).forces = VEC_ZERO) ∧
    ∃ scene2 w1x w1y w2x w2y,
      scene_tick M
        (pair_scene mem slow_speed have_double_points total_points body1 body2 forces)
        (Dbl.fin dt) = some scene2 ∧
      (scene2.mem body1).velocity = Vec.fin w1x w1y ∧
      (scene2.mem body2).velocity = Vec.fin w2x w2y ∧
      m1 * w1x + m2 * w2x = m1 * v1x + m2 * v2x ∧
      m1 * w1y + m2 * w2y = m1 * v1y + m2 * v2y := by
  have hsum : ∀ fx fy : K, vec_add (Vec.fin (-fx) (-fy)) (Vec.fin fx fy) = VEC_ZERO := by
    intro fx fy
    simp [vec_add, Vec.fin, VEC_ZERO]
  have hadd : ∀ (b : Body K) (fx fy : K), b.forces = VEC_ZERO →
      (body_add_force b (Vec.fin fx fy)).forces = Vec.fin fx fy := by
    intro b fx fy hb
    simp [body_add_force, hb, VEC_ZERO, vec_add, Vec.fin]
  refine ⟨fun G => ?_, fun k => ?_, ?_⟩
  · obtain ⟨h2, fx, fy, hrun, ha, hb⟩ :=
      gravity_creator_pair M mem body1 body2 G m1 m2 x1 y1 x2 y2 hne hmass1 hmass2 hc1 hc2
    have e1 := hadd _ (-fx) (-fy) hF1
    have e2 := hadd _ fx fy hF2
    exact ⟨h2, fx, fy, hrun, by rw [ha, e1], by rw [hb, e2], by rw [ha, hb, e1, e2, hsum]⟩
  · obtain ⟨h2, fx, fy, hrun, ha, hb⟩ :=
      spring_creator_pair mem body1 body2 k x1 y1 x2 y2 hne hc1 hc2
    have e1 := hadd _ (-fx) (-fy) hF1
    have e2 := hadd _ fx fy hF2
    exact ⟨h2, fx, fy, hrun, by rw [ha, e1], by rw [hb, e2], by rw [ha, hb, e1, e2, hsum]⟩
  · obtain ⟨hfc, hbodies, hmem⟩ := pair_scene_fields mem slow_speed have_double_points
      total_points body1 body2 forces
    obtain ⟨h2, hrun, p, q, hb1, hb2⟩ := pair_apply_forces M mem body1 body2 m1 m2 x1 y1 x2 y2
      hne hmass1 hmass2 hc1 hc2 forces mem
      ⟨0, 0, body_forces_eta _ _ _ hF1,
        body_forces_eta _ _ _ (by rw [hF2]; simp [VEC_ZERO, Vec.fin])⟩
    have hrun2 : apply_forces M
        (pair_scene mem slow_speed have_double_points total_points body1 body2
          forces).force_creators
        (pair_scene mem slow_speed have_double_points total_points body1 body2 forces).mem
        = some (forces.map (PairForce.creator body1 body2), h2) := by
      rw [hfc, hmem]
      exact hrun
    obtain ⟨scene2, htick, hmem2, _⟩ := scene_tick_eq M _ (Dbl.fin dt) _ _ hrun2
      (by rw [hbodies]; simp [SIZE_MOD]) (by rw [hfc, List.length_map]; exact hlen)
    rw [hbodies] at hmem2
    have hnd : [body1, body2].Nodup := by simp [hne]
    have hval1 : scene2.mem body1
        = body_tick { mem body1 with forces := Vec.fin p q } (Dbl.fin dt) := by
      rw [hmem2, tick_bodies_mem _ _ _ _ (by simp) hnd, hb1]
    have hval2 : scene2.mem body2
        = body_tick { mem body2 with forces := Vec.fin (-p) (-q) } (Dbl.fin dt) := by
      rw [hmem2, tick_bodies_mem _ _ _ _ (by simp) hnd, hb2]
    obtain ⟨t1, _⟩ := body_tick_fin { mem body1 with forces := Vec.fin p q }
      p q 0 0 m1 v1x v1y x1 y1 dt hm1 rfl hJ1 hmass1 hv1 hc1 hr1
    obtain ⟨t2, _⟩ := body_tick_fin { mem body2 with forces := Vec.fin (-p) (-q) }
      (-p) (-q) 0 0 m2 v2x v2y x2 y2 dt hm2 rfl hJ2 hmass2 hv2 hc2 hr2
    refine ⟨scene2, _, _, _, _, htick, by rw [hval1, t1], by rw [hval2, t2], ?_, ?_⟩
    · field_simp
      ring
    · field_simp
      ring

/-- Witness of C30 on mem_pair with a gravity (`G = 5`) and a spring (`k = 2`, bodies in
the other order) and `dt = 1`: the velocities `(3, -1)` and `(0, 1)` of the bodies of
mass 2 and 3 become `(301/25, 829/75)` and `(-452/75, -1583/225)`, and the total momentum
stays `(6, 1)`. -/
theorem momentum_conserved_witness :
    (0 : Nat) ≠ 1 ∧ (2 : ℚ) ≠ 0 ∧ (3 : ℚ) ≠ 0 ∧
    (mem_pair 0).mass = Dbl.fin 2 ∧ (mem_pair 1).mass = Dbl.fin 3 ∧
    (mem_pair 0).velocity = Vec.fin 3 (-1) ∧ (mem_pair 1).velocity = Vec.fin 0 1 ∧
    (mem_pair 0).forces = VEC_ZERO ∧ (mem_pair 1).forces = VEC_ZERO ∧
    (mem_pair 0).impulses = VEC_ZERO ∧ (mem_pair 1).impulses = VEC_ZERO ∧
    (mem_pair 0).remove = false ∧ (mem_pair 1).remove = false ∧
    (∃ scene2 w1x w1y w2x w2y,
      scene_tick libmQ
        (pair_scene mem_pair false false (Dbl.fin 0) 0 1 [.gravity 5 false, .spring 2 true])
        (Dbl.fin 1) = some scene2 ∧
      (scene2.mem 0).velocity = Vec.fin w1x w1y ∧ (scene2.mem 1).velocity = Vec.fin w2x w2y ∧
      2 * w1x + 3 * w2x = 2 * 3 + 3 * 0 ∧ 2 * w1y + 3 * w2y = 2 * (-1) + 3 * 1) ∧
    (scene_tick libmQ
        (pair_scene mem_pair false false (Dbl.fin 0) 0 1 [.gravity 5 false, .spring 2 true])
        (Dbl.fin 1)).map (fun s => ((s.mem 0).velocity, (s.mem 1).velocity))
      = some (Vec.fin (301 / 25) (829 / 75), Vec.fin (-452 / 75) (-1583 / 225)) :=
  ⟨by decide, by norm_num, by norm_num, rfl, rfl, rfl, rfl, rfl, rfl, rfl, rfl, rfl, rfl,
    (momentum_conserved libmQ mem_pair false false (Dbl.fin 0) 0 1
      [.gravity 5 false, .spring 2 true] 2 3 3 (-1) 0 1 0 0 9 12 1 (by decide) (by norm_num)
      (by norm_num) rfl rfl rfl rfl rfl rfl rfl rfl rfl rfl rfl rfl
      (by simp [SIZE_MOD])).2.2,
    by decide!⟩

end Momentum

end BeaverRun
